import Mathlib

/-! # pasmcli: credential / lease persistence, HTTP wrappers and command exit paths

A shallow embedding of the parts of the `pasmcli` command-line client that the
specification makes claims about.  Go strings are byte sequences, so they are
modelled as lists of bytes; the pieces of the Go standard library the program
calls (`unicode/utf8`, `encoding/json`, `encoding/base64`, `fmt`, `os`,
`net/http`) are modelled by their documented behaviour.
-/

namespace Pasmcli

/-! ## Bytes and strings -/

/-- A Go `byte`. -/
abbrev Byte := Fin 256

/-- A Go `string` (or `[]byte`): any byte sequence, valid UTF-8 or not. -/
abbrev GoString := List Byte

/-- The byte with value `n` (`byte(n)`, truncating like a Go conversion). -/
def B (n : Nat) : Byte := ⟨n % 256, Nat.mod_lt _ (by decide)⟩

/-- A Go string literal: the UTF-8 bytes of the text. -/
def str (s : String) : GoString :=
  s.data.flatMap fun c => (String.utf8EncodeChar c).map fun u => B u.toNat

/-! ## `unicode/utf8` -/

/-- The rune `utf8.RuneError` (U+FFFD). -/
def RuneError : Nat := 0xFFFD

/-- The table `utf8.first`: information about the first byte of an encoding.
`0xF0` is ASCII, `0xF1` is invalid, otherwise the low three bits give the size
and the high four bits index `acceptRanges`. -/
def first (p0 : Byte) : Nat :=
  if p0.val < 0x80 then 0xF0
  else if p0.val < 0xC2 then 0xF1
  else if p0.val < 0xE0 then 0x02
  else if p0.val = 0xE0 then 0x13
  else if p0.val < 0xED then 0x03
  else if p0.val = 0xED then 0x23
  else if p0.val < 0xF0 then 0x03
  else if p0.val = 0xF0 then 0x34
  else if p0.val < 0xF4 then 0x04
  else if p0.val = 0xF4 then 0x44
  else 0xF1

/-- The table `utf8.acceptRanges`: the range of valid second bytes. -/
def acceptRanges (i : Nat) : Nat × Nat :=
  match i with
  | 0 => (0x80, 0xBF)
  | 1 => (0xA0, 0xBF)
  | 2 => (0x80, 0x9F)
  | 3 => (0x90, 0xBF)
  | 4 => (0x80, 0x8F)
  | _ => (0, 0)

/-- Go `utf8.DecodeRune` / `utf8.DecodeRuneInString`: the first rune of `p` and
its width in bytes; `(RuneError, 1)` for an invalid encoding.  Masks and shifts
are written as `%` and `*` on naturals. -/
def DecodeRune (p : GoString) : Nat × Nat :=
  match p with
  | [] => (RuneError, 0)
  | p0 :: rest =>
    let x := first p0
    if x ≥ 0xF0 then
      if x % 2 = 1 then (RuneError, 1) else (p0.val, 1)
    else
      let sz := x % 8
      let accept := acceptRanges (x / 16)
      if p.length < sz then (RuneError, 1)
      else
        match rest with
        | [] => (RuneError, 1)
        | b1 :: rest1 =>
          if b1.val < accept.1 ∨ accept.2 < b1.val then (RuneError, 1)
          else if sz ≤ 2 then ((p0.val % 32) * 64 + b1.val % 64, 2)
          else
            match rest1 with
            | [] => (RuneError, 1)
            | b2 :: rest2 =>
              if b2.val < 0x80 ∨ 0xBF < b2.val then (RuneError, 1)
              else if sz ≤ 3 then
                ((p0.val % 16) * 4096 + (b1.val % 64) * 64 + b2.val % 64, 3)
              else
                match rest2 with
                | [] => (RuneError, 1)
                | b3 :: _ =>
                  if b3.val < 0x80 ∨ 0xBF < b3.val then (RuneError, 1)
                  else
                    ((p0.val % 8) * 262144 + (b1.val % 64) * 4096
                      + (b2.val % 64) * 64 + b3.val % 64, 4)

/-- Go `utf8.AppendRune` (to an empty buffer): the UTF-8 encoding of rune `r`;
surrogates and out-of-range values are encoded as `RuneError`. -/
def AppendRune (r : Nat) : GoString :=
  if r ≤ 0x7F then [B r]
  else if r ≤ 0x7FF then [B (0xC0 + r / 64), B (0x80 + r % 64)]
  else if r > 0x10FFFF ∨ (0xD800 ≤ r ∧ r ≤ 0xDFFF) then [B 0xEF, B 0xBF, B 0xBD]
  else if r ≤ 0xFFFF then
    [B (0xE0 + r / 4096), B (0x80 + r / 64 % 64), B (0x80 + r % 64)]
  else
    [B (0xF0 + r / 262144), B (0x80 + r / 4096 % 64), B (0x80 + r / 64 % 64),
      B (0x80 + r % 64)]

/-- Go `utf8.ValidString`, as the decoding loop: no position decodes to
`(RuneError, 1)`. -/
def validUTF8Aux : Nat → GoString → Bool
  | 0, s => s.isEmpty
  | _ + 1, [] => true
  | fuel + 1, b :: rest =>
    let d := DecodeRune (b :: rest)
    if d.1 = RuneError ∧ d.2 = 1 then false
    else validUTF8Aux fuel ((b :: rest).drop d.2)

/-- Go `utf8.ValidString`. -/
def ValidString (s : GoString) : Bool := validUTF8Aux s.length s

/-! ## `encoding/json`: strings -/

/-- The digits `"0123456789abcdef"` used by the encoder (`hex[n]`). -/
def hex (n : Nat) : Byte :=
  if n < 10 then B (48 + n) else B (87 + n)

/-- The table `htmlSafeSet`, for an ASCII byte: true when the byte can stand in
a JSON string inside HTML without escaping. -/
def htmlSafeSet (b : Byte) : Bool :=
  decide (0x20 ≤ b.val) && decide (b.val < 0x80) && decide (b.val ≠ 0x22) && decide (b.val ≠ 0x26)
    && decide (b.val ≠ 0x3C) && decide (b.val ≠ 0x3E) && decide (b.val ≠ 0x5C)

/-- The escape sequence the encoder writes for an ASCII byte that is not in
`htmlSafeSet` (the `switch b` of `appendString`). -/
def escapeByte (b : Byte) : GoString :=
  if b.val = 0x5C ∨ b.val = 0x22 then [B 0x5C, b]
  else if b.val = 0x08 then [B 0x5C, B 0x62]
  else if b.val = 0x0C then [B 0x5C, B 0x66]
  else if b.val = 0x0A then [B 0x5C, B 0x6E]
  else if b.val = 0x0D then [B 0x5C, B 0x72]
  else if b.val = 0x09 then [B 0x5C, B 0x74]
  else [B 0x5C, B 0x75, B 0x30, B 0x30, hex (b.val / 16), hex (b.val % 16)]

/-- The loop of `appendString(dst, src, escapeHTML = true)`: the text written
between the two quotes for the string `src`. -/
def appendStringAux : Nat → GoString → GoString
  | 0, _ => []
  | _ + 1, [] => []
  | fuel + 1, b :: rest =>
    if b.val < 0x80 then
      if htmlSafeSet b then b :: appendStringAux fuel rest
      else escapeByte b ++ appendStringAux fuel rest
    else
      let d := DecodeRune ((b :: rest).take 4)
      if d.1 = RuneError ∧ d.2 = 1 then
        [B 0x5C, B 0x75, B 0x66, B 0x66, B 0x66, B 0x64] ++ appendStringAux fuel rest
      else if d.1 = 0x2028 ∨ d.1 = 0x2029 then
        [B 0x5C, B 0x75, B 0x32, B 0x30, B 0x32, hex (d.1 % 16)]
          ++ appendStringAux fuel ((b :: rest).drop d.2)
      else (b :: rest).take d.2 ++ appendStringAux fuel ((b :: rest).drop d.2)

/-- Go `appendString` with HTML escaping: the JSON string literal for `src`,
quotes included. -/
def appendString (src : GoString) : GoString :=
  B 0x22 :: (appendStringAux src.length src ++ [B 0x22])

/-- The value of a hexadecimal digit, if it is one. -/
def hexVal (c : Byte) : Option Nat :=
  if 0x30 ≤ c.val ∧ c.val ≤ 0x39 then some (c.val - 0x30)
  else if 0x61 ≤ c.val ∧ c.val ≤ 0x66 then some (c.val - 0x61 + 10)
  else if 0x41 ≤ c.val ∧ c.val ≤ 0x46 then some (c.val - 0x41 + 10)
  else none

/-- The scanner inside a string literal (`stateInString`, `stateInStringEsc`,
`stateInStringEscU...`): given the input after the opening quote, the raw text
up to the closing quote and the input after it. -/
def scanString : GoString → Option (GoString × GoString)
  | [] => none
  | c :: rest =>
    if c.val = 0x22 then some ([], rest)
    else if c.val = 0x5C then
      match rest with
      | [] => none
      | e :: rest1 =>
        if e.val = 0x62 ∨ e.val = 0x66 ∨ e.val = 0x6E ∨ e.val = 0x72 ∨ e.val = 0x74
            ∨ e.val = 0x5C ∨ e.val = 0x2F ∨ e.val = 0x22 then
          (scanString rest1).map fun r => (c :: e :: r.1, r.2)
        else if e.val = 0x75 then
          match rest1 with
          | h1 :: h2 :: h3 :: h4 :: rest2 =>
            if (hexVal h1).isSome ∧ (hexVal h2).isSome ∧ (hexVal h3).isSome
                ∧ (hexVal h4).isSome then
              (scanString rest2).map fun r => (c :: e :: h1 :: h2 :: h3 :: h4 :: r.1, r.2)
            else none
          | _ => none
        else none
    else if c.val < 0x20 then none
    else (scanString rest).map fun r => (c :: r.1, r.2)

/-- Go `getu4`: the rune of a `\uXXXX` escape at the start of `s`, if any. -/
def getu4 (s : GoString) : Option Nat :=
  match s with
  | b :: u :: h1 :: h2 :: h3 :: h4 :: _ =>
    if b.val = 0x5C ∧ u.val = 0x75 then
      match hexVal h1, hexVal h2, hexVal h3, hexVal h4 with
      | some a, some b, some c, some d => some (a * 4096 + b * 256 + c * 16 + d)
      | _, _, _, _ => none
    else none
  | _ => none

/-- Go `utf16.DecodeRune`: the rune of a surrogate pair, or U+FFFD. -/
def utf16DecodeRune (r1 r2 : Nat) : Nat :=
  if 0xD800 ≤ r1 ∧ r1 < 0xDC00 ∧ 0xDC00 ≤ r2 ∧ r2 < 0xE000 then
    (r1 - 0xD800) * 1024 + (r2 - 0xDC00) + 0x10000
  else RuneError

/-- The loop of Go `unquoteBytes` on the raw text between the quotes of a string
literal: escapes are resolved and invalid UTF-8 is replaced by U+FFFD. -/
def unquoteAux : Nat → GoString → Option GoString
  | 0, s => if s.isEmpty then some [] else none
  | _ + 1, [] => some []
  | fuel + 1, c :: rest =>
    if c.val = 0x5C then
      match rest with
      | [] => none
      | e :: rest1 =>
        if e.val = 0x22 ∨ e.val = 0x5C ∨ e.val = 0x2F ∨ e.val = 0x27 then
          (unquoteAux fuel rest1).map fun t => e :: t
        else if e.val = 0x62 then (unquoteAux fuel rest1).map fun t => B 0x08 :: t
        else if e.val = 0x66 then (unquoteAux fuel rest1).map fun t => B 0x0C :: t
        else if e.val = 0x6E then (unquoteAux fuel rest1).map fun t => B 0x0A :: t
        else if e.val = 0x72 then (unquoteAux fuel rest1).map fun t => B 0x0D :: t
        else if e.val = 0x74 then (unquoteAux fuel rest1).map fun t => B 0x09 :: t
        else if e.val = 0x75 then
          match getu4 (c :: rest) with
          | none => none
          | some rr =>
            let after := (c :: rest).drop 6
            if 0xD800 ≤ rr ∧ rr < 0xE000 then
              let dec := utf16DecodeRune rr ((getu4 after).getD RuneError)
              if (getu4 after).isSome ∧ dec ≠ RuneError then
                (unquoteAux fuel (after.drop 6)).map fun t => AppendRune dec ++ t
              else (unquoteAux fuel after).map fun t => AppendRune RuneError ++ t
            else (unquoteAux fuel after).map fun t => AppendRune rr ++ t
        else none
    else if c.val = 0x22 ∨ c.val < 0x20 then none
    else if c.val < 0x80 then (unquoteAux fuel rest).map fun t => c :: t
    else
      let d := DecodeRune (c :: rest)
      (unquoteAux fuel ((c :: rest).drop d.2)).map fun t => AppendRune d.1 ++ t

/-- Go `unquote` on the raw text between the quotes of a scanned literal. -/
def unquote (raw : GoString) : Option GoString := unquoteAux raw.length raw

/-! ## `encoding/json`: values -/

/-- A scanned JSON value.  Literals keep their source text: a string holds the
raw text between its quotes, a number its digits; an object keeps its members
in source order with raw keys. -/
inductive Json where
  | null : Json
  | bool (b : Bool) : Json
  | number (raw : GoString) : Json
  | string (raw : GoString) : Json
  | array (items : List Json) : Json
  | object (members : List (GoString × Json)) : Json

/-- Go `isSpace` of the scanner. -/
def isSpace (c : Byte) : Bool :=
  decide (c.val = 0x20) || decide (c.val = 0x09) || decide (c.val = 0x0D) || decide (c.val = 0x0A)

/-- Drop leading JSON white space. -/
def skipSpace : GoString → GoString
  | [] => []
  | c :: rest => if isSpace c then skipSpace rest else c :: rest

/-- Is the byte a decimal digit. -/
def isDigit (c : Byte) : Bool := decide (0x30 ≤ c.val) && decide (c.val ≤ 0x39)

/-- The longest run of digits at the start of the input, and what follows. -/
def spanDigits : GoString → GoString × GoString
  | [] => ([], [])
  | c :: rest =>
    if isDigit c then ((c :: (spanDigits rest).1), (spanDigits rest).2) else ([], c :: rest)

/-- The scanner states `state1`/`state0`, `stateDot`, `stateDot0`, `stateE`,
`stateESign`, `stateE0`: the fraction and exponent after the integer part. -/
def scanFracExp (s : GoString) : Option (GoString × GoString) :=
  let frac : Option (GoString × GoString) :=
    match s with
    | c :: rest =>
      if c.val = 0x2E then
        match spanDigits rest with
        | ([], _) => none
        | (ds, rest1) => some (c :: ds, rest1)
      else some ([], s)
    | [] => some ([], s)
  match frac with
  | none => none
  | some (f, s1) =>
    match s1 with
    | e :: rest =>
      if e.val = 0x65 ∨ e.val = 0x45 then
        let sign : GoString × GoString :=
          match rest with
          | g :: rest1 => if g.val = 0x2B ∨ g.val = 0x2D then ([g], rest1) else ([], rest)
          | [] => ([], rest)
        match spanDigits sign.2 with
        | ([], _) => none
        | (ds, rest2) => some (f ++ e :: sign.1 ++ ds, rest2)
      else some (f, s1)
    | [] => some (f, s1)

/-- The scanner on a number (`stateNeg`, `state0`, `state1`, ...): the text of
the number at the start of the input and what follows it. -/
def scanNumber (s : GoString) : Option (GoString × GoString) :=
  let sign : GoString × GoString :=
    match s with
    | c :: rest => if c.val = 0x2D then ([c], rest) else ([], s)
    | [] => ([], s)
  match sign.2 with
  | [] => none
  | c :: rest =>
    if c.val = 0x30 then
      (scanFracExp rest).map fun r => (sign.1 ++ c :: r.1, r.2)
    else if 0x31 ≤ c.val ∧ c.val ≤ 0x39 then
      (scanFracExp (spanDigits rest).2).map fun r =>
        (sign.1 ++ c :: (spanDigits rest).1 ++ r.1, r.2)
    else none

/-- The scanner's limit on nested arrays and objects (`maxNestingDepth`). -/
def maxNestingDepth : Nat := 10000

mutual
/-- One JSON value at the start of the input (after optional white space), and
the input that follows it.  `depth` is the number of enclosing arrays and
objects; every call consumes fuel. -/
def parseValue : Nat → Nat → GoString → Option (Json × GoString)
  | 0, _, _ => none
  | fuel + 1, depth, s =>
    match skipSpace s with
    | [] => none
    | c :: rest =>
      if c.val = 0x7B then
        if depth + 1 > maxNestingDepth then none
        else
          match skipSpace rest with
          | [] => none
          | d :: rest1 =>
            if d.val = 0x7D then some (Json.object [], rest1)
            else parseMembers fuel (depth + 1) [] (d :: rest1)
      else if c.val = 0x5B then
        if depth + 1 > maxNestingDepth then none
        else
          match skipSpace rest with
          | [] => none
          | d :: rest1 =>
            if d.val = 0x5D then some (Json.array [], rest1)
            else parseItems fuel (depth + 1) [] (d :: rest1)
      else if c.val = 0x22 then
        (scanString rest).map fun r => (Json.string r.1, r.2)
      else if c.val = 0x2D ∨ isDigit c then
        (scanNumber (c :: rest)).map fun r => (Json.number r.1, r.2)
      else if c.val = 0x74 then
        match rest with
        | r :: u :: e :: rest1 =>
          if r.val = 0x72 ∧ u.val = 0x75 ∧ e.val = 0x65 then some (Json.bool true, rest1) else none
        | _ => none
      else if c.val = 0x66 then
        match rest with
        | a :: l :: s :: e :: rest1 =>
          if a.val = 0x61 ∧ l.val = 0x6C ∧ s.val = 0x73 ∧ e.val = 0x65 then
            some (Json.bool false, rest1)
          else none
        | _ => none
      else if c.val = 0x6E then
        match rest with
        | u :: l :: l2 :: rest1 =>
          if u.val = 0x75 ∧ l.val = 0x6C ∧ l2.val = 0x6C then some (Json.null, rest1) else none
        | _ => none
      else none
/-- The members of an object from a key on: `"key" : value` then `,` and more
members, or the closing brace.  `acc` holds the members read so far. -/
def parseMembers : Nat → Nat → List (GoString × Json) → GoString → Option (Json × GoString)
  | 0, _, _, _ => none
  | fuel + 1, depth, acc, s =>
    match skipSpace s with
    | [] => none
    | q :: rest =>
      if q.val = 0x22 then
        match scanString rest with
        | none => none
        | some (key, rest1) =>
          match skipSpace rest1 with
          | [] => none
          | colon :: rest2 =>
            if colon.val = 0x3A then
              match parseValue fuel depth rest2 with
              | none => none
              | some (v, rest3) =>
                match skipSpace rest3 with
                | [] => none
                | d :: rest4 =>
                  if d.val = 0x2C then parseMembers fuel depth (acc ++ [(key, v)]) rest4
                  else if d.val = 0x7D then some (Json.object (acc ++ [(key, v)]), rest4)
                  else none
            else none
      else none
/-- The items of an array from a value on: a value then `,` and more items, or
the closing bracket.  `acc` holds the items read so far. -/
def parseItems : Nat → Nat → List Json → GoString → Option (Json × GoString)
  | 0, _, _, _ => none
  | fuel + 1, depth, acc, s =>
    match parseValue fuel depth s with
    | none => none
    | some (v, rest) =>
      match skipSpace rest with
      | [] => none
      | d :: rest1 =>
        if d.val = 0x2C then parseItems fuel depth (acc ++ [v]) rest1
        else if d.val = 0x5D then some (Json.array (acc ++ [v]), rest1)
        else none
end

/-- The first JSON value of a stream, as `json.Decoder` reads it: leading
white space is skipped and what follows the value is left unread. -/
def readValue (data : GoString) : Option (Json × GoString) :=
  parseValue (data.length + 1) 0 data

/-- Go `checkValid` followed by scanning, as `json.Unmarshal` and `json.Indent`
see the input: exactly one value, surrounded by optional white space. -/
def parseDocument (data : GoString) : Option Json :=
  match readValue data with
  | some (v, rest) => if (skipSpace rest).isEmpty then some v else none
  | none => none

/-! ## `strconv` / `fmt`: integers in decimal -/

/-- The decimal digits of a natural number, most significant first. -/
def formatNatAux : Nat → Nat → GoString
  | 0, _ => []
  | fuel + 1, n =>
    if n < 10 then [B (48 + n)] else formatNatAux fuel (n / 10) ++ [B (48 + n % 10)]

/-- Go `strconv.FormatUint(n, 10)`. -/
def formatNat (n : Nat) : GoString := formatNatAux (n + 1) n

/-- Go `strconv.FormatInt(v, 10)`, which is also what `%d` and the JSON encoder
write for an `int`. -/
def formatInt (v : Int) : GoString :=
  if v < 0 then B 0x2D :: formatNat v.natAbs else formatNat v.natAbs

/-- The number written by a non-empty run of decimal digits. -/
def parseDigits (s : GoString) : Option Nat :=
  if s.isEmpty ∨ ¬ s.all isDigit then none
  else some (s.foldl (fun acc c => acc * 10 + (c.val - 48)) 0)

/-- Go `strconv.ParseInt(s, 10, 64)`: an optional sign and decimal digits, in
the range of `int64`; `none` stands for a returned error. -/
def parseInt64 (s : GoString) : Option Int :=
  let signed : Bool × GoString :=
    match s with
    | c :: rest =>
      if c.val = 0x2D then (true, rest) else if c.val = 0x2B then (false, rest) else (false, s)
    | [] => (false, s)
  match parseDigits signed.2 with
  | none => none
  | some n =>
    if signed.1 then (if n ≤ 2 ^ 63 then some (-(n : Int)) else none)
    else (if n < 2 ^ 63 then some (n : Int) else none)

/-! ## Errors -/

/-- The type `APIError` of `api.go`: details of a failed API request. -/
structure APIError where
  RequestURL : GoString
  HttpStatusCode : Int
  HttpStatus : GoString
  ErrorJSON : GoString
  deriving DecidableEq

/-- The method `APIError.Error`. -/
def APIError.Error (e : APIError) : GoString :=
  if e.ErrorJSON.length > 0 then
    e.RequestURL ++ str "\n" ++ e.HttpStatus ++ str "\n" ++ e.ErrorJSON
  else e.RequestURL ++ str "\n" ++ e.HttpStatus

/-- A non-nil Go `error` value. -/
inductive GoError where
  /-- An error made by `errors.New` or `fmt.Errorf`, with its text. -/
  | errorString (text : GoString) : GoError
  /-- An error returned by the standard library (`os`, `io`, `net/http`,
  `encoding/json`), with its text. -/
  | library (text : GoString) : GoError
  /-- An `APIError` returned as an `error`. -/
  | api (e : APIError) : GoError
  deriving DecidableEq

/-- The method `Error()` of an error value. -/
def GoError.Error : GoError → GoString
  | .errorString text => text
  | .library text => text
  | .api e => e.Error

/-! ## The operating system -/

/-- What the operating system answers, for the calls whose outcome the program
cannot determine itself.  `none` means the call does not fail. -/
structure OS where
  /-- The result of `os.UserHomeDir()`. -/
  UserHomeDir : Except GoError GoString
  /-- A failure of `os.Stat` other than the path not existing. -/
  statErr : GoString → Option GoError
  /-- A failure of `os.MkdirAll`. -/
  mkdirAllErr : GoString → Option GoError
  /-- A failure of `os.Create`. -/
  createErr : GoString → Option GoError
  /-- A failure of `os.Open` / `os.ReadFile` on an existing file. -/
  openErr : GoString → Option GoError
  /-- A failure of writing to the file at a path. -/
  writeErr : GoString → Option GoError

/-- The file system: the content of each regular file and the set of
directories, by path. -/
structure FS where
  files : GoString → Option GoString
  dirs : GoString → Bool

/-- The file system after the file at `path` has been given content `data`. -/
def FS.writeFile (fs : FS) (path data : GoString) : FS :=
  { fs with files := fun p => if p = path then some data else fs.files p }

/-- The file system after directory `path` has been made. -/
def FS.mkdir (fs : FS) (path : GoString) : FS :=
  { fs with dirs := fun p => if p = path then true else fs.dirs p }

/-- The error of a path that does not exist (`fs.ErrNotExist` in a `PathError`). -/
def notExistError (op path : GoString) : GoError :=
  GoError.library (op ++ str " " ++ path ++ str ": no such file or directory")

/-- Go `os.Stat`, as far as the program looks at it: `none` when the path
exists, else the error and whether `os.IsNotExist` holds of it. -/
def osStat (os : OS) (fs : FS) (path : GoString) : Option (GoError × Bool) :=
  match os.statErr path with
  | some e => some (e, false)
  | none =>
    if fs.dirs path ∨ (fs.files path).isSome then none
    else some (notExistError (str "stat") path, true)

/-- Go `os.MkdirAll(path, 0755)`. -/
def osMkdirAll (os : OS) (fs : FS) (path : GoString) : Option GoError × FS :=
  match os.mkdirAllErr path with
  | some e => (some e, fs)
  | none => (none, fs.mkdir path)

/-- Go `os.Create`: the file is created or truncated. -/
def osCreate (os : OS) (fs : FS) (path : GoString) : Option GoError × FS :=
  match os.createErr path with
  | some e => (some e, fs)
  | none => (none, fs.writeFile path [])

/-- One `Write` of `data` to the file just created at `path`. -/
def osWrite (os : OS) (fs : FS) (path data : GoString) : Option GoError × FS :=
  match os.writeErr path with
  | some e => (some e, fs)
  | none => (none, fs.writeFile path ((fs.files path).getD [] ++ data))

/-- Go `os.Open` followed by reading the whole file. -/
def osOpen (os : OS) (fs : FS) (path : GoString) : Except GoError GoString :=
  match fs.files path with
  | none => .error (notExistError (str "open") path)
  | some data =>
    match os.openErr path with
    | some e => .error e
    | none => .ok data

/-! ## `path/filepath` (Unix) -/

/-- The pieces of a path between its separators `/`. -/
def splitPath : GoString → List GoString
  | [] => [[]]
  | c :: rest =>
    if c.val = 0x2F then [] :: splitPath rest
    else
      match splitPath rest with
      | [] => [[c]]
      | x :: xs => (c :: x) :: xs

/-- One step of `filepath.Clean` on the stack of kept elements (innermost
first): empty and `.` elements are dropped, `..` removes the element before it,
is dropped at the root and is kept at the start of a relative path. -/
def cleanStep (rooted : Bool) (stack : List GoString) (elem : GoString) : List GoString :=
  if elem = [] ∨ elem = str "." then stack
  else if elem = str ".." then
    match stack with
    | top :: below => if top = str ".." then elem :: stack else below
    | [] => if rooted then [] else [elem]
  else elem :: stack

/-- Go `filepath.Clean`: the shortest path name equivalent to `path` by purely
lexical processing. -/
def Clean (path : GoString) : GoString :=
  let rooted : Bool := match path with
    | c :: _ => decide (c.val = 0x2F)
    | [] => false
  let stack := (splitPath path).foldl (cleanStep rooted) []
  let body := (str "/").intercalate stack.reverse
  let out := if rooted then B 0x2F :: body else body
  if out = [] then str "." else out

/-- Go `filepath.Join`: the elements from the first non-empty one on, joined
with `/` and cleaned; `""` when all are empty. -/
def Join : List GoString → GoString
  | [] => []
  | e :: rest => if e = [] then Join rest else Clean ((str "/").intercalate (e :: rest))

/-! ## `encoding/json`: decoding into a struct -/

/-- Go `foldRune` outside ASCII: the smallest rune of the case-folding orbit.
Only the orbits of `K` (with U+212A) and `S` (with U+017F) reach into ASCII;
every other rune is kept, its orbit holding no ASCII letter. -/
def foldRune (r : Nat) : Nat :=
  if r = 0x212A then 0x4B else if r = 0x17F then 0x53 else r

/-- The loop of Go `appendFoldedName`. -/
def foldNameAux : Nat → GoString → GoString
  | 0, _ => []
  | _ + 1, [] => []
  | fuel + 1, c :: rest =>
    if c.val < 0x80 then
      (if 0x61 ≤ c.val ∧ c.val ≤ 0x7A then B (c.val - 32) else c) :: foldNameAux fuel rest
    else
      let d := DecodeRune (c :: rest)
      AppendRune (foldRune d.1) ++ foldNameAux fuel ((c :: rest).drop d.2)

/-- Go `foldName`: the key under which a field name is matched without regard
to case. -/
def foldName (name : GoString) : GoString := foldNameAux name.length name

/-- The struct field an object key selects: the field with exactly that JSON
name, else the first field whose folded name equals the folded key. -/
def fieldIndex (names : List GoString) (key : GoString) : Option Nat :=
  match names.indexOf? key with
  | some i => some i
  | none => (names.map foldName).indexOf? (foldName key)

/-- The word `UnmarshalTypeError.Value` uses for a JSON value. -/
def Json.kindName : Json → GoString
  | .null => str "null"
  | .bool _ => str "bool"
  | .number raw => str "number " ++ raw
  | .string _ => str "string"
  | .array _ => str "array"
  | .object _ => str "object"

/-- The error `*json.UnmarshalTypeError` for a struct field. -/
def unmarshalTypeError (value structName field typ : GoString) : GoError :=
  GoError.library (str "json: cannot unmarshal " ++ value ++ str " into Go struct field "
    ++ structName ++ str "." ++ field ++ str " of type " ++ typ)

/-- The error of a syntactically invalid or truncated JSON text
(`*json.SyntaxError`, or the end-of-input error of a decoder).  The text Go
gives it names the offending character and the place it stands in, or the
unexpected end of the input; that text is not modelled, and the text of this
value only stands for it. -/
def jsonSyntaxError : GoError := GoError.library (str "invalid JSON input")

/-- The error of `json.Unmarshal` on an input that holds nothing but white
space: `checkValid` reaches the end of the input before any value. -/
def jsonUnexpectedEnd : GoError := GoError.library (str "unexpected end of JSON input")

/-- Decoding a JSON value into a Go `string`: `some none` leaves the field as
it is (JSON `null`), `none` is a type mismatch. -/
def decodeString (v : Json) : Option (Option GoString) :=
  match v with
  | .null => some none
  | .string raw => some (some ((unquote raw).getD []))
  | _ => none

/-- Decoding a JSON value into a Go `int`: `some none` leaves the field as it
is (JSON `null`), `none` is a type mismatch or a number that is no `int64`. -/
def decodeInt (v : Json) : Option (Option Int) :=
  match v with
  | .null => some none
  | .number raw => (parseInt64 raw).map some
  | _ => none

/-- Keep the first error (`decodeState.saveError`). -/
def saveError (saved : Option GoError) (e : GoError) : Option GoError :=
  match saved with
  | some old => some old
  | none => some e

/-- The type `tokenInfo` of `utils.go`. -/
structure tokenInfo where
  AccessToken : GoString
  Server : GoString
  CACertFile : GoString
  deriving DecidableEq

/-- The JSON names of the fields of `tokenInfo`, in order. -/
def tokenInfoFields : List GoString :=
  [str "access_token", str "server", str "cacert_file"]

/-- One member of a JSON object decoded into a `tokenInfo`. -/
def tokenInfo.decodeMember (acc : tokenInfo × Option GoError) (m : GoString × Json) :
    tokenInfo × Option GoError :=
  let key := (unquote m.1).getD []
  match fieldIndex tokenInfoFields key with
  | none => acc
  | some i =>
    match decodeString m.2 with
    | none =>
      (acc.1, saveError acc.2
        (unmarshalTypeError m.2.kindName (str "tokenInfo") (tokenInfoFields.getD i []) (str "string")))
    | some none => acc
    | some (some s) =>
      if i = 0 then ({ acc.1 with AccessToken := s }, acc.2)
      else if i = 1 then ({ acc.1 with Server := s }, acc.2)
      else ({ acc.1 with CACertFile := s }, acc.2)

/-- Go `json.Unmarshal` of a scanned value into a `*tokenInfo`: the struct after
decoding and the error returned, if any. -/
def tokenInfo.decode (v : Json) (into : tokenInfo) : tokenInfo × Option GoError :=
  match v with
  | .null => (into, none)
  | .object members => members.foldl tokenInfo.decodeMember (into, none)
  | other =>
    (into, some (GoError.library (str "json: cannot unmarshal " ++ other.kindName
      ++ str " into Go value of type cmd.tokenInfo")))

/-- What `json.NewEncoder(file).Encode(&info)` writes for a `tokenInfo`. -/
def tokenInfo.encode (info : tokenInfo) : GoString :=
  str "\x7b\"access_token\":" ++ appendString info.AccessToken
    ++ str ",\"server\":" ++ appendString info.Server
    ++ str ",\"cacert_file\":" ++ appendString info.CACertFile ++ str "\x7d" ++ str "\n"

/-! ## The process -/

/-- The state a command runs in: the file system, the package variable
`gTokenInfo` and what has been written to standard output and to standard
error. -/
structure World where
  fs : FS
  gTokenInfo : tokenInfo
  stdout : GoString
  stderr : GoString

/-- A process that has just started: `gTokenInfo` is the zero value and
nothing has been printed. -/
def World.fresh (fs : FS) : World :=
  { fs := fs, gTokenInfo := { AccessToken := [], Server := [], CACertFile := [] }, stdout := [],
    stderr := [] }

/-- How a piece of the program ends: it returns a value, calls `os.Exit`, or
panics (the Go runtime then prints the panic and exits with code 2). -/
inductive Outcome (α : Type) where
  | ret (a : α) : Outcome α
  | exit (code : Int) : Outcome α
  | panic (msg : GoString) : Outcome α
  deriving DecidableEq

/-- A piece of the program: from a state to an outcome and the state after. -/
def Proc (α : Type) : Type := World → Outcome α × World

/-- Return a value without touching the state. -/
def Proc.pure {α : Type} (a : α) : Proc α := fun w => (Outcome.ret a, w)

/-- Sequencing: an exit or panic ends the process, a returned value goes on. -/
def Proc.bind {α β : Type} (m : Proc α) (f : α → Proc β) : Proc β := fun w =>
  match m w with
  | (Outcome.ret a, w1) => f a w1
  | (Outcome.exit code, w1) => (Outcome.exit code, w1)
  | (Outcome.panic msg, w1) => (Outcome.panic msg, w1)

instance : Monad Proc where
  pure := Proc.pure
  bind := Proc.bind

/-- Go `os.Exit(code)`. -/
def osExit {α : Type} (code : Int) : Proc α := fun w => (Outcome.exit code, w)

/-- A run-time panic. -/
def goPanic {α : Type} (msg : GoString) : Proc α := fun w => (Outcome.panic msg, w)

/-- Write text to standard output (`fmt.Print`). -/
def print (text : GoString) : Proc Unit := fun w =>
  (Outcome.ret (), { w with stdout := w.stdout ++ text })

/-- Go `fmt.Println` of one string. -/
def Println (text : GoString) : Proc Unit := print (text ++ str "\n")

/-- The exit code of the process for an outcome of its `main`. -/
def Outcome.exitCode {α : Type} : Outcome α → Int
  | .ret _ => 0
  | .exit code => code
  | .panic _ => 2

/-! ## `utils.go` and `PASMCLIutils.go`: the data directory and the token file -/

/-- The constant `DefaultTokenFilename`. -/
def DefaultTokenFilename : GoString := str "pasm_token.txt"

/-- The constant `PASMCLIDataSubdir`. -/
def PASMCLIDataSubdir : GoString := str "pasmcli.data"

/-- The function `GetDataDir`: the data directory under the home directory,
made if it does not exist. -/
def GetDataDir (os : OS) : Proc (GoString × Option GoError) := fun w =>
  match os.UserHomeDir with
  | .error err => (Outcome.ret ([], some err), w)
  | .ok baseDir =>
    let pasmCLIDir := Join [baseDir, PASMCLIDataSubdir]
    match osStat os w.fs pasmCLIDir with
    | some (err, true) =>
      match osMkdirAll os w.fs pasmCLIDir with
      | (some _, fs1) => (Outcome.ret ([], some err), { w with fs := fs1 })
      | (none, fs1) => (Outcome.ret (pasmCLIDir, none), { w with fs := fs1 })
    | _ => (Outcome.ret (pasmCLIDir, none), w)

/-- The token file a call works on: the given one, or the default file in the
data directory when none is given (the first lines of `SaveAccessToken` and
`LoadAccessToken`). -/
def resolveTokenFile (os : OS) (tokenFile : GoString) : Proc (GoString × Option GoError) :=
  if tokenFile = [] then do
    let r ← GetDataDir os
    match r.2 with
    | some err => pure ([], some err)
    | none => pure (Join [r.1, DefaultTokenFilename], none)
  else pure (tokenFile, none)

/-- The function `SaveAccessToken`. -/
def SaveAccessToken (os : OS) (tokenFile accessToken server caCertFile : GoString) :
    Proc (GoString × Option GoError) := do
  let r ← resolveTokenFile os tokenFile
  match r.2 with
  | some err => pure ([], some err)
  | none =>
    let info : tokenInfo := { AccessToken := accessToken, Server := server, CACertFile := caCertFile }
    fun w =>
      match osCreate os w.fs r.1 with
      | (some err, fs1) => (Outcome.ret (r.1, some err), { w with fs := fs1 })
      | (none, fs1) =>
        let wr := osWrite os fs1 r.1 info.encode
        (Outcome.ret (r.1, wr.1), { w with fs := wr.2 })

/-- The function `LoadAccessToken`. -/
def LoadAccessToken (os : OS) (tokenFile : GoString) : Proc (GoString × Option GoError) := do
  let r ← resolveTokenFile os tokenFile
  match r.2 with
  | some err => pure ([], some err)
  | none =>
    fun w =>
      match osOpen os w.fs r.1 with
      | .error err => (Outcome.ret (r.1, some err), w)
      | .ok data =>
        match readValue data with
        | none => (Outcome.ret (r.1, some jsonSyntaxError), w)
        | some (v, _) =>
          let d := tokenInfo.decode v w.gTokenInfo
          let w1 := { w with gTokenInfo := d.1 }
          match d.2 with
          | some err => (Outcome.ret (r.1, some err), w1)
          | none =>
            if d.1.AccessToken = [] ∨ d.1.Server = [] then
              (Outcome.ret (r.1, some (GoError.errorString
                (str "Invalid or corrupt Token File - access_token or server is missing"))), w1)
            else (Outcome.ret (r.1, none), w1)

/-- The function `GetAccessToken`. -/
def GetAccessToken (w : World) : GoString := w.gTokenInfo.AccessToken

/-- The function `GetServer`. -/
def GetServer (w : World) : GoString := w.gTokenInfo.Server

/-- The function `GetCACertFile`. -/
def GetCACertFile (w : World) : GoString := w.gTokenInfo.CACertFile

/-- Every path that exists in the first file system exists in the second. -/
def FS.le (fs1 fs2 : FS) : Prop :=
  (∀ p, fs1.dirs p = true → fs2.dirs p = true)
    ∧ (∀ p, (fs1.files p).isSome = true → (fs2.files p).isSome = true)

/-! ## Concrete environments for the examples -/

/-- An operating system in which no call fails; the home directory is `/home/u`. -/
def exampleOS : OS :=
  { UserHomeDir := .ok (str "/home/u"),
    statErr := fun _ => none,
    mkdirAllErr := fun _ => none,
    createErr := fun _ => none,
    openErr := fun _ => none,
    writeErr := fun _ => none }

/-- An operating system that refuses to create any file. -/
def readOnlyOS : OS :=
  { exampleOS with createErr := fun p => some (GoError.library (str "open " ++ p ++ str ": permission denied")) }

/-- A file system with no file and no directory. -/
def emptyFS : FS := { files := fun _ => none, dirs := fun _ => false }

/-! ## `encoding/base64` -/

/-- The alphabet of `base64.StdEncoding` (`encodeStd[n]`, for `n < 64`). -/
def encodeStd (n : Nat) : Byte :=
  if n < 26 then B (65 + n)
  else if n < 52 then B (97 + (n - 26))
  else if n < 62 then B (48 + (n - 52))
  else if n = 62 then B 0x2B
  else B 0x2F

/-- Go `base64.StdEncoding.EncodeToString`: three bytes become four characters
of the alphabet; a last group of one or two bytes is padded with `=`. -/
def b64Encode : GoString → GoString
  | [] => []
  | [a] => [encodeStd (a.val / 4), encodeStd (a.val % 4 * 16), B 0x3D, B 0x3D]
  | [a, b] =>
    [encodeStd (a.val / 4), encodeStd (a.val % 4 * 16 + b.val / 16),
      encodeStd (b.val % 16 * 4), B 0x3D]
  | a :: b :: c :: rest =>
    encodeStd (a.val / 4) :: encodeStd (a.val % 4 * 16 + b.val / 16)
      :: encodeStd (b.val % 16 * 4 + c.val / 64) :: encodeStd (c.val % 64) :: b64Encode rest

/-- The position of a character in the alphabet of `base64.StdEncoding`, if it
is in the alphabet (the table `decodeMap`). -/
def decodeStd (c : Byte) : Option Nat :=
  if 65 ≤ c.val ∧ c.val ≤ 90 then some (c.val - 65)
  else if 97 ≤ c.val ∧ c.val ≤ 122 then some (c.val - 97 + 26)
  else if 48 ≤ c.val ∧ c.val ≤ 57 then some (c.val - 48 + 52)
  else if c.val = 0x2B then some 62
  else if c.val = 0x2F then some 63
  else none

/-- The bytes `base64.StdEncoding.Decode` has written when it returns, for an
input without line breaks: every group of four characters gives three bytes, a
group padded with `=` gives one or two and ends the input, and decoding stops
without output at the first group that is malformed or incomplete. -/
def decodeQuanta : GoString → GoString
  | c0 :: c1 :: c2 :: c3 :: rest =>
    match decodeStd c0, decodeStd c1 with
    | some i0, some i1 =>
      if c2.val = 0x3D then
        if c3.val = 0x3D then [B (i0 * 4 + i1 / 16)] else []
      else
        match decodeStd c2 with
        | none => []
        | some i2 =>
          if c3.val = 0x3D then [B (i0 * 4 + i1 / 16), B (i1 % 16 * 16 + i2 / 4)]
          else
            match decodeStd c3 with
            | none => []
            | some i3 =>
              B (i0 * 4 + i1 / 16) :: B (i1 % 16 * 16 + i2 / 4) :: B (i2 % 4 * 64 + i3)
                :: decodeQuanta rest
    | _, _ => []
  | _ => []

/-- Go `base64.StdEncoding.DecodeString` with its error dropped: line breaks
(`\r`, `\n`) are skipped, and on malformed input the bytes decoded before the
error are returned. -/
def b64Decode (s : GoString) : GoString :=
  decodeQuanta (s.filter fun c => decide (c.val ≠ 0x0A) && decide (c.val ≠ 0x0D))

/-- The function `B64Decode` of `utils.go`. -/
def B64Decode (b64Str : GoString) : GoString := b64Decode b64Str

/-- The function `B64Encode` of `utils.go`. -/
def B64Encode (data : GoString) : GoString := b64Encode data

/-! ## `PASMCLIutils.go`: lease files -/

/-- The type `leaseInfo`. -/
structure leaseInfo where
  BoxId : GoString
  SecretId : GoString
  LeaseId : GoString
  ExpiresAt : GoString
  Renewable : GoString
  Version : Int
  deriving DecidableEq

/-- The JSON names of the fields of `leaseInfo`, in order. -/
def leaseInfoFields : List GoString :=
  [str "box_id", str "secret_id", str "lease_id", str "expires_at", str "renewable",
    str "version"]

/-- What `json.NewEncoder(file).Encode(&info)` writes for a `leaseInfo`. -/
def leaseInfo.encode (info : leaseInfo) : GoString :=
  str "\x7b\"box_id\":" ++ appendString info.BoxId
    ++ str ",\"secret_id\":" ++ appendString info.SecretId
    ++ str ",\"lease_id\":" ++ appendString info.LeaseId
    ++ str ",\"expires_at\":" ++ appendString info.ExpiresAt
    ++ str ",\"renewable\":" ++ appendString info.Renewable
    ++ str ",\"version\":" ++ formatInt info.Version ++ str "\x7d" ++ str "\n"

/-- One member of a JSON object decoded into a `leaseInfo`. -/
def leaseInfo.decodeMember (acc : leaseInfo × Option GoError) (m : GoString × Json) :
    leaseInfo × Option GoError :=
  let key := (unquote m.1).getD []
  match fieldIndex leaseInfoFields key with
  | none => acc
  | some i =>
    if i = 5 then
      match decodeInt m.2 with
      | none =>
        (acc.1, saveError acc.2
          (unmarshalTypeError m.2.kindName (str "leaseInfo") (str "version") (str "int")))
      | some none => acc
      | some (some n) => ({ acc.1 with Version := n }, acc.2)
    else
      match decodeString m.2 with
      | none =>
        (acc.1, saveError acc.2
          (unmarshalTypeError m.2.kindName (str "leaseInfo") (leaseInfoFields.getD i [])
            (str "string")))
      | some none => acc
      | some (some s) =>
        if i = 0 then ({ acc.1 with BoxId := s }, acc.2)
        else if i = 1 then ({ acc.1 with SecretId := s }, acc.2)
        else if i = 2 then ({ acc.1 with LeaseId := s }, acc.2)
        else if i = 3 then ({ acc.1 with ExpiresAt := s }, acc.2)
        else ({ acc.1 with Renewable := s }, acc.2)

/-- Go `json.Unmarshal` of a scanned value into a `*leaseInfo`. -/
def leaseInfo.decode (v : Json) (into : leaseInfo) : leaseInfo × Option GoError :=
  match v with
  | .null => (into, none)
  | .object members => members.foldl leaseInfo.decodeMember (into, none)
  | other =>
    (into, some (GoError.library (str "json: cannot unmarshal " ++ other.kindName
      ++ str " into Go value of type cmd.leaseInfo")))

/-- The function `GetLeaseFilePath`; `version` is a Go `int`, `-1` standing for
no version. -/
def GetLeaseFilePath (os : OS) (boxId secretId : GoString) (version : Int) :
    Proc (GoString × Option GoError) := do
  let r ← GetDataDir os
  match r.2 with
  | some err => pure ([], some err)
  | none =>
    let identifier : GoString :=
      if version ≠ -1 then boxId ++ str "|" ++ secretId ++ str "|" ++ formatInt version
      else boxId ++ str "|" ++ secretId
    let b64Identifier := b64Encode identifier
    pure (r.1 ++ str "/vault_lease_" ++ b64Identifier ++ str ".txt", none)

/-- The function `SaveLeaseInfo`. -/
def SaveLeaseInfo (os : OS) (leaseFile boxId secretId leaseId expiresAt renewable : GoString)
    (version : Int) : Proc (GoString × Option GoError) := fun w =>
  let info : leaseInfo :=
    { BoxId := boxId, SecretId := secretId, LeaseId := leaseId, ExpiresAt := expiresAt,
      Renewable := renewable, Version := version }
  match osCreate os w.fs leaseFile with
  | (some err, fs1) => (Outcome.ret (leaseFile, some err), { w with fs := fs1 })
  | (none, fs1) =>
    let wr := osWrite os fs1 leaseFile info.encode
    (Outcome.ret (leaseFile, wr.1), { w with fs := wr.2 })

/-- The function `GetLeaseId`. -/
def GetLeaseId (os : OS) (LeaseFile : GoString) : Proc (GoString × Option GoError) := fun w =>
  match osOpen os w.fs LeaseFile with
  | .error err => (Outcome.ret ([], some err), w)
  | .ok data =>
    match readValue data with
    | none => (Outcome.ret ([], some jsonSyntaxError), w)
    | some (v, _) =>
      let lInfo := leaseInfo.decode v
        { BoxId := [], SecretId := [], LeaseId := [], ExpiresAt := [], Renewable := [],
          Version := 0 }
      match lInfo.2 with
      | some err => (Outcome.ret ([], some err), w)
      | none =>
        if lInfo.1.LeaseId = [] then
          (Outcome.ret ([], some (GoError.errorString
            (str "Invalid or corrupt lease file - missing lease_id"))), w)
        else (Outcome.ret (lInfo.1.LeaseId, none), w)

/-! ## `encoding/json`: `Indent` and maps -/

/-- The line break `json.Indent(dst, src, "", "  ")` writes at nesting `depth`:
a newline and two spaces per level. -/
def indentNewline (depth : Nat) : GoString :=
  B 0x0A :: (List.replicate depth (str "  ")).flatten

/-- A scanned value written the way `json.Indent` with prefix `""` and indent
`"  "` writes it: literals keep their text, white space between tokens is
replaced by line breaks and indentation, `: ` follows a key, and an empty array
or object stays `[]` or `{}`.  The first argument bounds the nesting. -/
def Json.indent : Nat → Nat → Json → GoString
  | _, _, .null => str "null"
  | _, _, .bool true => str "true"
  | _, _, .bool false => str "false"
  | _, _, .number raw => raw
  | _, _, .string raw => B 0x22 :: (raw ++ [B 0x22])
  | 0, _, _ => []
  | _ + 1, _, .array [] => str "[]"
  | fuel + 1, depth, .array (x :: xs) =>
    B 0x5B :: (indentNewline (depth + 1)
      ++ (B 0x2C :: indentNewline (depth + 1)).intercalate
          ((x :: xs).map fun v => Json.indent fuel (depth + 1) v)
      ++ indentNewline depth ++ [B 0x5D])
  | _ + 1, _, .object [] => str "\x7b\x7d"
  | fuel + 1, depth, .object (m :: ms) =>
    B 0x7B :: (indentNewline (depth + 1)
      ++ (B 0x2C :: indentNewline (depth + 1)).intercalate
          ((m :: ms).map fun kv =>
            B 0x22 :: (kv.1 ++ [B 0x22, B 0x3A, B 0x20]) ++ Json.indent fuel (depth + 1) kv.2)
      ++ indentNewline depth ++ [B 0x7D])

/-- Go `json.Indent(dst, data, "", "  ")` into an empty buffer: `none` when
`data` is not valid JSON; white space before the value is dropped and white
space after it is kept. -/
def jsonIndent (data : GoString) : Option GoString :=
  match readValue data with
  | none => none
  | some (v, rest) =>
    if (skipSpace rest).isEmpty then some (Json.indent data.length 0 v ++ rest) else none

/-- A Go `map[string]interface{}` filled by `json.Unmarshal`: the members of
the decoded object with their keys unquoted, in source order; a key that
occurs twice has the value of its last occurrence.  `none` is the nil map. -/
abbrev JsonMap := Option (List (GoString × Json))

/-- The map index expression `m[key]` with the comma-ok form: the value and
whether the key is present. -/
def JsonMap.get (m : JsonMap) (key : GoString) : Option Json :=
  match m with
  | none => none
  | some members => (members.reverse.find? fun kv => kv.1 = key).map fun kv => kv.2

/-- Go `json.Unmarshal(data, &m)` for a nil `m` of type `map[string]interface{}`:
the text must be one JSON value; an object gives its map, `null` leaves the map
nil, anything else is an error. -/
def unmarshalMap (data : GoString) : Except GoError JsonMap :=
  match parseDocument data with
  | none => .error (if (skipSpace data).isEmpty then jsonUnexpectedEnd else jsonSyntaxError)
  | some .null => .ok none
  | some (.object members) => .ok (some (members.map fun kv => ((unquote kv.1).getD [], kv.2)))
  | some other =>
    .error (GoError.library (str "json: cannot unmarshal " ++ other.kindName
      ++ str " into Go value of type map[string]interface \x7b\x7d"))

/-- A decoded JSON value seen as a Go `interface{}`: the Go string it holds, if
it is a string. -/
def Json.asString : Json → Option GoString
  | .string raw => some ((unquote raw).getD [])
  | _ => none

/-- A decoded JSON value seen as a Go `interface{}`: the map it holds, if it is
a `map[string]interface{}`. -/
def Json.asMap : Json → Option JsonMap
  | .object members => some (some (members.map fun kv => ((unquote kv.1).getD [], kv.2)))
  | _ => none

/-! ## `net/http` -/

/-- An HTTP response as the program sees it.  `Header` has canonical keys; the
body is modelled as delivered in full, so reading it does not fail. -/
structure Response where
  StatusCode : Int
  Status : GoString
  Header : List (GoString × List GoString)
  Body : GoString
  deriving DecidableEq

/-- Go `Header.Get` for a key in canonical form: the first value of the key, or
`""`. -/
def Response.HeaderGet (r : Response) (key : GoString) : GoString :=
  match r.Header.find? fun kv => kv.1 = key with
  | some (_, v :: _) => v
  | _ => []

/-- An HTTP request as the wrappers build it.  `Header` lists the `Header.Set`
calls in order; `RootCAs` is the content of the CA bundle the server is
verified against, `none` when the connection is made without verification. -/
structure Request where
  Method : GoString
  URL : GoString
  Header : List (GoString × GoString)
  Body : GoString
  RootCAs : Option GoString
  deriving DecidableEq

/-- The network: whether `http.NewRequest` rejects a URL, and what
`client.Do` returns for a request. -/
structure Net where
  urlParseErr : GoString → Bool
  Do : Request → Except GoError Response

/-- The constant `ContentTypeJSON`. -/
def ContentTypeJSON : GoString := str "application/json"

/-- The warning printed when no CA certificate is given. -/
def insecureWarning : GoString :=
  str "\n###############################################################################\n"
    ++ str "Insecure request. Entrust Vault certificate not verified. \n"
    ++ str "It is strongly recommended to verify the same by specifying CA \n"
    ++ str "Certificate, using the --cacert option, to mitigate Man-in-the-middle attack\n"
    ++ str "###############################################################################"

/-- The panic of using the nil request left by a failed `http.NewRequest`. -/
def nilDereference : GoString :=
  str "runtime error: invalid memory address or nil pointer dereference"

/-- The TLS setup shared by the wrappers: with a CA certificate path the file is
read (the process exits with code 1 when that fails) and becomes the only
trusted root; without one the warning is printed and nothing is verified. -/
def tlsSetup (os : OS) (cacert : GoString) : Proc (Option GoString) :=
  if cacert ≠ [] then
    fun w =>
      match osOpen os w.fs cacert with
      | .error err =>
        (Println (str "Error reading CA Certificate: " ++ str " " ++ err.Error) >>= fun _ =>
          osExit 1) w
      | .ok caCert => (Outcome.ret (some caCert), w)
  else
    Println insecureWarning >>= fun _ => Proc.pure none

/-- The result map of `DoGet`, `DoPost`, `DoPatch` and `DoDelete`: empty, or
with the keys `status` and `data`. -/
structure Ret where
  status : Option Int
  data : Option GoString
  deriving DecidableEq

/-- The body shared by `DoGet`, `DoPost`, `DoPatch` and `DoDelete`, which
differ in the method only. -/
def doRequest (method : GoString) (os : OS) (net : Net) (endpoint cacert : GoString)
    (headers : List (GoString × GoString)) (jsonParams contentType : GoString) :
    Proc (Ret × Option GoError) :=
  if net.urlParseErr endpoint then goPanic nilDereference
  else
    tlsSetup os cacert >>= fun roots =>
      match net.Do { Method := method, URL := endpoint,
                     Header := (str "Content-Type", contentType) :: headers,
                     Body := jsonParams, RootCAs := roots } with
      | .error err => Proc.pure ({ status := none, data := none }, some err)
      | .ok response =>
        let data := response.Body
        if data.length ≠ 0 then
          match jsonIndent data with
          | none => Println (str "\n" ++ data ++ str "\n") >>= fun _ => osExit 4
          | some dst =>
            Proc.pure ({ status := some response.StatusCode, data := some dst }, none)
        else Proc.pure ({ status := some response.StatusCode, data := some [] }, none)

/-- The function `DoGet`. -/
def DoGet (os : OS) (net : Net) (endpoint cacert : GoString)
    (headers : List (GoString × GoString)) (jsonParams contentType : GoString) :
    Proc (Ret × Option GoError) :=
  doRequest (str "GET") os net endpoint cacert headers jsonParams contentType

/-- The function `DoDelete`. -/
def DoDelete (os : OS) (net : Net) (endpoint cacert : GoString)
    (headers : List (GoString × GoString)) (jsonParams contentType : GoString) :
    Proc (Ret × Option GoError) :=
  doRequest (str "DELETE") os net endpoint cacert headers jsonParams contentType

/-- The function `DoPatch`. -/
def DoPatch (os : OS) (net : Net) (endpoint cacert : GoString)
    (headers : List (GoString × GoString)) (jsonParams contentType : GoString) :
    Proc (Ret × Option GoError) :=
  doRequest (str "PATCH") os net endpoint cacert headers jsonParams contentType

/-- The function `DoPost`. -/
def DoPost (os : OS) (net : Net) (endpoint cacert : GoString)
    (headers : List (GoString × GoString)) (jsonParams contentType : GoString) :
    Proc (Ret × Option GoError) :=
  doRequest (str "POST") os net endpoint cacert headers jsonParams contentType

/-- The function `newAPIError`. -/
def newAPIError (requestURL : GoString) (response : Response) : APIError :=
  { RequestURL := requestURL,
    HttpStatusCode := response.StatusCode,
    HttpStatus := response.Status,
    ErrorJSON :=
      if response.HeaderGet (str "Content-Type") = ContentTypeJSON then response.Body else [] }

/-- What `DoPost2` hands back: the returned value (the raw body, or nil), the
destination `responseData` points to after the call, and the error. -/
structure Post2Result (δ : Type) where
  value : Option GoString
  dest : Option δ
  err : Option GoError

/-- The interface `ResponseHandler`: its method `ProcessResponse`. -/
abbrev ResponseHandler (δ : Type) : Type :=
  Response → Option δ → Request → GoString → Proc (Post2Result δ)

/-- The function `DoPost2`.  `responseData` is `none` for a nil destination;
`decode` is `json.Unmarshal` into the destination's type. -/
def DoPost2 {δ : Type} (os : OS) (net : Net) (endpoint cacert : GoString)
    (headers : List (GoString × GoString)) (jsonParams contentType : GoString)
    (responseData : Option δ) (decode : Json → δ → δ × Option GoError)
    (respCallback : Option (ResponseHandler δ)) : Proc (Post2Result δ) :=
  if net.urlParseErr endpoint then goPanic nilDereference
  else
    tlsSetup os cacert >>= fun roots =>
      let request : Request :=
        { Method := str "POST", URL := endpoint,
          Header := (str "Content-Type", contentType) :: headers,
          Body := jsonParams, RootCAs := roots }
      match net.Do request with
      | .error err => Proc.pure { value := none, dest := responseData, err := some err }
      | .ok response =>
        match respCallback with
        | some cb => cb response responseData request endpoint
        | none =>
          if response.StatusCode = 200 ∨ response.StatusCode = 201 then
            match responseData with
            | none => Proc.pure { value := some response.Body, dest := none, err := none }
            | some dest =>
              if response.HeaderGet (str "Content-Type") ≠ ContentTypeJSON then
                Proc.pure { value := none, dest := some dest,
                            err := some (GoError.errorString (str "Invalid Content-Type: "
                              ++ response.HeaderGet (str "Content-Type"))) }
              else
                match readValue response.Body with
                | none =>
                  Proc.pure { value := none, dest := some dest, err := some jsonSyntaxError }
                | some (v, _) =>
                  Proc.pure { value := none, dest := some (decode v dest).1,
                              err := (decode v dest).2 }
          else
            Proc.pure { value := none, dest := responseData,
                        err := some (GoError.api (newAPIError endpoint response)) }

/-- A network in which every URL is accepted and every request is answered
with the same response. -/
def constNet (response : Response) : Net :=
  { urlParseErr := fun _ => false, Do := fun _ => .ok response }

/-- A response with the given status line, content type and body. -/
def mkResponse (code : Int) (status contentType body : GoString) : Response :=
  { StatusCode := code, Status := status, Header := [(str "Content-Type", [contentType])],
    Body := body }

/-! ## Helpers shared by the commands -/

/-- Write text to standard error. -/
def eprint (text : GoString) : Proc Unit := fun w =>
  (Outcome.ret (), { w with stderr := w.stderr ++ text })

/-- The function `GetEndPoint`. -/
def GetEndPoint (w : World) (server version action : GoString) : GoString :=
  str "https://" ++ (if server = [] then GetServer w else server) ++ str "/vault/" ++ version
    ++ str "/" ++ action ++ str "/"

/-- The function `AuthTokenKV`. -/
def AuthTokenKV (w : World) : List (GoString × GoString) :=
  [(str "X-VAULT-AUTH", GetAccessToken w)]

/-- The function `JsonStrToMap`. -/
def JsonStrToMap (jsonStr : GoString) : Proc JsonMap :=
  match unmarshalMap jsonStr with
  | .error err =>
    Println (str "Error parsing json string: " ++ str " " ++ err.Error) >>= fun _ => osExit 1
  | .ok m => Proc.pure m

/-- The name of the dynamic type of a decoded JSON value, `nil` for an absent
or `null` value, as a failed type assertion prints it. -/
def dynamicType : Option Json → GoString
  | none => str "nil"
  | some .null => str "nil"
  | some (.bool _) => str "bool"
  | some (.number _) => str "float64"
  | some (.string _) => str "string"
  | some (.array _) => str "[]interface \x7b\x7d"
  | some (.object _) => str "map[string]interface \x7b\x7d"

/-- The type assertion `v.(map[string]interface{})` on a map element that may
be absent: a panic unless the value is a map. -/
def assertMap (v : Option Json) : Proc JsonMap :=
  match v.bind Json.asMap with
  | some m => Proc.pure m
  | none =>
    goPanic (str "interface conversion: interface \x7b\x7d is " ++ dynamicType v
      ++ str ", not map[string]interface \x7b\x7d")

/-- The type assertion `v.(string)` on a map element that may be absent: a
panic unless the value is a string. -/
def assertString (v : Option Json) : Proc GoString :=
  match v.bind Json.asString with
  | some s => Proc.pure s
  | none =>
    goPanic (str "interface conversion: interface \x7b\x7d is " ++ dynamicType v
      ++ str ", not string")

/-- The type assertions `ret["data"].(*bytes.Buffer)` and `ret["status"].(int)`
followed by `retBytes.String()`: the body text and the status code. -/
def retDataStatus (ret : Ret) : Proc (GoString × Int) :=
  match ret.data, ret.status with
  | some d, some s => Proc.pure (d, s)
  | none, _ =>
    goPanic (str "interface conversion: interface \x7b\x7d is nil, not *bytes.Buffer")
  | some _, none => goPanic (str "interface conversion: interface \x7b\x7d is nil, not int")

/-- A `time.Time` as the program reads it: weekday name, day, month name, year,
hour, minute and second. -/
abbrev GoTime := GoString × Nat × GoString × Int × Nat × Nat × Nat

/-- What the model leaves to the standard library: the text of values it does
not format itself, and the clock. -/
structure Lib where
  /-- The text `fmt.Sprintf("%v", v)` gives for a decoded value that is not a
  string. -/
  sprintV : Json → GoString
  /-- The result of `JSONMarshalIndent` for a decoded map. -/
  marshalIndent : JsonMap → Except GoError GoString
  /-- Whether `time.LoadLocation("Local")` succeeds. -/
  loadLocal : Bool
  /-- The result of `time.Parse(time.RFC3339, s)`, in UTC. -/
  parseRFC3339 : GoString → Option GoTime
  /-- The same instant in the local time zone (`t.In(location)`). -/
  inLocal : GoTime → GoTime

/-- The verb `%02d` of `fmt` for a number that is not negative. -/
def pad2 (n : Nat) : GoString := if n < 10 then B 0x30 :: formatNat n else formatNat n

/-- The verb `%v` of `fmt.Sprintf` for a decoded JSON value: a string is
written as it is. -/
def sprintV (lib : Lib) (v : Json) : GoString :=
  match v.asString with
  | some s => s
  | none => lib.sprintV v

/-! ## `utils.go`, `checkoutSecret.go`: twelve-hour time -/

/-- The function `convertTimeFrom24HourTo12HourFormat`. -/
def convertTimeFrom24HourTo12HourFormat (hour : Int) : Int × GoString :=
  let ampm := if hour > 11 then str "PM" else str "AM"
  if hour = 0 then (12, ampm)
  else if hour > 12 then (hour - 12, ampm)
  else (hour, ampm)

/-- The function `TwelveHourTime`. -/
def TwelveHourTime (expiration : GoTime) : GoString :=
  let (weekday, day, month, year, hour0, min, sec) := expiration
  let ampm := if hour0 > 11 then str "PM" else str "AM"
  let hour := if hour0 = 0 then 12 else if hour0 > 12 then hour0 - 12 else hour0
  weekday ++ str ", " ++ pad2 day ++ str " " ++ month ++ str " " ++ formatInt year ++ str " "
    ++ pad2 hour ++ str ":" ++ pad2 min ++ str ":" ++ pad2 sec ++ str " " ++ ampm

/-! ## `createBox.go`, `updateAuditSettings.go`: interpreting the response -/

/-- The command `create-box` from the POST on (`createBoxCmd.Run` after the
request parameters have been marshalled into `jsonParams`). -/
def createBoxCmd_Run (os : OS) (net : Net) (jsonParams : GoString) : Proc Unit := fun w =>
  (DoPost os net (GetEndPoint w [] (str "1.0") (str "CreateBox")) (GetCACertFile w)
      (AuthTokenKV w) jsonParams (str "application/json") >>= fun r =>
    match r.2 with
    | some err =>
      print (str "\nHTTP request failed: " ++ err.Error ++ str "\n") >>= fun _ => osExit 4
    | none =>
      retDataStatus r.1 >>= fun ds =>
        if ds.1 = [] ∧ ds.2 = 404 then
          Println (str "\nAction denied\n") >>= fun _ => osExit 5
        else
          Println (str "\n" ++ ds.1 ++ str "\n") >>= fun _ =>
            JsonStrToMap ds.1 >>= fun retMap =>
              if (retMap.get (str "error")).isSome then osExit 3 else osExit 0) w

/-- What `json.Marshal` writes for the parameters of `update-audit-settings`:
the keys that were set, in sorted order. -/
def auditParamsJSON (retentionDays maxLogsSize : Option Int) : GoString :=
  str "\x7b"
    ++ (str ",").intercalate
        ((match retentionDays with
          | some n => [str "\"auditlog_retention\":" ++ formatInt n]
          | none => [])
        ++ (match maxLogsSize with
          | some n => [str "\"auditlog_totsize\":" ++ formatInt n]
          | none => []))
    ++ str "\x7d"

/-- The command `update-audit-settings` (`updateAuditSettingsCmd.Run`).  The
arguments are the values of the flags `--retention-days` and `--max-logs-size`,
`none` for a flag that was not given; `usage` is the usage text of the
command. -/
def updateAuditSettingsCmd_Run (os : OS) (net : Net) (usage : GoString)
    (retentionDays maxLogsSize : Option Int) : Proc Unit :=
  if (retentionDays.getD 0) < 0 then
    print (str "\nRetention days must be 0 (retain all) or greater\n\n") >>= fun _ => osExit 1
  else if (maxLogsSize.getD 0) < 0 then
    print (str "\nMaximum log size must be 0 (no limit) or greater\n\n") >>= fun _ => osExit 1
  else if retentionDays.isNone ∧ maxLogsSize.isNone then
    eprint usage >>= fun _ => osExit 1
  else fun w =>
    (DoPost os net (GetEndPoint w [] (str "1.0") (str "UpdateAuditSetting")) (GetCACertFile w)
        (AuthTokenKV w) (auditParamsJSON retentionDays maxLogsSize) (str "application/json")
      >>= fun r =>
      match r.2 with
      | some err =>
        print (str "\nHTTP request failed: " ++ err.Error ++ str "\n") >>= fun _ => osExit 4
      | none =>
        retDataStatus r.1 >>= fun ds =>
          if ds.1 = [] ∧ ds.2 = 404 then
            Println (str "\nAudit settings not found\n") >>= fun _ => osExit 5
          else if ds.2 = 204 then
            Println (str "\nUpdate successful\n") >>= fun _ => osExit 0
          else
            Println (str "\n" ++ ds.1 ++ str "\n") >>= fun _ =>
              JsonStrToMap ds.1 >>= fun retMap =>
                if (retMap.get (str "error")).isSome then osExit 3
                else Println (str "\nUnknown error\n") >>= fun _ => osExit 0) w

/-! ## `checkoutSecret.go` -/

/-- The type `lease_Info`. -/
structure lease_Info where
  leaseId : GoString
  expiresAt : GoString
  renewable : GoString
  deriving DecidableEq

/-- The function `isSecretFile`. -/
def isSecretFile (secret_subtype_info : JsonMap) : Bool :=
  match secret_subtype_info.get (str "type") with
  | some v => decide (v.asString = some (str "file"))
  | none => false

/-- The function `getFilename`. -/
def getFilename (secret_subtype_info : JsonMap) : Proc GoString :=
  assertMap (secret_subtype_info.get (str "info")) >>= fun info =>
    assertString (info.get (str "filename"))

/-- The part of `processRespInfo` that reads `expires_at` of the lease: the
text kept in `lInfo.expiresAt`, printed when `printResp` is set. -/
def processLeaseExpiry (lib : Lib) (leaseMap : JsonMap) (printResp : Bool) (lInfo : lease_Info) :
    Proc lease_Info :=
  match leaseMap.get (str "expires_at") with
  | none => Proc.pure lInfo
  | some leaseExpiresAt =>
    let leaseExpiresAtVal := sprintV lib leaseExpiresAt
    let localTime := lib.loadLocal
    match lib.parseRFC3339 leaseExpiresAtVal with
    | none =>
      (if printResp then Println (str "Expires at (UTC): " ++ leaseExpiresAtVal)
        else Proc.pure ()) >>= fun _ =>
        Proc.pure { lInfo with expiresAt := leaseExpiresAtVal }
    | some leaseExpiresAtTime =>
      let ts :=
        if localTime then TwelveHourTime (lib.inLocal leaseExpiresAtTime)
        else TwelveHourTime leaseExpiresAtTime ++ str " UTC"
      (if printResp then
          (if localTime then Println (str "Expires at: " ++ ts)
            else Println (str "Expires at (UTC): " ++ ts))
        else Proc.pure ()) >>= fun _ =>
        Proc.pure { lInfo with expiresAt := ts }

/-- The function `processRespInfo`. -/
def processRespInfo (lib : Lib) (retMap : JsonMap) (printResp : Bool) : Proc lease_Info :=
  (match retMap.get (str "secret_data") with
    | some secretData =>
      match secretData.asString, secretData.asMap with
      | some secretDataVal, _ =>
        if printResp then
          assertMap (retMap.get (str "secret_subtype_info")) >>= fun secret_subtype_info =>
            if ¬ isSecretFile secret_subtype_info then
              Println (str "\nSecret data: " ++ secretDataVal)
            else Proc.pure ()
        else Proc.pure ()
      | none, some secretDataVal =>
        match lib.marshalIndent secretDataVal with
        | .error _ => Println (str "Error parsing secret data\n") >>= fun _ => osExit 5
        | .ok secretMapStr =>
          if printResp then
            Println (str "Secret data:\n") >>= fun _ => Println secretMapStr
          else Proc.pure ()
      | none, none => Println (str "Invalid secret value\n") >>= fun _ => osExit 5
    | none => Println (str "\nError during Secret checkout\n") >>= fun _ => osExit 5)
  >>= fun _ =>
    match retMap.get (str "lease") with
    | none => Proc.pure { leaseId := [], expiresAt := [], renewable := [] }
    | some lease =>
      assertMap (some lease) >>= fun leaseMap =>
        (if printResp then Println (str "\nLease:\n") else Proc.pure ()) >>= fun _ =>
        processLeaseExpiry lib leaseMap printResp
          { leaseId := [], expiresAt := [], renewable := [] } >>= fun lInfo1 =>
        (match leaseMap.get (str "lease_id") with
          | some leaseId =>
            (if printResp then Println (str "Lease id: " ++ sprintV lib leaseId)
              else Proc.pure ()) >>= fun _ =>
              Proc.pure { lInfo1 with leaseId := sprintV lib leaseId }
          | none => Println (str "Lease id not found.\n") >>= fun _ => osExit 5)
        >>= fun lInfo2 =>
        (match leaseMap.get (str "renewable") with
          | some leaseRenewable =>
            (if printResp then Println (str "Renewable: " ++ sprintV lib leaseRenewable)
              else Proc.pure ()) >>= fun _ =>
              Proc.pure { lInfo2 with renewable := sprintV lib leaseRenewable }
          | none => Proc.pure lInfo2)
        >>= fun lInfo3 =>
        (if printResp then Println [] else Proc.pure ()) >>= fun _ => Proc.pure lInfo3

/-- The flags of `checkout-secret`; `version` is `none` when `--version` was
not given. -/
structure CheckoutFlags where
  dontSaveLease : Bool
  leaseFile : GoString
  boxid : GoString
  secretid : GoString
  version : Option Int
  jsonOutput : Bool

/-- What `json.Marshal` writes for the parameters of `checkout-secret`. -/
def checkoutParamsJSON (flags : CheckoutFlags) : GoString :=
  str "\x7b\"box_id\":" ++ appendString flags.boxid ++ str ",\"secret_id\":"
    ++ appendString flags.secretid
    ++ (match flags.version with
        | some v => str ",\"version\":" ++ formatInt v
        | none => [])
    ++ str "\x7d"

/-- The part of `checkoutSecretCmd.Run` that saves the lease to a file. -/
def checkoutSaveLease (os : OS) (flags : CheckoutFlags) (lInfo : lease_Info) : Proc Unit :=
  if ¬ flags.dontSaveLease ∧ lInfo.leaseId ≠ [] then
    (if flags.leaseFile = [] then
        GetLeaseFilePath os flags.boxid flags.secretid (flags.version.getD (-1)) >>= fun r =>
          match r.2 with
          | some err =>
            Println (str "Error getting lease file path: " ++ err.Error) >>= fun _ => osExit 1
          | none => Proc.pure r.1
      else Proc.pure flags.leaseFile) >>= fun leaseFile =>
      SaveLeaseInfo os leaseFile flags.boxid flags.secretid lInfo.leaseId lInfo.expiresAt
          lInfo.renewable (flags.version.getD 0) >>= fun r =>
        match r.2 with
        | some err =>
          print (str "\nError saving lease info to " ++ r.1 ++ str " - " ++ err.Error ++ str "\n")
            >>= fun _ => osExit 4
        | none =>
          print (str "\nLease id saved in " ++ r.1
            ++ str ". Pass this file if checking in the secret with --lease-file option.\n")
  else Proc.pure ()

/-- The part of `checkoutSecretCmd.Run` that writes a file secret to disk. -/
def checkoutWriteFile (os : OS) (retMap secret_subtype_info : JsonMap) : Proc Unit :=
  if isSecretFile secret_subtype_info then
    getFilename secret_subtype_info >>= fun filename =>
      assertString (retMap.get (str "secret_data")) >>= fun b64content =>
        fun w =>
          match osCreate os w.fs filename with
          | (some _, fs1) =>
            (print (str "\nUnable to write to " ++ filename ++ str "\n") >>= fun _ => osExit 4)
              { w with fs := fs1 }
          | (none, fs1) =>
            match osWrite os fs1 filename (B64Decode b64content) with
            | (some _, fs2) =>
              (print (str "\nUnable to write to " ++ filename ++ str "\n") >>= fun _ => osExit 4)
                { w with fs := fs2 }
            | (none, fs2) =>
              print (str "\nSuccessfully downloaded " ++ filename ++ str "\n") { w with fs := fs2 }
  else Proc.pure ()

/-- The command `checkout-secret` (`checkoutSecretCmd.Run`). -/
def checkoutSecretCmd_Run (os : OS) (net : Net) (lib : Lib) (flags : CheckoutFlags) :
    Proc Unit :=
  if flags.leaseFile ≠ [] ∧ flags.dontSaveLease then
    Println (str "Cannot set both dont-save-lease and lease-file") >>= fun _ => osExit 1
  else fun w =>
    (DoPost os net (GetEndPoint w [] (str "1.0") (str "CheckoutSecret")) (GetCACertFile w)
        (AuthTokenKV w) (checkoutParamsJSON flags) (str "application/json") >>= fun r =>
      match r.2 with
      | some err =>
        print (str "\nHTTP request failed: " ++ err.Error ++ str "\n") >>= fun _ => osExit 4
      | none =>
        retDataStatus r.1 >>= fun ds =>
          if ds.2 ≠ 200 then Println (str "\n" ++ ds.1 ++ str "\n") >>= fun _ => osExit 5
          else
            JsonStrToMap ds.1 >>= fun retMap =>
            assertMap (retMap.get (str "secret_subtype_info")) >>= fun secret_subtype_info =>
            (if flags.jsonOutput then Println (str "\n" ++ ds.1 ++ str "\n")
              else Proc.pure ()) >>= fun _ =>
            match retMap.get (str "error") with
            | some retVal =>
              (if ¬ flags.jsonOutput then
                  assertString (some retVal) >>= fun text =>
                    Println (str "\n" ++ text ++ str "\n")
                else Proc.pure ()) >>= fun _ => osExit 3
            | none =>
              (if isSecretFile secret_subtype_info ∧ flags.jsonOutput then
                  Println (str "This is a file secret, secret_data above contains "
                    ++ str "base64 of file secret. Do a base64 decode "
                    ++ str "to get actual file content.\n")
                else Proc.pure ()) >>= fun _ =>
              (if ¬ flags.jsonOutput then processRespInfo lib retMap true
                else if ¬ flags.dontSaveLease then processRespInfo lib retMap false
                else Proc.pure { leaseId := [], expiresAt := [], renewable := [] })
              >>= fun lInfo =>
              checkoutSaveLease os flags lInfo >>= fun _ =>
              checkoutWriteFile os retMap secret_subtype_info >>= fun _ =>
              Println [] >>= fun _ => osExit 0) w

/-! ## More concrete environments for the examples -/

/-- A library stand-in whose formatting results are empty and whose clock
parses nothing. -/
def exampleLib : Lib :=
  { sprintV := fun _ => [],
    marshalIndent := fun _ => .ok [],
    loadLocal := true,
    parseRFC3339 := fun _ => none,
    inLocal := fun t => t }

/-- A process that has loaded the token `tok` for the server `vault` with no
CA certificate, on an empty disk. -/
def loggedInWorld : World :=
  { fs := emptyFS,
    gTokenInfo := { AccessToken := str "tok", Server := str "vault", CACertFile := [] },
    stdout := [], stderr := [] }

/-! ## `renew.go`, `login.go`, `rotateSecret.go`: commands that report a failed request -/

/-- Texts the standard library produces that the program only prints, and the
terminal the user types at. -/
structure Text where
  /-- The result of `strconv.Quote(s)`, which is also the verb `%q`. -/
  quote : GoString → GoString
  /-- The text of the error of a failed `time.Parse(time.RFC3339, s)`. -/
  parseTimeError : GoString → GoString
  /-- The text of the error of a failed `url.Parse(s)`. -/
  urlParseError : GoString → GoString
  /-- The result of `uri.Hostname()` for a parsed URL. -/
  hostname : GoString → GoString
  /-- What `reader.ReadString` reads from standard input for the user name. -/
  readLine : GoString
  /-- The result of `getpasswd.ReadPassword()`. -/
  readPassword : GoString

/-- The function `formatLoginExpiration`. -/
def formatLoginExpiration (lib : Lib) (txt : Text) (expiresAt : GoString) : Proc GoString :=
  match lib.parseRFC3339 expiresAt with
  | none =>
    print (str "\nInvalid Expiration " ++ txt.quote expiresAt ++ str " - "
      ++ txt.parseTimeError expiresAt ++ str "\n") >>= fun _ => osExit 5
  | some expiration =>
    if lib.loadLocal then Proc.pure (TwelveHourTime (lib.inLocal expiration))
    else osExit 10

/-- The type `renewAccessToken`. -/
structure renewAccessToken where
  Token : GoString
  Expiration : GoString
  deriving DecidableEq

/-- The JSON names of the fields of `renewAccessToken`, in order. -/
def renewAccessTokenFields : List GoString := [str "access_token", str "expires_at"]

/-- One member of a JSON object decoded into a `renewAccessToken`. -/
def renewAccessToken.decodeMember (acc : renewAccessToken × Option GoError)
    (m : GoString × Json) : renewAccessToken × Option GoError :=
  let key := (unquote m.1).getD []
  match fieldIndex renewAccessTokenFields key with
  | none => acc
  | some i =>
    match decodeString m.2 with
    | none =>
      (acc.1, saveError acc.2
        (unmarshalTypeError m.2.kindName (str "renewAccessToken")
          (renewAccessTokenFields.getD i []) (str "string")))
    | some none => acc
    | some (some s) =>
      if i = 0 then ({ acc.1 with Token := s }, acc.2)
      else ({ acc.1 with Expiration := s }, acc.2)

/-- Go `json.Unmarshal` of a scanned value into a `*renewAccessToken`. -/
def renewAccessToken.decode (v : Json) (into : renewAccessToken) :
    renewAccessToken × Option GoError :=
  match v with
  | .null => (into, none)
  | .object members => members.foldl renewAccessToken.decodeMember (into, none)
  | other =>
    (into, some (GoError.library (str "json: cannot unmarshal " ++ other.kindName
      ++ str " into Go value of type cmd.renewAccessToken")))

/-- The command `renew` (`renewCmd.Run`); `tokenFile` is the value of the flag
`--token-file`.  The function returns without calling `os.Exit` when the
session has been renewed. -/
def renewCmd_Run (os : OS) (net : Net) (lib : Lib) (txt : Text) (tokenFile : GoString) :
    Proc Unit := fun w =>
  (DoPost2 os net (GetEndPoint w [] (str "1.0") (str "Renew")) (GetCACertFile w)
      (AuthTokenKV w) (str "\x7b\x7d") ContentTypeJSON
      (some ({ Token := [], Expiration := [] } : renewAccessToken)) renewAccessToken.decode none
    >>= fun r =>
    match r.err with
    | some err =>
      print (str "\nSession Renew failed:\n\n" ++ err.Error ++ str "\n") >>= fun _ => osExit 1
    | none =>
      let respData := r.dest.getD { Token := [], Expiration := [] }
      SaveAccessToken os tokenFile respData.Token (GetServer w) (GetCACertFile w) >>= fun s =>
        match s.2 with
        | some err =>
          print (str "\nError saving access token to " ++ s.1 ++ str " - " ++ err.Error
            ++ str "\n") >>= fun _ => osExit 4
        | none =>
          formatLoginExpiration lib txt respData.Expiration >>= fun expires =>
            print (str "\nSession is renewed.\nThe login session expires at " ++ expires
              ++ str ".\n") >>= fun _ =>
            print (str "New Access Token is saved in " ++ s.1 ++ str ".\n") >>= fun _ =>
            print (str "\n")) w

/-- The type `accessToken` of `login.go`. -/
structure accessToken where
  Token : GoString
  Expiration : GoString
  User : GoString
  deriving DecidableEq

/-- The JSON names of the fields of `accessToken`, in order. -/
def accessTokenFields : List GoString := [str "access_token", str "expires_at", str "user"]

/-- One member of a JSON object decoded into an `accessToken`. -/
def accessToken.decodeMember (acc : accessToken × Option GoError) (m : GoString × Json) :
    accessToken × Option GoError :=
  let key := (unquote m.1).getD []
  match fieldIndex accessTokenFields key with
  | none => acc
  | some i =>
    match decodeString m.2 with
    | none =>
      (acc.1, saveError acc.2
        (unmarshalTypeError m.2.kindName (str "accessToken") (accessTokenFields.getD i [])
          (str "string")))
    | some none => acc
    | some (some s) =>
      if i = 0 then ({ acc.1 with Token := s }, acc.2)
      else if i = 1 then ({ acc.1 with Expiration := s }, acc.2)
      else ({ acc.1 with User := s }, acc.2)

/-- Go `json.Unmarshal` of a scanned value into an `*accessToken`. -/
def accessToken.decode (v : Json) (into : accessToken) : accessToken × Option GoError :=
  match v with
  | .null => (into, none)
  | .object members => members.foldl accessToken.decodeMember (into, none)
  | other =>
    (into, some (GoError.library (str "json: cannot unmarshal " ++ other.kindName
      ++ str " into Go value of type cmd.accessToken")))

/-- Go `strings.HasSuffix`. -/
def HasSuffix (s suffix : GoString) : Bool := suffix.isSuffixOf s

/-- Go `strings.HasPrefix`. -/
def HasPrefix (s pre : GoString) : Bool := pre.isPrefixOf s

/-- Drop the last byte of a string that ends in `suffix` (`s[:len(s)-1]` under
`strings.HasSuffix(s, suffix)`). -/
def chopSuffix (s suffix : GoString) : GoString :=
  if HasSuffix s suffix then s.dropLast else s

/-- The function `getCredentials`. -/
def getCredentials (txt : Text) (pre user password : GoString) : Proc (GoString × GoString) :=
  (if user = [] then
      print (pre ++ str "User Name: ") >>= fun _ =>
        Proc.pure (chopSuffix (chopSuffix txt.readLine (str "\n")) (str "\r"))
    else Proc.pure user) >>= fun user1 =>
  (if password = [] then
      print (pre ++ str "Password: ") >>= fun _ =>
        let typed := txt.readPassword
        print (str "\n") >>= fun _ => Proc.pure typed
    else Proc.pure password) >>= fun password1 =>
  Proc.pure (user1, password1)

/-- The verb `%v` for a map element that may be absent: `<nil>` for an absent
or `null` value. -/
def sprintVOpt (lib : Lib) : Option Json → GoString
  | none => str "<nil>"
  | some .null => str "<nil>"
  | some v => sprintV lib v

/-- What `json.Marshal` writes for the parameters `box_id`, `secret_id` and,
when given, `version`. -/
def secretParamsJSON (boxid secretid : GoString) (version : Option Int) : GoString :=
  str "\x7b\"box_id\":" ++ appendString boxid ++ str ",\"secret_id\":" ++ appendString secretid
    ++ (match version with
        | some v => str ",\"version\":" ++ formatInt v
        | none => [])
    ++ str "\x7d"

/-- The command `rotate-secret` (`rotateSecretCmd.Run`); `version` is `none`
when the flag was not given. -/
def rotateSecretCmd_Run (os : OS) (net : Net) (lib : Lib) (boxid secretid : GoString)
    (version : Option Int) : Proc Unit := fun w =>
  (DoPost os net (GetEndPoint w [] (str "1.0") (str "RotateSecret")) (GetCACertFile w)
      (AuthTokenKV w) (secretParamsJSON boxid secretid version) (str "application/json")
    >>= fun r =>
    match r.2 with
    | some err =>
      print (str "\nHTTP request failed: " ++ err.Error ++ str "\n") >>= fun _ => osExit 4
    | none =>
      retDataStatus r.1 >>= fun ds =>
        JsonStrToMap ds.1 >>= fun retMap =>
          if ds.1 = [] ∧ ds.2 = 404 then
            Println (str "\nSecret not found\n") >>= fun _ => osExit 5
          else if ds.2 = 200 then
            Println (str "\nSecret rotated successfully\n") >>= fun _ =>
            Println (str "Secret details\n--------------\n") >>= fun _ =>
            print (str "id:              " ++ sprintVOpt lib (retMap.get (str "secret_id"))
              ++ str "\n") >>= fun _ =>
            print (str "name:            " ++ sprintVOpt lib (retMap.get (str "name"))
              ++ str "\n") >>= fun _ =>
            print (str "revision:        " ++ sprintVOpt lib (retMap.get (str "revision"))
              ++ str "\n") >>= fun _ =>
            print (str "current version: "
              ++ sprintVOpt lib (retMap.get (str "current_version")) ++ str "\n\n")
              >>= fun _ => osExit 0
          else if (retMap.get (str "error")).isSome then
            print (str "\nSecret rotation failure: "
              ++ sprintVOpt lib (retMap.get (str "error")) ++ str "\n\n") >>= fun _ => osExit 3
          else
            Println (str "\n" ++ ds.1 ++ str "\n") >>= fun _ =>
            Println (str "\nUnknown error\n") >>= fun _ => osExit 100) w

/-! ## `checkinSecret.go` -/

/-- The flags of `checkin-secret`; `none` is a flag that was not given
(`flags.Changed` is false). -/
structure CheckinFlags where
  leaseid : Option GoString
  leaseFile : Option GoString
  boxid : Option GoString
  secretid : Option GoString
  version : Option Int

/-- The condition `flags.Changed("boxid") || flags.Changed("secretid") ||
flags.Changed("version")`. -/
def CheckinFlags.anyIdentifier (flags : CheckinFlags) : Bool :=
  flags.boxid.isSome || flags.secretid.isSome || flags.version.isSome

/-- The first part of `checkinSecretCmd.Run`: the flags are validated and the
lease file to read is found; `Sum.inl` is a lease id given on the command
line, `Sum.inr` the lease file. -/
def checkinValidate (os : OS) (flags : CheckinFlags) : Proc (GoString ⊕ GoString) :=
  match flags.leaseid with
  | some leaseId =>
    if flags.leaseFile.isSome then
      Println (str "Cannot specify both \"leaseid\" & \"lease-file\" options") >>= fun _ =>
        osExit 1
    else if flags.anyIdentifier then
      Println (str "Cannot specify both \"leaseid\" & Secret identifiers(\"boxid\", "
        ++ str "\"secretid\", \"version\") options") >>= fun _ => osExit 1
    else Proc.pure (Sum.inl leaseId)
  | none =>
    match flags.leaseFile with
    | some leaseFile =>
      if flags.anyIdentifier then
        Println (str "Cannot specify both \"lease-file\" & Secret identifiers"
          ++ str "(\"boxid\", \"secretid\", \"version\")") >>= fun _ => osExit 1
      else Proc.pure (Sum.inr leaseFile)
    | none =>
      if ¬ (flags.boxid.isSome ∧ flags.secretid.isSome) then
        if flags.boxid.isSome then
          Println (str "Please specify \"secretid\" of the Secret") >>= fun _ => osExit 1
        else if flags.secretid.isSome then
          Println (str "Please specify \"boxid\" of the Secret") >>= fun _ => osExit 1
        else
          Println (str "Please specify one of \"leaseid\", \"lease-file\" or secret identifiers "
            ++ str "(\"boxid\", \"secretid\", \"version\"(if provided during checkin)) options")
            >>= fun _ => osExit 1
      else
        GetLeaseFilePath os (flags.boxid.getD []) (flags.secretid.getD [])
            (flags.version.getD (-1)) >>= fun r =>
          match r.2 with
          | some err =>
            Println (str "Error getting lease file path: " ++ err.Error) >>= fun _ => osExit 1
          | none => Proc.pure (Sum.inr r.1)

/-- The lease id `checkin-secret` sends: the one given, or the one read from
the lease file (`GetLeaseId`). -/
def checkinLeaseId (os : OS) (flags : CheckinFlags) : Proc GoString :=
  checkinValidate os flags >>= fun found =>
    match found with
    | Sum.inl leaseId => Proc.pure leaseId
    | Sum.inr leaseFile =>
      GetLeaseId os leaseFile >>= fun r =>
        match r.2 with
        | some err => Println (str "Error getting lease id: " ++ err.Error) >>= fun _ => osExit 1
        | none => Proc.pure r.1

/-- The second part of `checkinSecretCmd.Run`: the request and the reading of
its response. -/
def checkinPost (os : OS) (net : Net) (leaseId : GoString) : Proc Unit := fun w =>
  (DoPost os net (GetEndPoint w [] (str "1.0") (str "CheckinSecret")) (GetCACertFile w)
      (AuthTokenKV w) (str "\x7b\"lease_id\":" ++ appendString leaseId ++ str "\x7d")
      (str "application/json") >>= fun r =>
    match r.2 with
    | some err =>
      print (str "\nHTTP request failed: " ++ err.Error ++ str "\n") >>= fun _ => osExit 4
    | none =>
      retDataStatus r.1 >>= fun ds =>
        if ds.1 = [] ∧ ds.2 = 404 then
          Println (str "\nSecret not found\n") >>= fun _ => osExit 5
        else if ds.2 = 204 then
          Println (str "\nCheckin successful\n") >>= fun _ => osExit 0
        else
          Println (str "\n" ++ ds.1 ++ str "\n") >>= fun _ =>
            JsonStrToMap ds.1 >>= fun retMap =>
              if (retMap.get (str "error")).isSome then osExit 3
              else Println (str "\nUnknown error\n") >>= fun _ => osExit 100) w

/-- A stand-in for the library texts: nothing is quoted, error texts are empty,
the host name is `vault` and the user types nothing. -/
def exampleText : Text :=
  { quote := fun s => s,
    parseTimeError := fun _ => [],
    urlParseError := fun _ => [],
    hostname := fun _ => str "vault",
    readLine := [],
    readPassword := [] }

/-- A network in which every URL is accepted and no request is answered: the
connection is refused. -/
def downNet : Net :=
  { urlParseErr := fun _ => false,
    Do := fun req =>
      .error (GoError.library (str "Post \"" ++ req.URL ++ str "\": dial tcp: connection refused")) }

/-- Go `strings.Count(s, substr)` for a `substr` of one byte. -/
def stringsCount (s : GoString) (substr : Byte) : Nat := s.count substr

/-- The first `n` occurrences of the byte `old` replaced by `new`. -/
def replaceFirst (old : Byte) (new : GoString) : Nat → GoString → GoString
  | 0, s => s
  | _ + 1, [] => []
  | n + 1, c :: s =>
    if c = old then new ++ replaceFirst old new n s else c :: replaceFirst old new (n + 1) s

/-- Go `strings.Replace(s, old, new, n)` for an `old` of one byte: the first `n`
occurrences are replaced, all of them when `n` is negative. -/
def stringsReplace (s : GoString) (old : Byte) (new : GoString) (n : Int) : GoString :=
  if n < 0 then replaceFirst old new s.length s else replaceFirst old new n.toNat s

/-- Go `strings.ReplaceAll(s, old, new)` for an `old` of one byte. -/
def stringsReplaceAll (s : GoString) (old : Byte) (new : GoString) : GoString :=
  stringsReplace s old new (-1)

/-- Go `strconv.Itoa`. -/
def Itoa (i : Int) : GoString := formatInt i

/-- Go `strconv.FormatBool`. -/
def FormatBool (b : Bool) : GoString := if b then str "true" else str "false"

/-- Whether a string is an optional sign followed by one or more decimal
digits, the syntax `strconv.Atoi` accepts. -/
def atoiSyntax (s : GoString) : Bool :=
  match s with
  | c :: rest =>
    if c.val = 0x2D ∨ c.val = 0x2B then (parseDigits rest).isSome else (parseDigits s).isSome
  | [] => false

/-- Go `strconv.Atoi` (with a 64-bit `int`): the number, or the error
`*strconv.NumError` for a string that is not a decimal integer or is out of
range. -/
def Atoi (txt : Text) (s : GoString) : Except GoError Int :=
  match parseInt64 s with
  | some v => .ok v
  | none =>
    .error (GoError.library (str "strconv.Atoi: parsing " ++ txt.quote s ++ str ": "
      ++ (if atoiSyntax s then str "value out of range" else str "invalid syntax")))

/-- Go `unicode.IsSpace`. -/
def IsSpace (r : Nat) : Bool :=
  if r ≤ 0xFF then
    r = 0x09 ∨ r = 0x0A ∨ r = 0x0B ∨ r = 0x0C ∨ r = 0x0D ∨ r = 0x20 ∨ r = 0x85 ∨ r = 0xA0
  else
    r = 0x1680 ∨ (0x2000 ≤ r ∧ r ≤ 0x200A) ∨ r = 0x2028 ∨ r = 0x2029 ∨ r = 0x202F ∨ r = 0x205F
      ∨ r = 0x3000

/-- The method `fieldNeedsQuotes` of `csv.Writer` with the comma as delimiter. -/
def fieldNeedsQuotes (field : GoString) : Bool :=
  if field = [] then false
  else if field = str "\\." then true
  else if field.any fun c => c.val = 0x0A ∨ c.val = 0x0D ∨ c.val = 0x22 ∨ c.val = 0x2C then true
  else IsSpace (DecodeRune field).1

/-- One field as `csv.Writer.Write` writes it (`UseCRLF` is false): as it is, or
between quotes with every quote doubled. -/
def csvField (field : GoString) : GoString :=
  if fieldNeedsQuotes field then
    B 0x22 :: (field.flatMap fun c => if c.val = 0x22 then [B 0x22, B 0x22] else [c])
      ++ [B 0x22]
  else field

/-- One record as `csv.Writer.Write` writes it: the fields separated by commas
and a line feed at the end. -/
def csvRecord (record : List GoString) : GoString :=
  (record.map csvField).intersperse [B 0x2C] |>.flatten |>.append [B 0x0A]

/-- What `csv.Writer.WriteAll` writes for a list of records. -/
def csvWriteAll (records : List (List GoString)) : GoString :=
  (records.map csvRecord).flatten

/-! ## `onboardSSHServers.go`: the staged CSV -/

/-- The constant `SecretType`. -/
def SecretType : GoString := str "SSH key endpoint"

/-- The constant `SecretNamePatternFlag`. -/
def SecretNamePatternFlag : GoString := str "secret-name-pattern"

/-- The constant `DefaultSecretNamePattern`. -/
def DefaultSecretNamePattern : GoString := str "ssh-secret-*"

/-- The constant `SshKeysDirectory`. -/
def SshKeysDirectory : GoString := str "~/.ssh"

/-- The constant `SshKeysFile`. -/
def SshKeysFile : GoString := SshKeysDirectory ++ str "/authorized_keys"

/-- The type `SshServerInfo`. -/
structure SshServerInfo where
  Server : GoString
  Port : Int
  User : GoString
  Password : GoString
  Private_key : GoString
  Public_key : GoString
  Passphrase : GoString
  deriving DecidableEq

/-- The type `CommonSecretInfo`. -/
structure CommonSecretInfo where
  BoxName : GoString
  Tag : GoString
  SecretExpiry : GoString
  SecretNamePattern : GoString
  SecretDescription : GoString
  LeaseDuration : GoString
  ExclusiveCheckout : Bool
  deriving DecidableEq

/-- The flags of `setup-ssh-proxy`; `none` is a flag that was not given
(`flags.Changed` is false). -/
structure SetupProxyFlags where
  serversCsv : GoString
  boxName : GoString
  secretNamePattern : Option GoString
  secretDescription : Option GoString
  secretExpiry : Option GoString
  leaseDuration : Option GoString
  exclusiveCheckout : Option Bool
  tag : Option GoString

/-- The function `parseCommonSecretInfoFromCommandFlags`. -/
def parseCommonSecretInfoFromCommandFlags (flags : SetupProxyFlags) :
    Except GoError CommonSecretInfo :=
  match flags.secretNamePattern with
  | some secretNamePattern =>
    if stringsCount secretNamePattern (B 0x2A) > 1 then
      .error (GoError.errorString (str "Only one '*' is allowed in " ++ SecretNamePatternFlag
        ++ str " flag."))
    else
      .ok { BoxName := flags.boxName,
            Tag := flags.tag.getD [],
            SecretExpiry := flags.secretExpiry.getD [],
            SecretNamePattern := secretNamePattern,
            SecretDescription := flags.secretDescription.getD [],
            LeaseDuration := flags.leaseDuration.getD [],
            ExclusiveCheckout := flags.exclusiveCheckout.getD false }
  | none =>
    .ok { BoxName := flags.boxName,
          Tag := flags.tag.getD [],
          SecretExpiry := flags.secretExpiry.getD [],
          SecretNamePattern := DefaultSecretNamePattern,
          SecretDescription := flags.secretDescription.getD [],
          LeaseDuration := flags.leaseDuration.getD [],
          ExclusiveCheckout := flags.exclusiveCheckout.getD false }

/-- The function `createCsvHeaderRecord`. -/
def createCsvHeaderRecord : List GoString :=
  [str "box_name", str "secret_name", str "host", str "user", str "keyfile", str "desc",
   str "port", str "keypwd", str "lease-duration", str "exclusive-checkout", str "tags",
   str "expires_at"]

/-- The function `generateCsvRecordForServer`. -/
def generateCsvRecordForServer (serverInfo : SshServerInfo) (commonSecretInfo : CommonSecretInfo)
    (recordIndex : Int) : List GoString :=
  let secretName :=
    stringsReplace commonSecretInfo.SecretNamePattern (B 0x2A) (Itoa recordIndex) 1
  let privateKey := stringsReplaceAll serverInfo.Private_key (B 0x22) []
  [commonSecretInfo.BoxName,
   secretName,
   serverInfo.Server,
   serverInfo.User,
   privateKey,
   commonSecretInfo.SecretDescription,
   Itoa serverInfo.Port,
   serverInfo.Passphrase,
   commonSecretInfo.LeaseDuration,
   FormatBool commonSecretInfo.ExclusiveCheckout,
   commonSecretInfo.Tag,
   commonSecretInfo.SecretExpiry]

/-- The loop of `createCsvRecordsForServers`, from index `i` on. -/
def csvRecordsFrom (commonSecretInfo : CommonSecretInfo) :
    Nat → List SshServerInfo → List (List GoString)
  | _, [] => []
  | i, serverInfo :: rest =>
    generateCsvRecordForServer serverInfo commonSecretInfo ((i : Int) + 1)
      :: csvRecordsFrom commonSecretInfo (i + 1) rest

/-- The function `createCsvRecordsForServers`. -/
def createCsvRecordsForServers (successfulServers : List SshServerInfo)
    (commonSecretInfo : CommonSecretInfo) : List (List GoString) :=
  createCsvHeaderRecord :: csvRecordsFrom commonSecretInfo 0 successfulServers

/-! ## `onboardSSHServers.go`: key-based access over SSH -/

/-- What the program does on the network of SSH servers, in order. -/
inductive SshEvent where
  /-- A connection `ssh.Dial` with password authentication. -/
  | dialPassword (addr user password : GoString) : SshEvent
  /-- A connection `ssh.Dial` with public-key authentication. -/
  | dialKey (addr user privateKey passphrase : GoString) : SshEvent
  /-- A command run in a new session of the password-authenticated connection. -/
  | run (addr cmd : GoString) : SshEvent
  /-- A command run in a new session of the key-authenticated connection. -/
  | runKey (addr cmd : GoString) : SshEvent
  deriving DecidableEq

/-- What the program cannot determine itself while it sets servers up: the
rows the CSV reader finds, the keys generated, the answers of the SSH servers,
the temporary file and the multipart encoding. -/
structure Setup where
  /-- The results of the successive `csv_reader.Read()` calls on a file with
  the given content, before the one that returns `io.EOF`.  The reader is set
  to four fields per record, so a record read without error has four fields. -/
  csvRead : GoString → List (Except GoError (List GoString))
  /-- The result of key generation in the `k`-th call (from 0) of
  `generateAndPopulateSSHKeysInServerInfo`: the private key, the public key and
  the passphrase, or the error. -/
  generateKeys : Nat → Except GoError (GoString × GoString × GoString)
  /-- The error, if any, of the last event of a history of SSH events (for a
  command, of opening the session or of running it). -/
  ssh : List SshEvent → Option GoError
  /-- The result of `os.CreateTemp("", "ssh-secret-csv")`: the name of the file
  made. -/
  createTemp : Except GoError GoString
  /-- Whether `os.Remove` fails on a path. -/
  removeFails : GoString → Bool
  /-- The multipart body and its content type for the form parts, given as key,
  file name (for a file part) and content, listed by key. -/
  formData : List (GoString × Option GoString × GoString) → GoString × GoString

/-- The address `fmt.Sprintf("%s:%d", serverInfo.Server, serverInfo.Port)`. -/
def sshAddr (serverInfo : SshServerInfo) : GoString :=
  serverInfo.Server ++ str ":" ++ formatInt serverInfo.Port

/-- One SSH event: it is added to the history and its error is returned. -/
def sshDo (st : Setup) (log : List SshEvent) (ev : SshEvent) : Option GoError × List SshEvent :=
  (st.ssh (log ++ [ev]), log ++ [ev])

/-- The function `runCommandOnSshServer`, on the password-authenticated
connection to the server. -/
def runCommandOnSshServer (st : Setup) (log : List SshEvent) (serverInfo : SshServerInfo)
    (cmd : GoString) : Option GoError × List SshEvent :=
  sshDo st log (SshEvent.run (sshAddr serverInfo) cmd)

/-- The function `verifyKeybasedSshAccess`. -/
def verifyKeybasedSshAccess (st : Setup) (log : List SshEvent) (serverInfo : SshServerInfo) :
    Option GoError × List SshEvent :=
  match sshDo st log (SshEvent.dialKey (sshAddr serverInfo) serverInfo.User
      serverInfo.Private_key serverInfo.Passphrase) with
  | (some client_err, log1) => (some client_err, log1)
  | (none, log1) => sshDo st log1 (SshEvent.runKey (sshAddr serverInfo) (str "hostname"))

/-- The function `setupKeybasedSshAccess`: the error returned and the history
of SSH events after the call. -/
def setupKeybasedSshAccess (st : Setup) (log : List SshEvent) (serverInfo : SshServerInfo) :
    Option GoError × List SshEvent :=
  match sshDo st log (SshEvent.dialPassword (sshAddr serverInfo) serverInfo.User
      serverInfo.Password) with
  | (some clientErr, log1) => (some clientErr, log1)
  | (none, log1) =>
    match runCommandOnSshServer st log1 serverInfo
        (str "mkdir -p " ++ SshKeysDirectory ++ str " && chmod 700 " ++ SshKeysDirectory) with
    | (some cmdErr, log2) => (some cmdErr, log2)
    | (none, log2) =>
      match runCommandOnSshServer st log2 serverInfo
          (str "echo \"" ++ serverInfo.Public_key ++ str "\" >> " ++ SshKeysFile
            ++ str " && chmod 600 " ++ SshKeysFile) with
      | (some cmdErr, log3) => (some cmdErr, log3)
      | (none, log3) =>
        match verifyKeybasedSshAccess st log3 serverInfo with
        | (some verifyErr, log4) =>
          (some verifyErr,
            (runCommandOnSshServer st log4 serverInfo
              (str "sed -i.bak '/^" ++ serverInfo.Public_key ++ str "/d'")).2)
        | (none, log4) => (none, log4)

/-- The zero value of `SshServerInfo`. -/
def SshServerInfo.zero : SshServerInfo :=
  { Server := [], Port := 0, User := [], Password := [], Private_key := [], Public_key := [],
    Passphrase := [] }

/-- The panic of an index that is out of range. -/
def indexOutOfRange (i n : Nat) : GoString :=
  str "runtime error: index out of range [" ++ formatNat i ++ str "] with length " ++ formatNat n

/-- The function `populateServerInfoFromCsvRecord`: the server info after the
call and the error returned. -/
def populateServerInfoFromCsvRecord (txt : Text) (record : List GoString)
    (serverInfo : SshServerInfo) : Proc (SshServerInfo × Option GoError) :=
  match record[1]? with
  | none => goPanic (indexOutOfRange 1 record.length)
  | some field1 =>
    match Atoi txt field1 with
    | .error err => Proc.pure (serverInfo, some err)
    | .ok port =>
      match record[0]?, record[2]?, record[3]? with
      | some field0, some field2, some field3 =>
        Proc.pure ({ serverInfo with Server := field0, Port := port, User := field2,
                                     Password := field3 }, none)
      | _, none, _ => goPanic (indexOutOfRange 2 record.length)
      | _, _, _ => goPanic (indexOutOfRange 3 record.length)

/-- The first loop of `setupSSHProxy`, over the results of `csv_reader.Read()`:
`k` counts the keys generated so far. -/
def readServerInfos (st : Setup) (txt : Text) :
    List (Except GoError (List GoString)) → Nat → List SshServerInfo →
      Proc (List SshServerInfo)
  | [], _, serverInfos => Proc.pure serverInfos
  | .error csv_read_err :: rest, k, serverInfos =>
    print (csv_read_err.Error ++ str ". This row will be skipped from processing.")
      >>= fun _ => readServerInfos st txt rest k serverInfos
  | .ok record :: rest, k, serverInfos =>
    populateServerInfoFromCsvRecord txt record SshServerInfo.zero >>= fun populated =>
      match populated.2 with
      | some populate_err =>
        print (str "Error parsing record. " ++ populate_err.Error
          ++ str ". This row will be skipped from processing.\n")
          >>= fun _ => readServerInfos st txt rest k serverInfos
      | none =>
        match st.generateKeys k with
        | .error key_err =>
          print (str "Error occurred. " ++ key_err.Error ++ str ". Server " ++ populated.1.Server
            ++ str " will be skipped from setup.\n")
            >>= fun _ => readServerInfos st txt rest (k + 1) serverInfos
        | .ok keys =>
          readServerInfos st txt rest (k + 1)
            (serverInfos ++ [{ populated.1 with Private_key := keys.1, Public_key := keys.2.1,
                                                Passphrase := keys.2.2 }])

/-- What the second loop of `setupSSHProxy` has built: the history of SSH
events and the two lists of servers. -/
structure SetupResult where
  log : List SshEvent
  successfulServers : List SshServerInfo
  unsuccessfulServers : List SshServerInfo

/-- The second loop of `setupSSHProxy`, over `serverInfos`. -/
def setupServers (st : Setup) : List SshServerInfo → SetupResult → Proc SetupResult
  | [], acc => Proc.pure acc
  | serverInfo :: rest, acc =>
    match setupKeybasedSshAccess st acc.log serverInfo with
    | (some setupErr, log1) =>
      print (str "Error occurred while setting up key based access for server "
        ++ serverInfo.Server ++ str ". " ++ setupErr.Error
        ++ str ". This server will not be onboarded in PASM vault.\n") >>= fun _ =>
        setupServers st rest
          { acc with log := log1, unsuccessfulServers := acc.unsuccessfulServers ++ [serverInfo] }
    | (none, log1) =>
      setupServers st rest
        { acc with log := log1, successfulServers := acc.successfulServers ++ [serverInfo] }

/-- The function `printUnsuccessfulServerList`. -/
def printUnsuccessfulServerList (unsuccessfulServers : List SshServerInfo) : Proc Unit :=
  if unsuccessfulServers.length > 0 then
    Println (str "Could not setup and onboard following servers.") >>= fun _ =>
      unsuccessfulServers.foldl (fun acc s => acc >>= fun _ => Println s.Server) (Proc.pure ())
  else Proc.pure ()

/-! ## `api.go`, `PASMCLIutils.go`, `onboardSSHServers.go`: the upload of the staged CSV -/

/-- The file system after the file at `path` has been removed. -/
def FS.remove (fs : FS) (path : GoString) : FS :=
  { fs with files := fun p => if p = path then none else fs.files p }

/-- Go `os.Remove(path)` with its error dropped, as a deferred call does. -/
def osRemove (st : Setup) (path : GoString) : Proc Unit := fun w =>
  if st.removeFails path then (Outcome.ret (), w)
  else (Outcome.ret (), { w with fs := w.fs.remove path })

/-- Go `defer`: the deferred call runs when the function returns or panics, and
does not run when the process ends in `os.Exit`. -/
def withDefer {α : Type} (deferred : Proc Unit) (body : Proc α) : Proc α := fun w =>
  match body w with
  | (Outcome.exit code, w1) => (Outcome.exit code, w1)
  | (outcome, w1) => (outcome, (deferred w1).2)

/-- The function `writeCsvToDisk`. -/
def writeCsvToDisk (os : OS) (st : Setup) (records : List (List GoString)) :
    Proc (GoString × Option GoError) := fun w =>
  match st.createTemp with
  | .error temp_err => (Outcome.ret ([], some temp_err), w)
  | .ok name =>
    match osWrite os (w.fs.writeFile name []) name (csvWriteAll records) with
    | (some write_error, fs1) => (Outcome.ret ([], some write_error), { w with fs := fs1 })
    | (none, fs1) => (Outcome.ret (name, none), { w with fs := fs1 })

/-- The function `mustOpen`: the content of the file, or a panic with the
error of `os.Open`. -/
def mustOpen (os : OS) (f : GoString) : Proc GoString := fun w =>
  match osOpen os w.fs f with
  | .error err => (Outcome.panic err.Error, w)
  | .ok data => (Outcome.ret data, w)

/-- One entry of the map `values` of `DoPostFormData`: nothing when the key is
not among the parameters, a file part for `public_key` and `csv_file`, a field
for `secret_type`. -/
def formPart (os : OS) (params : JsonMap) (key : GoString) (isFile : Bool) :
    Proc (List (GoString × Option GoString × GoString)) :=
  match params.get key with
  | none => Proc.pure []
  | some v =>
    assertString (some v) >>= fun text =>
      if isFile then mustOpen os text >>= fun data => Proc.pure [(key, some text, data)]
      else Proc.pure [(key, none, text)]

/-- The function `DoPostFormData`. -/
def DoPostFormData (os : OS) (net : Net) (st : Setup) (txt : Text) (endpoint cacert : GoString)
    (headers : List (GoString × GoString)) (jsonParams _contentType : GoString) :
    Proc (Ret × Option GoError) :=
  let params : JsonMap :=
    match unmarshalMap jsonParams with
    | .ok m => m
    | .error _ => none
  formPart os params (str "public_key") true >>= fun publicKey =>
  formPart os params (str "csv_file") true >>= fun csvFile =>
  formPart os params (str "secret_type") false >>= fun secretType =>
    let form := st.formData (csvFile ++ publicKey ++ secretType)
    if net.urlParseErr endpoint then
      Proc.pure ({ status := none, data := none },
        some (GoError.library (txt.urlParseError endpoint)))
    else
      tlsSetup os cacert >>= fun roots =>
        match net.Do { Method := str "POST", URL := endpoint,
                       Header := (str "Content-Type", form.2) :: headers,
                       Body := form.1, RootCAs := roots } with
        | .error err => Proc.pure ({ status := none, data := none }, some err)
        | .ok response =>
          let data := response.Body
          if data.length ≠ 0 then
            match jsonIndent data with
            | none => Println (str "\n" ++ data ++ str "\n") >>= fun _ => osExit 4
            | some dst =>
              Proc.pure ({ status := some response.StatusCode, data := some dst }, none)
          else Proc.pure ({ status := some response.StatusCode, data := some [] }, none)

/-- The function `uploadCsv`, for the parameters `csv_file` and `secret_type`
that `setupSSHProxy` passes. -/
def uploadCsv (os : OS) (net : Net) (st : Setup) (txt : Text) (csvFile secretType : GoString) :
    Proc Unit := fun w =>
  (DoPostFormData os net st txt (GetEndPoint w [] (str "1.0") (str "ImportCSVSecrets"))
      (GetCACertFile w) (AuthTokenKV w)
      (str "\x7b\"csv_file\":" ++ appendString csvFile ++ str ",\"secret_type\":"
        ++ appendString secretType ++ str "\x7d")
      (str "application/json") >>= fun r =>
    match r.2 with
    | some err =>
      print (str "\nHTTP request failed: " ++ err.Error ++ str "\n") >>= fun _ => osExit 4
    | none =>
      retDataStatus r.1 >>= fun ds =>
        if ds.1 = [] ∧ ds.2 = 404 then
          Println (str "\nAction denied\n") >>= fun _ => osExit 5
        else
          JsonStrToMap ds.1 >>= fun retMap =>
            if (retMap.get (str "error")).isSome then osExit 3 else Proc.pure ()) w

/-- The last part of `setupSSHProxy`: the records of the successful servers are
written to a temporary file, which is uploaded; its removal is deferred. -/
def stageAndUpload (os : OS) (net : Net) (st : Setup) (txt : Text)
    (successfulServers : List SshServerInfo) (commonSecretInfo : CommonSecretInfo) :
    Proc Unit :=
  if successfulServers.length > 0 then
    writeCsvToDisk os st (createCsvRecordsForServers successfulServers commonSecretInfo)
      >>= fun written =>
      match written.2 with
      | some writeErr =>
        print (str "Error writing ssh secrets csv to disk. " ++ writeErr.Error ++ str "\n")
          >>= fun _ => osExit 2
      | none =>
        withDefer (osRemove st written.1)
          (uploadCsv os net st txt written.1 SecretType >>= fun _ =>
            Println (str "CSV upload for servers for which key based SSH access setup was "
              ++ str "successful. Check status using 'get-csv-import-status' command."))
  else Proc.pure ()

/-- The function `setupSSHProxy`, the command `setup-ssh-proxy`. -/
def setupSSHProxy (os : OS) (net : Net) (st : Setup) (txt : Text) (flags : SetupProxyFlags) :
    Proc Unit := fun w =>
  match osOpen os w.fs flags.serversCsv with
  | .error file_err =>
    (print (str "Invalid value provided for parameter 'servers'. " ++ file_err.Error)
      >>= fun _ => osExit 2) w
  | .ok content =>
    match parseCommonSecretInfoFromCommandFlags flags with
    | .error parse_error =>
      (print (str "Error: " ++ parse_error.Error ++ str "\n") >>= fun _ => osExit 2) w
    | .ok commonSecretInfo =>
      (readServerInfos st txt (st.csvRead content) 0 [] >>= fun serverInfos =>
        setupServers st serverInfos
            { log := [], successfulServers := [], unsuccessfulServers := [] } >>= fun result =>
          printUnsuccessfulServerList result.unsuccessfulServers >>= fun _ =>
            stageAndUpload os net st txt result.successfulServers commonSecretInfo) w

/-- A setting in which the CSV file has the three rows `h1,22,u1,p1`,
`h2,ssh,u2,p2` and `h3,2222,u3,p3`, key generation and every SSH step succeed,
the temporary file is `/tmp/ssh-secret-csv1` and can be removed, and the
multipart body is the list of the part contents. -/
def exampleSetup : Setup :=
  { csvRead := fun _ =>
      [.ok [str "h1", str "22", str "u1", str "p1"],
       .ok [str "h2", str "ssh", str "u2", str "p2"],
       .ok [str "h3", str "2222", str "u3", str "p3"]],
    generateKeys := fun k =>
      .ok (str "priv" ++ formatNat k, str "pub" ++ formatNat k, str "pass" ++ formatNat k),
    ssh := fun _ => none,
    createTemp := .ok (str "/tmp/ssh-secret-csv1"),
    removeFails := fun _ => false,
    formData := fun parts =>
      ((parts.map fun p => p.2.2).flatten, str "multipart/form-data; boundary=b") }

/-- The same setting with servers that refuse the key: every key-authenticated
connection fails. -/
def refusingSetup : Setup :=
  { exampleSetup with
    ssh := fun log =>
      match log.getLast? with
      | some (SshEvent.dialKey _ _ _ _) =>
        some (GoError.library (str "ssh: handshake failed: unable to authenticate"))
      | _ => none }

/-- The flags `--servers-csv servers.csv --box-name box1`. -/
def exampleSetupFlags : SetupProxyFlags :=
  { serversCsv := str "servers.csv", boxName := str "box1", secretNamePattern := none,
    secretDescription := none, secretExpiry := none, leaseDuration := none,
    exclusiveCheckout := none, tag := none }

/-- A process that has loaded the token `tok` for the server `vault` with no
CA certificate, on a disk that holds only the file `servers.csv`. -/
def setupWorld : World :=
  { fs := emptyFS.writeFile (str "servers.csv")
      (str "h1,22,u1,p1\nh2,ssh,u2,p2\nh3,2222,u3,p3\n"),
    gTokenInfo := { AccessToken := str "tok", Server := str "vault", CACertFile := [] },
    stdout := [], stderr := [] }

/-! ## `api.go`: the TLS configuration -/

/-- A certificate pool (`*x509.CertPool`): the certificates added to it, each
given by its DER bytes. -/
abbrev CertPool := List GoString

/-- The type `x509.VerifyOptions`, as far as the program fills it in; an empty
`DNSName` means that no host name is checked. -/
structure VerifyOptions where
  Roots : CertPool
  Intermediates : CertPool
  DNSName : GoString

/-- The package `crypto/x509`, which the program calls and does not contain: a
parsed certificate is identified with the DER bytes it was parsed from. -/
structure X509 where
  /-- The error of `x509.ParseCertificate` on DER bytes, if it fails. -/
  ParseCertificate : GoString → Option GoError
  /-- The error of `cert.Verify(opts)`, if verification fails. -/
  Verify : GoString → VerifyOptions → Option GoError

/-- The type `tls.Config`, as far as `GetTLSConfig` fills it in.  The callback
`VerifyPeerCertificate` receives the raw certificates only; its second
argument, the verified chains, is ignored by the program. -/
structure TLSConfig where
  InsecureSkipVerify : Bool
  VerifyPeerCertificate : List GoString → Outcome (Option GoError)

/-- The loop of the callback over `rawCerts[1:]`: every certificate is parsed
and added to the intermediates; the first parse error ends the callback. -/
def parseIntermediates (x : X509) : List GoString → CertPool → Except GoError CertPool
  | [], pool => .ok pool
  | certBytes :: rest, pool =>
    match x.ParseCertificate certBytes with
    | some err => .error err
    | none => parseIntermediates x rest (pool ++ [certBytes])

/-- The function `GetTLSConfig`. -/
def GetTLSConfig (x : X509) (caCertPool : CertPool) : TLSConfig :=
  { InsecureSkipVerify := true,
    VerifyPeerCertificate := fun rawCerts =>
      match rawCerts with
      | [] => Outcome.panic (indexOutOfRange 0 0)
      | raw0 :: later =>
        match x.ParseCertificate raw0 with
        | some err => Outcome.ret (some err)
        | none =>
          match parseIntermediates x later [] with
          | .error err => Outcome.ret (some err)
          | .ok intermediates =>
            Outcome.ret
              (x.Verify raw0 { Roots := caCertPool, Intermediates := intermediates, DNSName := [] }) }

/-- A stand-in for `crypto/x509`: DER bytes parse unless they are empty; a
certificate is accepted when it is in the roots, unless a host name is asked
for that the certificate does not start with. -/
def exampleX509 : X509 :=
  { ParseCertificate := fun der =>
      if der = [] then some (GoError.library (str "x509: malformed certificate")) else none,
    Verify := fun cert opts =>
      if opts.DNSName ≠ [] ∧ ¬ opts.DNSName.isPrefixOf cert then
        some (GoError.library (str "x509: certificate is not valid for the host name"))
      else if cert ∈ opts.Roots then none
      else some (GoError.library (str "x509: certificate signed by unknown authority")) }

/-- The server a row of the CSV names, when its port field is a decimal
integer (`strconv.Atoi` accepts it): host, port, user and password. -/
def rowServer (row : List GoString) : Option (GoString × Int × GoString × GoString) :=
  match parseInt64 (row.getD 1 []) with
  | some port => some (row.getD 0 [], port, row.getD 2 [], row.getD 3 [])
  | none => none

/-- Host, port, user and password of a server info. -/
def SshServerInfo.login (s : SshServerInfo) : GoString × Int × GoString × GoString :=
  (s.Server, s.Port, s.User, s.Password)

/-- The servers the program has tried to set up, in order: one entry (address,
user, password) for every password-authenticated connection in a history of
SSH events. -/
def passwordDials : List SshEvent → List (GoString × GoString × GoString)
  | [] => []
  | SshEvent.dialPassword addr user password :: rest =>
    (addr, user, password) :: passwordDials rest
  | _ :: rest => passwordDials rest

/-! ## `updatePersonalAccessToken.go` -/

/-- The flags of `update-personal-access-token`; `none` is a flag that was not
given (`flags.Changed` is false). -/
structure UpdateTokenFlags where
  name : GoString
  description : Option GoString
  expiry : Option GoString
  revoked : Option Bool

/-- The Unix time of the zero `time.Time`, which `time.Parse` returns with an
error: `time.Time{}.Unix()`. -/
def zeroTimeUnix : Int := -62135596800

/-- The lines of `updatePersonalAccessTokenCmd.Run` that read `--expiry`: the
value of `params["expiry"]`.  `unix` is the method `Unix()` of a parsed time. -/
def updateTokenExpiry (lib : Lib) (unix : GoTime → Int) (expiry : GoString) : Proc Int :=
  match lib.parseRFC3339 (expiry ++ str "T10:00:00Z") with
  | none => Println (str "Can't parse time format\n") >>= fun _ => Proc.pure zeroTimeUnix
  | some thetime => Proc.pure (unix thetime)

/-- What `json.Marshal` writes for the parameters of
`update-personal-access-token` (the keys of a map are written in sorted
order). -/
def updateTokenParamsJSON (flags : UpdateTokenFlags) (expiry : Option Int) : GoString :=
  str "\x7b"
    ++ (match flags.description with
        | some d => str "\"description\":" ++ appendString d ++ str ","
        | none => [])
    ++ (match expiry with
        | some e => str "\"expiry\":" ++ formatInt e ++ str ","
        | none => [])
    ++ str "\"name\":" ++ appendString flags.name
    ++ (match flags.revoked with
        | some r => str ",\"revoked\":" ++ (if r then str "true" else str "false")
        | none => [])
    ++ str "\x7d"

/-- The command `update-personal-access-token`
(`updatePersonalAccessTokenCmd.Run`). -/
def updatePersonalAccessTokenCmd_Run (os : OS) (net : Net) (lib : Lib) (unix : GoTime → Int)
    (flags : UpdateTokenFlags) : Proc Unit :=
  (match flags.expiry with
    | some expiry => updateTokenExpiry lib unix expiry >>= fun e => Proc.pure (some e)
    | none => Proc.pure none) >>= fun expiry =>
  if flags.description.isNone ∧ expiry.isNone ∧ flags.revoked.isNone then
    Println (str "nothing to update") >>= fun _ => osExit 1
  else fun w =>
    (DoPost os net (GetEndPoint w [] (str "1.0") (str "UpdatePersonalAccessToken"))
        (GetCACertFile w) (AuthTokenKV w) (updateTokenParamsJSON flags expiry)
        (str "application/json") >>= fun r =>
      match r.2 with
      | some err =>
        print (str "\nHTTP request failed: " ++ err.Error ++ str "\n") >>= fun _ => osExit 4
      | none =>
        retDataStatus r.1 >>= fun ds =>
          if ds.1 = [] ∧ ds.2 = 404 then
            Println (str "\nAction denied\n") >>= fun _ => osExit 5
          else
            JsonStrToMap ds.1 >>= fun retMap =>
              if (retMap.get (str "error")).isSome then
                Println (str "\n" ++ ds.1 ++ str "\n") >>= fun _ => osExit 3
              else Println (str "\n" ++ ds.1 ++ str "\n") >>= fun _ => osExit 0) w

/-- A network in which every URL is accepted and every request is answered
with status 200 and the body of the request. -/
def echoNet : Net :=
  { urlParseErr := fun _ => false,
    Do := fun req => .ok (mkResponse 200 (str "200 OK") ContentTypeJSON req.Body) }

/-! ## `utils.go`: `GenerateRandomString` -/

/-- The constant `RandomStringCharSet`. -/
def RandomStringCharSet : GoString :=
  str "ABCDEFGHIJKLMNOPQRSTUVWXYZabcdefghijklmnopqrstuvwxyz1234567890"

/-- The loop of `GenerateRandomString`, with `count` draws to go after `i`
draws.  `draw i` is the result of the `i`-th call (from 0) of
`rand.Int(rand.Reader, maxIndex)`: the index drawn, or `none` for an error,
which is dropped and leaves a nil `randIndex` to be dereferenced. -/
def randomStringLoop (draw : Nat → Option Nat) : Nat → Nat → GoString → Outcome GoString
  | 0, _, randomString => Outcome.ret randomString
  | count + 1, i, randomString =>
    match draw i with
    | none => Outcome.panic nilDereference
    | some randIndex =>
      match RandomStringCharSet[randIndex]? with
      | none => Outcome.panic (indexOutOfRange randIndex RandomStringCharSet.length)
      | some c => randomStringLoop draw count (i + 1) (randomString ++ [c])

/-- The function `GenerateRandomString`. -/
def GenerateRandomString (draw : Nat → Option Nat) (length : Int) : Outcome GoString :=
  randomStringLoop draw length.toNat 0 []

/-! ## `api.go`: `GetValueFromKVString` -/

/-- The character class `[a-z]`. -/
def isLowerAZ (c : Byte) : Bool := 0x61 ≤ c.val ∧ c.val ≤ 0x7A

/-- An ASCII letter. -/
def isAsciiLetter (c : Byte) : Bool :=
  (0x41 ≤ c.val ∧ c.val ≤ 0x5A) ∨ (0x61 ≤ c.val ∧ c.val ≤ 0x7A)

/-- A match of the regular expression `(key)=([a-z]+)` at the very start of
`s`, for a key that stands for itself in the pattern: the number of letters the
greedy `[a-z]+` takes, which is at least one. -/
def matchKVHere (key s : GoString) : Option Nat :=
  if key.isPrefixOf s then
    match s.drop key.length with
    | c :: rest =>
      if c.val = 0x3D ∧ (rest.takeWhile isLowerAZ).length > 0 then
        some (rest.takeWhile isLowerAZ).length
      else none
    | [] => none
  else none

/-- Go `re.FindAllStringSubmatchIndex(s, -1)` for the regular expression
`(key)=([a-z]+)`: the successive leftmost matches that do not overlap, each as
the six indices of the match and of its two groups.  `off` is the index of the
first byte of `s` in the whole text and `skip` the number of bytes that belong
to the match before. -/
def findAllSubmatchIndex (key : GoString) : GoString → Nat → Nat → List (List Nat)
  | [], _, _ => []
  | _ :: rest, off, skip + 1 => findAllSubmatchIndex key rest (off + 1) skip
  | c :: rest, off, 0 =>
    match matchKVHere key (c :: rest) with
    | some n =>
      [off, off + key.length + 1 + n, off, off + key.length, off + key.length + 1,
        off + key.length + 1 + n]
        :: findAllSubmatchIndex key rest (off + 1) (key.length + n)
    | none => findAllSubmatchIndex key rest (off + 1) 0

/-- The function `GetValueFromKVString`, for a key of ASCII letters; `none`
stands for any other key, whose regular expression is not modelled. -/
def GetValueFromKVString (kvString key : GoString) : Option (Except GoError GoString) :=
  if key.all isAsciiLetter then
    let result := findAllSubmatchIndex key kvString 0 0
    match result with
    | [] => some (.error (GoError.errorString (key ++ str " not found")))
    | m :: _ =>
      if m.length < 5 then some (.error (GoError.errorString (key ++ str " not found")))
      else some (.ok (kvString.drop (m.getD 4 0)))
  else none

/-! ## `root.go`: `initAccessToken` -/

/-- The array `excludedCommands` of `initAccessToken`. -/
def excludedCommands : List GoString :=
  [str "login", str "version", str "help", str "download-sample-setup-ssh-csv"]

/-- The test of `initAccessToken` on one argument: it starts with `-`, is
longer than two bytes and its second byte is not `-`. -/
def singleDashParam (param : GoString) : Bool :=
  HasPrefix param (str "-") && decide (param.length > 2) && decide (param.getD 1 (B 0) ≠ B 0x2D)

/-- The loop of `initAccessToken` over `os.Args[2:]`. -/
def checkParams (txt : Text) : List GoString → Proc Unit
  | [] => Proc.pure ()
  | param :: rest =>
    if singleDashParam param then
      print (str "\nInvalid parameter " ++ txt.quote param
        ++ str ". Parameter names must be prefixed with --\nE.g. -" ++ param ++ str "\n\n")
        >>= fun _ => osExit 1
    else checkParams txt rest

/-- The function `initAccessToken`; `args` is `os.Args` and `gAccessTokenFile`
the value of the flag `--token-file`. -/
def initAccessToken (os : OS) (txt : Text) (args : List GoString) (gAccessTokenFile : GoString) :
    Proc Unit :=
  if args.length < 2 then Proc.pure ()
  else if excludedCommands.contains (args.getD 1 []) then Proc.pure ()
  else
    checkParams txt (args.drop 2) >>= fun _ =>
      LoadAccessToken os gAccessTokenFile >>= fun r =>
        match r.2 with
        | some err =>
          print (str "\nError getting Server information from " ++ r.1 ++ str ". " ++ err.Error
            ++ str ".\nIf you are not logged in yet, log into Vault by running login command.\n\n")
            >>= fun _ => osExit 1
        | none => Proc.pure ()

/-! ## `utils.go`, `createBox.go`: tags -/

/-- The function `IsJSON`. -/
def IsJSON (s : GoString) : Bool := (parseDocument s).isSome

/-- A value of the map `tagParams`: the string given, or the map it decodes
to. -/
inductive TagValue where
  | text (s : GoString) : TagValue
  | object (m : JsonMap) : TagValue

/-- The map `tagParams`, as the list of its assignments `tagParams[key] = value`
in order; a key assigned twice has its last value. -/
abbrev TagMap := List (GoString × TagValue)

/-- The map index expression `tagParams[key]`. -/
def TagMap.get (m : TagMap) (key : GoString) : Option TagValue :=
  (m.reverse.find? fun kv => kv.1 = key).map fun kv => kv.2

/-- The loop over `tagvalueArray` (the arrays have the same length): the
assignments still to make, given as pairs of key and value. -/
def tagLoop : List (GoString × GoString) → TagMap → Proc TagMap
  | [], tagParams => Proc.pure tagParams
  | (key, value) :: rest, tagParams =>
    if IsJSON value then
      JsonStrToMap value >>= fun m => tagLoop rest (tagParams ++ [(key, TagValue.object m)])
    else tagLoop rest (tagParams ++ [(key, TagValue.text value)])

/-- The lines of `createBoxCmd.Run` on tags; `none` is a flag that was not
given.  The result is the value of `params["tags"]`, `none` when it is not
set. -/
def createBoxTags (tagkey tagvalue : Option (List GoString)) : Proc (Option TagMap) :=
  match tagkey, tagvalue with
  | some _, none => Println (str "Please provide both tag key & values") >>= fun _ => osExit 1
  | none, some _ => Println (str "Please provide both tag key & values") >>= fun _ => osExit 1
  | none, none => Proc.pure none
  | some tagkeyArray, some tagvalueArray =>
    if tagkeyArray.length ≠ tagvalueArray.length then
      Println (str "Please provide equal number of tag keys & values") >>= fun _ => osExit 1
    else tagLoop (tagkeyArray.zip tagvalueArray) [] >>= fun tagParams => Proc.pure (some tagParams)

/-- What a tag value stands for: the string itself when it is not valid JSON,
the decoded map when it is a JSON object, and the nil map when it is `null`. -/
def tagValueOf (value : GoString) : TagValue :=
  match parseDocument value with
  | none => TagValue.text value
  | some (.object members) =>
    TagValue.object (some (members.map fun kv => ((unquote kv.1).getD [], kv.2)))
  | some _ => TagValue.object none

/-- A tag value that is valid JSON but neither an object nor `null`. -/
def otherJSON (value : GoString) : Bool :=
  match parseDocument value with
  | none => false
  | some (.object _) => false
  | some .null => false
  | some _ => true

/-- A setting in which the server at the address `h2:22` refuses the password
and every other SSH event succeeds. -/
def pickySetup : Setup :=
  { exampleSetup with
    ssh := fun log =>
      match log.getLast? with
      | some (SshEvent.dialPassword addr _ _) =>
        if addr = str "h2:22" then
          some (GoError.library (str "ssh: handshake failed: unable to authenticate"))
        else none
      | _ => none }

/-- A server with the given host name, on port 22. -/
def hostServer (host : GoString) : SshServerInfo :=
  { Server := host, Port := 22, User := str "u", Password := str "p", Private_key := [],
    Public_key := [], Passphrase := [] }

/-! ## `encoding/csv`: the reader, for input without quotes -/

/-- Go `lengthNL` of `encoding/csv`: 1 when the line ends in a line feed, else 0. -/
def lengthNL (line : GoString) : Nat :=
  match line.getLast? with
  | some c => if c.val = 0x0A then 1 else 0
  | none => 0

/-- Go `bufio.Reader.ReadSlice` with the line feed as delimiter, on the input
that remains: the bytes up to and including the first line feed (all of them
when there is none) and what remains after them. -/
def readSlice : GoString → GoString × GoString
  | [] => ([], [])
  | c :: rest =>
    if c.val = 0x0A then ([c], rest)
    else (c :: (readSlice rest).1, (readSlice rest).2)

/-- The method `readLine` of `csv.Reader` on input that is not at its end: a
carriage return before the end of the input is dropped and `\r\n` at the end of
the line becomes `\n`.  The result is the line and the input that remains. -/
def csvReadLine (data : GoString) : GoString × GoString :=
  let r := readSlice data
  let line := if r.1.getLast? = some (B 0x0D) then r.1.dropLast else r.1
  if line.drop (line.length - 2) = [B 0x0D, B 0x0A] then
    (line.take (line.length - 2) ++ [B 0x0A], r.2)
  else (line, r.2)

/-- The lines `i := bytes.IndexFunc(line, not unicode.IsSpace)` and
`line = line[i:]` of `readRecord` (all of the line is dropped when it is white
space only): the line without its leading white space. -/
def trimLeadingSpace : Nat → GoString → GoString
  | 0, line => line
  | _ + 1, [] => []
  | fuel + 1, c :: rest =>
    if IsSpace (DecodeRune (c :: rest)).1 then
      trimLeadingSpace fuel ((c :: rest).drop (DecodeRune (c :: rest)).2)
    else c :: rest

/-- The line cut at `bytes.IndexRune(line, ',')`: what stands before the first
comma and what stands after it, `none` when there is no comma. -/
def cutComma : GoString → Option (GoString × GoString)
  | [] => none
  | c :: rest =>
    if c.val = 0x2C then some ([], rest)
    else (cutComma rest).map fun p => (c :: p.1, p.2)

/-- The loop `parseField` of `readRecord` with `TrimLeadingSpace` set, on a
line without quotes: the fields of the line. -/
def csvFields : Nat → GoString → List GoString
  | 0, _ => []
  | fuel + 1, line =>
    let line1 := trimLeadingSpace line.length line
    match cutComma line1 with
    | some (field, rest) => field :: csvFields fuel rest
    | none => [line1.take (line1.length - lengthNL line1)]

/-- The text of the `*csv.ParseError` for `ErrFieldCount` in the record that
starts on line `line`. -/
def fieldCountError (line : Nat) : GoError :=
  GoError.library (str "record on line " ++ formatNat line ++ str ": wrong number of fields")

/-- The results of the successive calls of `Read` on the reader made by
`getServerCsvReader` (`TrimLeadingSpace`, four fields per record) before the
one that returns `io.EOF`, for input without quotes; `numLine` lines have been
read so far.  Empty lines are skipped. -/
def csvRecords : Nat → GoString → Nat → List (Except GoError (List GoString))
  | 0, _, _ => []
  | fuel + 1, data, numLine =>
    if data = [] then []
    else
      let r := csvReadLine data
      if r.1.length = lengthNL r.1 then csvRecords fuel r.2 (numLine + 1)
      else
        let record := csvFields (r.1.length + 1) r.1
        (if record.length ≠ 4 then .error (fieldCountError (numLine + 1)) else .ok record)
          :: csvRecords fuel r.2 (numLine + 1)

/-- What the reader of `getServerCsvReader` reads from a file with the given
content; `none` for content with a quote `"` in it (quoted fields are not part
of this model). -/
def serverCsvRead (data : GoString) : Option (List (Except GoError (List GoString))) :=
  if data.any (fun c => c.val = 0x22) then none else some (csvRecords data.length data 0)

/-! ## `downloadSampleSetupSshCsv.go` -/

/-- The variable `sampleCsvHeader`. -/
def sampleCsvHeader : GoString := str "host,port,user,password\n"

/-- The variable `sampleCsvRow`. -/
def sampleCsvRow : GoString := str "10.1.2.3,22,test_user,P4$$w0rd\n"

/-- The function `writeLineToFile`, on the file created at the path `file`. -/
def writeLineToFile (os : OS) (file line : GoString) : Proc Unit := fun w =>
  match osWrite os w.fs file line with
  | (some _, fs1) =>
    (print (str "Error occurred while trying to write to " ++ file ++ str ".\n") >>= fun _ =>
      osExit 1) { w with fs := fs1 }
  | (none, fs1) => (Outcome.ret (), { w with fs := fs1 })

/-- The function `writeCsvToFile`. -/
def writeCsvToFile (os : OS) (output_file : GoString) : Proc Unit := fun w =>
  match osCreate os w.fs output_file with
  | (some err, fs1) =>
    (print (str "Error occurred while trying to create " ++ output_file ++ str ". "
      ++ err.Error ++ str "\n") >>= fun _ => osExit 1) { w with fs := fs1 }
  | (none, fs1) =>
    (writeLineToFile os output_file sampleCsvHeader >>= fun _ =>
      writeLineToFile os output_file sampleCsvRow) { w with fs := fs1 }

/-- The function `downloadSampleSetupSshCsv`; `outputFile` is the flag
`--output-file`, `none` when it was not given. -/
def downloadSampleSetupSshCsv (os : OS) (outputFile : Option GoString) : Proc Unit :=
  match outputFile with
  | some output_file => writeCsvToFile os output_file
  | none => print sampleCsvHeader >>= fun _ => print sampleCsvRow

/-! # Theorems -/

/-! ## Lemmas on bytes and UTF-8 -/

theorem B_val (n : Nat) : (B n).val = n % 256 := rfl

theorem B_eq_of_val (n : Nat) (b : Byte) (h : n = b.val) : B n = b := by
  apply Fin.ext
  rw [B_val]
  omega

set_option maxRecDepth 100000 in
theorem first_cases : ∀ b : Byte,
    (b.val < 0x80 ∧ first b = 0xF0) ∨ (0x80 ≤ b.val ∧ b.val < 0xC2 ∧ first b = 0xF1)
    ∨ (0xC2 ≤ b.val ∧ b.val < 0xE0 ∧ first b = 0x02)
    ∨ (b.val = 0xE0 ∧ first b = 0x13)
    ∨ (0xE1 ≤ b.val ∧ b.val ≤ 0xEF ∧ b.val ≠ 0xED ∧ first b = 0x03)
    ∨ (b.val = 0xED ∧ first b = 0x23)
    ∨ (b.val = 0xF0 ∧ first b = 0x34)
    ∨ (0xF1 ≤ b.val ∧ b.val < 0xF4 ∧ first b = 0x04)
    ∨ (b.val = 0xF4 ∧ first b = 0x44)
    ∨ (0xF5 ≤ b.val ∧ first b = 0xF1) := by
  decide

theorem DecodeRune_ascii (b0 : Byte) (rest : GoString) (h : b0.val < 0x80) :
    DecodeRune (b0 :: rest) = (b0.val, 1) := by
  rcases first_cases b0 with h1 | h1 | h1 | h1 | h1 | h1 | h1 | h1 | h1 | h1 <;>
    first
    | omega
    | simp [DecodeRune, h1.2]

theorem DecodeRune_invalid (b0 : Byte) (rest : GoString) (h : first b0 = 0xF1) :
    DecodeRune (b0 :: rest) = (RuneError, 1) := by
  simp [DecodeRune, h]

theorem DecodeRune_short (b0 : Byte) (rest : GoString) (x : Nat) (h : first b0 = x)
    (hx : x < 0xF0) (hlen : (b0 :: rest).length < x % 8) :
    DecodeRune (b0 :: rest) = (RuneError, 1) := by
  unfold DecodeRune
  simp only [h]
  rw [if_neg (by omega), if_pos hlen]

theorem DecodeRune_two (b0 b1 : Byte) (rest : GoString) (h : first b0 = 0x02) :
    DecodeRune (b0 :: b1 :: rest) =
      if b1.val < 0x80 ∨ 0xBF < b1.val then (RuneError, 1)
      else ((b0.val % 32) * 64 + b1.val % 64, 2) := by
  simp [DecodeRune, h, acceptRanges]

theorem DecodeRune_three (b0 b1 b2 : Byte) (rest : GoString) (x : Nat) (h : first b0 = x)
    (hx : x = 0x13 ∨ x = 0x03 ∨ x = 0x23) :
    DecodeRune (b0 :: b1 :: b2 :: rest) =
      if b1.val < (acceptRanges (x / 16)).1 ∨ (acceptRanges (x / 16)).2 < b1.val then
        (RuneError, 1)
      else if b2.val < 0x80 ∨ 0xBF < b2.val then (RuneError, 1)
      else ((b0.val % 16) * 4096 + (b1.val % 64) * 64 + b2.val % 64, 3) := by
  rcases hx with rfl | rfl | rfl <;> simp [DecodeRune, h, acceptRanges]

theorem DecodeRune_four (b0 b1 b2 b3 : Byte) (rest : GoString) (x : Nat) (h : first b0 = x)
    (hx : x = 0x34 ∨ x = 0x04 ∨ x = 0x44) :
    DecodeRune (b0 :: b1 :: b2 :: b3 :: rest) =
      if b1.val < (acceptRanges (x / 16)).1 ∨ (acceptRanges (x / 16)).2 < b1.val then
        (RuneError, 1)
      else if b2.val < 0x80 ∨ 0xBF < b2.val then (RuneError, 1)
      else if b3.val < 0x80 ∨ 0xBF < b3.val then (RuneError, 1)
      else ((b0.val % 8) * 262144 + (b1.val % 64) * 4096 + (b2.val % 64) * 64
        + b3.val % 64, 4) := by
  rcases hx with rfl | rfl | rfl <;> simp [DecodeRune, h, acceptRanges]

/-- What a successful multi-byte decoding step says about the input: it starts
with a chunk of two to four bytes, none of them ASCII, that is the encoding of
the decoded rune, and decoding looks at nothing but that chunk. -/
structure RuneChunk (s : GoString) (r size : Nat) (chunk tail : GoString) : Prop where
  split : s = chunk ++ tail
  len : chunk.length = size
  two : 2 ≤ size
  four : size ≤ 4
  high : ∀ x ∈ chunk, 0x80 ≤ x.val
  enc : AppendRune r = chunk
  dec : ∀ t, DecodeRune (chunk ++ t) = (r, size)
  big : 0x80 ≤ r

theorem RuneChunk_two (b0 b1 : Byte) (rest : GoString) (h0 : 0xC2 ≤ b0.val) (h0' : b0.val < 0xE0)
    (hf : first b0 = 0x02) (h1 : ¬ (b1.val < 0x80 ∨ 0xBF < b1.val)) :
    RuneChunk (b0 :: b1 :: rest) ((b0.val % 32) * 64 + b1.val % 64) 2 [b0, b1] rest := by
  refine ⟨rfl, rfl, by omega, by omega, ?_, ?_, ?_, by omega⟩
  · intro x hx
    simp at hx
    rcases hx with rfl | rfl <;> omega
  · unfold AppendRune
    rw [if_neg (by omega), if_pos (by omega)]
    rw [B_eq_of_val _ b0 (by omega), B_eq_of_val _ b1 (by omega)]
  · intro t
    show DecodeRune (b0 :: b1 :: t) = _
    rw [DecodeRune_two b0 b1 t hf, if_neg h1]

theorem RuneChunk_three (b0 b1 b2 : Byte) (rest : GoString) (x : Nat) (hf : first b0 = x)
    (hx : x = 0x13 ∨ x = 0x03 ∨ x = 0x23)
    (h0 : 0xE0 ≤ b0.val) (h0' : b0.val ≤ 0xEF)
    (hE0 : b0.val = 0xE0 → x = 0x13) (hED : b0.val = 0xED → x = 0x23)
    (h1 : ¬ (b1.val < (acceptRanges (x / 16)).1 ∨ (acceptRanges (x / 16)).2 < b1.val))
    (h2 : ¬ (b2.val < 0x80 ∨ 0xBF < b2.val)) :
    RuneChunk (b0 :: b1 :: b2 :: rest)
      ((b0.val % 16) * 4096 + (b1.val % 64) * 64 + b2.val % 64) 3 [b0, b1, b2] rest := by
  have hb1 : 0x80 ≤ b1.val ∧ b1.val ≤ 0xBF ∧ (b0.val = 0xE0 → 0xA0 ≤ b1.val)
      ∧ (b0.val = 0xED → b1.val ≤ 0x9F) := by
    rcases hx with rfl | rfl | rfl <;> simp [acceptRanges] at h1 hE0 hED <;> omega
  refine ⟨rfl, rfl, by omega, by omega, ?_, ?_, ?_, by omega⟩
  · intro y hy
    simp at hy
    rcases hy with rfl | rfl | rfl <;> omega
  · unfold AppendRune
    rw [if_neg (by omega), if_neg (by omega), if_neg (by omega), if_pos (by omega)]
    rw [B_eq_of_val _ b0 (by omega), B_eq_of_val _ b1 (by omega), B_eq_of_val _ b2 (by omega)]
  · intro t
    show DecodeRune (b0 :: b1 :: b2 :: t) = _
    rw [DecodeRune_three b0 b1 b2 t x hf hx, if_neg h1, if_neg h2]

theorem RuneChunk_four (b0 b1 b2 b3 : Byte) (rest : GoString) (x : Nat) (hf : first b0 = x)
    (hx : x = 0x34 ∨ x = 0x04 ∨ x = 0x44)
    (h0 : 0xF0 ≤ b0.val) (h0' : b0.val ≤ 0xF4)
    (hF0 : b0.val = 0xF0 → x = 0x34) (hF4 : b0.val = 0xF4 → x = 0x44)
    (h1 : ¬ (b1.val < (acceptRanges (x / 16)).1 ∨ (acceptRanges (x / 16)).2 < b1.val))
    (h2 : ¬ (b2.val < 0x80 ∨ 0xBF < b2.val)) (h3 : ¬ (b3.val < 0x80 ∨ 0xBF < b3.val)) :
    RuneChunk (b0 :: b1 :: b2 :: b3 :: rest)
      ((b0.val % 8) * 262144 + (b1.val % 64) * 4096 + (b2.val % 64) * 64 + b3.val % 64) 4
      [b0, b1, b2, b3] rest := by
  have hb1 : 0x80 ≤ b1.val ∧ b1.val ≤ 0xBF ∧ (b0.val = 0xF0 → 0x90 ≤ b1.val)
      ∧ (b0.val = 0xF4 → b1.val ≤ 0x8F) := by
    rcases hx with rfl | rfl | rfl <;> simp [acceptRanges] at h1 hF0 hF4 <;> omega
  refine ⟨rfl, rfl, by omega, by omega, ?_, ?_, ?_, by omega⟩
  · intro y hy
    simp at hy
    rcases hy with rfl | rfl | rfl | rfl <;> omega
  · unfold AppendRune
    rw [if_neg (by omega), if_neg (by omega), if_neg (by omega), if_neg (by omega)]
    rw [B_eq_of_val _ b0 (by omega), B_eq_of_val _ b1 (by omega), B_eq_of_val _ b2 (by omega),
      B_eq_of_val _ b3 (by omega)]
  · intro t
    show DecodeRune (b0 :: b1 :: b2 :: b3 :: t) = _
    rw [DecodeRune_four b0 b1 b2 b3 t x hf hx, if_neg h1, if_neg h2, if_neg h3]

theorem not_not_error (p : Nat × Nat) (hp : p = (RuneError, 1)) :
    ¬ ¬ (p.1 = RuneError ∧ p.2 = 1) := by
  subst hp; simp

theorem DecodeRune_chunk3 (b : Byte) (rest : GoString) (x : Nat) (hf : first b = x)
    (hx : x = 0x13 ∨ x = 0x03 ∨ x = 0x23) (h0 : 0xE0 ≤ b.val) (h0' : b.val ≤ 0xEF)
    (hE0 : b.val = 0xE0 → x = 0x13) (hED : b.val = 0xED → x = 0x23)
    (h : ¬ ((DecodeRune (b :: rest)).1 = RuneError ∧ (DecodeRune (b :: rest)).2 = 1)) :
    ∃ chunk tail, RuneChunk (b :: rest) (DecodeRune (b :: rest)).1 (DecodeRune (b :: rest)).2
      chunk tail := by
  have hx8 : x % 8 = 3 ∧ x < 0xF0 := by rcases hx with rfl | rfl | rfl <;> simp
  rcases rest with _ | ⟨b1, _ | ⟨b2, rest2⟩⟩
  · exact absurd h (not_not_error _ (DecodeRune_short b [] x hf hx8.2 (by simp; omega)))
  · exact absurd h (not_not_error _ (DecodeRune_short b [b1] x hf hx8.2 (by simp; omega)))
  · by_cases c1 : b1.val < (acceptRanges (x / 16)).1 ∨ (acceptRanges (x / 16)).2 < b1.val
    · exact absurd h (not_not_error _ (by rw [DecodeRune_three b b1 b2 rest2 x hf hx, if_pos c1]))
    · by_cases c2 : b2.val < 0x80 ∨ 0xBF < b2.val
      · exact absurd h (not_not_error _
          (by rw [DecodeRune_three b b1 b2 rest2 x hf hx, if_neg c1, if_pos c2]))
      · refine ⟨[b, b1, b2], rest2, ?_⟩
        rw [DecodeRune_three b b1 b2 rest2 x hf hx, if_neg c1, if_neg c2]
        exact RuneChunk_three b b1 b2 rest2 x hf hx h0 h0' hE0 hED c1 c2

theorem DecodeRune_chunk4 (b : Byte) (rest : GoString) (x : Nat) (hf : first b = x)
    (hx : x = 0x34 ∨ x = 0x04 ∨ x = 0x44) (h0 : 0xF0 ≤ b.val) (h0' : b.val ≤ 0xF4)
    (hF0 : b.val = 0xF0 → x = 0x34) (hF4 : b.val = 0xF4 → x = 0x44)
    (h : ¬ ((DecodeRune (b :: rest)).1 = RuneError ∧ (DecodeRune (b :: rest)).2 = 1)) :
    ∃ chunk tail, RuneChunk (b :: rest) (DecodeRune (b :: rest)).1 (DecodeRune (b :: rest)).2
      chunk tail := by
  have hx8 : x % 8 = 4 ∧ x < 0xF0 := by rcases hx with rfl | rfl | rfl <;> simp
  rcases rest with _ | ⟨b1, _ | ⟨b2, _ | ⟨b3, rest3⟩⟩⟩
  · exact absurd h (not_not_error _ (DecodeRune_short b [] x hf hx8.2 (by simp; omega)))
  · exact absurd h (not_not_error _ (DecodeRune_short b [b1] x hf hx8.2 (by simp; omega)))
  · exact absurd h (not_not_error _ (DecodeRune_short b [b1, b2] x hf hx8.2 (by simp; omega)))
  · by_cases c1 : b1.val < (acceptRanges (x / 16)).1 ∨ (acceptRanges (x / 16)).2 < b1.val
    · exact absurd h (not_not_error _
        (by rw [DecodeRune_four b b1 b2 b3 rest3 x hf hx, if_pos c1]))
    · by_cases c2 : b2.val < 0x80 ∨ 0xBF < b2.val
      · exact absurd h (not_not_error _
          (by rw [DecodeRune_four b b1 b2 b3 rest3 x hf hx, if_neg c1, if_pos c2]))
      · by_cases c3 : b3.val < 0x80 ∨ 0xBF < b3.val
        · exact absurd h (not_not_error _
            (by rw [DecodeRune_four b b1 b2 b3 rest3 x hf hx, if_neg c1, if_neg c2, if_pos c3]))
        · refine ⟨[b, b1, b2, b3], rest3, ?_⟩
          rw [DecodeRune_four b b1 b2 b3 rest3 x hf hx, if_neg c1, if_neg c2, if_neg c3]
          exact RuneChunk_four b b1 b2 b3 rest3 x hf hx h0 h0' hF0 hF4 c1 c2 c3

theorem DecodeRune_chunk (b : Byte) (rest : GoString) (hb : 0x80 ≤ b.val)
    (h : ¬ ((DecodeRune (b :: rest)).1 = RuneError ∧ (DecodeRune (b :: rest)).2 = 1)) :
    ∃ chunk tail, RuneChunk (b :: rest) (DecodeRune (b :: rest)).1 (DecodeRune (b :: rest)).2
      chunk tail := by
  rcases first_cases b with h1 | h1 | h1 | h1 | h1 | h1 | h1 | h1 | h1 | h1
  · omega
  · exact absurd h (not_not_error _ (DecodeRune_invalid b rest h1.2.2))
  · -- two bytes
    rcases rest with _ | ⟨b1, rest1⟩
    · exact absurd h (not_not_error _ (DecodeRune_short b [] _ h1.2.2 (by omega) (by simp)))
    · by_cases c1 : b1.val < 0x80 ∨ 0xBF < b1.val
      · exact absurd h (not_not_error _ (by rw [DecodeRune_two b b1 rest1 h1.2.2, if_pos c1]))
      · refine ⟨[b, b1], rest1, ?_⟩
        rw [DecodeRune_two b b1 rest1 h1.2.2, if_neg c1]
        exact RuneChunk_two b b1 rest1 h1.1 h1.2.1 h1.2.2 c1
  · exact DecodeRune_chunk3 b rest _ h1.2 (by simp) (by omega) (by omega) (by simp)
      (by omega) h
  · exact DecodeRune_chunk3 b rest _ h1.2.2.2 (by simp) (by omega) (by omega) (by omega)
      (by omega) h
  · exact DecodeRune_chunk3 b rest _ h1.2 (by simp) (by omega) (by omega) (by omega)
      (by simp) h
  · exact DecodeRune_chunk4 b rest _ h1.2 (by simp) (by omega) (by omega) (by simp)
      (by omega) h
  · exact DecodeRune_chunk4 b rest _ h1.2.2 (by simp) (by omega) (by omega) (by omega)
      (by omega) h
  · exact DecodeRune_chunk4 b rest _ h1.2 (by simp) (by omega) (by omega) (by omega)
      (by simp) h
  · exact absurd h (not_not_error _ (DecodeRune_invalid b rest h1.2))

theorem RuneChunk.take {s : GoString} {r size : Nat} {chunk tail : GoString}
    (c : RuneChunk s r size chunk tail) : s.take size = chunk := by
  rw [c.split, ← c.len, List.take_left']
  rfl

theorem RuneChunk.drop {s : GoString} {r size : Nat} {chunk tail : GoString}
    (c : RuneChunk s r size chunk tail) : s.drop size = tail := by
  rw [c.split, ← c.len, List.drop_left']
  rfl

theorem RuneChunk.take4 {s : GoString} {r size : Nat} {chunk tail : GoString}
    (c : RuneChunk s r size chunk tail) : DecodeRune (s.take 4) = (r, size) := by
  have h4 := c.four
  have : s.take 4 = chunk ++ tail.take (4 - size) := by
    rw [c.split, List.take_append_eq_append_take, c.len]
    congr 1
    rw [List.take_of_length_le (by rw [c.len]; exact h4)]
  rw [this]
  exact c.dec _

theorem DecodeRune_take4 (b : Byte) (rest : GoString) (hb : 0x80 ≤ b.val) :
    DecodeRune ((b :: rest).take 4) = DecodeRune (b :: rest) := by
  by_cases h : (DecodeRune (b :: rest)).1 = RuneError ∧ (DecodeRune (b :: rest)).2 = 1
  · by_cases h' : (DecodeRune (b :: rest.take 3)).1 = RuneError
        ∧ (DecodeRune (b :: rest.take 3)).2 = 1
    · show DecodeRune (b :: rest.take 3) = _
      exact Prod.ext (h'.1.trans h.1.symm) (h'.2.trans h.2.symm)
    · obtain ⟨chunk, tail, c⟩ := DecodeRune_chunk b (rest.take 3) hb h'
      have e : b :: rest = chunk ++ (tail ++ rest.drop 3) := by
        rw [← List.append_assoc, ← c.split]
        exact (congrArg (List.cons b) (List.take_append_drop 3 rest)).symm
      have := c.dec (tail ++ rest.drop 3)
      rw [← e] at this
      show DecodeRune (b :: rest.take 3) = _
      rw [this]
  · obtain ⟨chunk, tail, c⟩ := DecodeRune_chunk b rest hb h
    exact c.take4

/-! ## The JSON string encoder and the scanner -/


theorem scanString_cons (c : Byte) (rest : GoString) :
    scanString (c :: rest) =
    if c.val = 0x22 then some ([], rest)
    else if c.val = 0x5C then
      match rest with
      | [] => none
      | e :: rest1 =>
        if e.val = 0x62 ∨ e.val = 0x66 ∨ e.val = 0x6E ∨ e.val = 0x72 ∨ e.val = 0x74
            ∨ e.val = 0x5C ∨ e.val = 0x2F ∨ e.val = 0x22 then
          (scanString rest1).map fun r => (c :: e :: r.1, r.2)
        else if e.val = 0x75 then
          match rest1 with
          | h1 :: h2 :: h3 :: h4 :: rest2 =>
            if (hexVal h1).isSome ∧ (hexVal h2).isSome ∧ (hexVal h3).isSome
                ∧ (hexVal h4).isSome then
              (scanString rest2).map fun r => (c :: e :: h1 :: h2 :: h3 :: h4 :: r.1, r.2)
            else none
          | _ => none
        else none
    else if c.val < 0x20 then none
    else (scanString rest).map fun r => (c :: r.1, r.2) := by
  rw [scanString.eq_def]
  rfl

theorem scanString_quote (rest : GoString) : scanString (B 0x22 :: rest) = some ([], rest) := by
  rw [scanString_cons, if_pos (by decide)]

theorem hexVal_digits : hexVal (B 0x30) = some 0 ∧ hexVal (B 0x32) = some 2
    ∧ hexVal (B 0x66) = some 15 ∧ hexVal (B 0x64) = some 13 ∧ hexVal (B 0x38) = some 8
    ∧ hexVal (B 0x39) = some 9 := by
  decide

theorem scanString_high (chunk X : GoString) (r : GoString × GoString)
    (hc : ∀ x ∈ chunk, 0x80 ≤ x.val) (hX : scanString X = some r) :
    scanString (chunk ++ X) = some (chunk ++ r.1, r.2) := by
  induction chunk with
  | nil => simpa using hX
  | cons c cs ih =>
    have hc0 : 0x80 ≤ c.val := hc c (by simp)
    have := ih (fun x hx => hc x (by simp [hx]))
    show scanString (c :: (cs ++ X)) = _
    rw [scanString_cons, if_neg (by omega), if_neg (by omega), if_neg (by omega), this]
    rfl

set_option maxRecDepth 100000 in
theorem escapeByte_cases : ∀ b : Byte, b.val < 0x80 → htmlSafeSet b = false →
    (escapeByte b = [B 0x5C, b] ∧ (b.val = 0x5C ∨ b.val = 0x22))
    ∨ (escapeByte b = [B 0x5C, B 0x62] ∧ b = B 0x08)
    ∨ (escapeByte b = [B 0x5C, B 0x66] ∧ b = B 0x0C)
    ∨ (escapeByte b = [B 0x5C, B 0x6E] ∧ b = B 0x0A)
    ∨ (escapeByte b = [B 0x5C, B 0x72] ∧ b = B 0x0D)
    ∨ (escapeByte b = [B 0x5C, B 0x74] ∧ b = B 0x09)
    ∨ (escapeByte b = [B 0x5C, B 0x75, B 0x30, B 0x30, hex (b.val / 16), hex (b.val % 16)]
        ∧ hexVal (hex (b.val / 16)) = some (b.val / 16)
        ∧ hexVal (hex (b.val % 16)) = some (b.val % 16)) := by
  decide

theorem scanString_escapeByte (b : Byte) (X : GoString) (r : GoString × GoString)
    (hb : b.val < 0x80) (hs : htmlSafeSet b = false) (hX : scanString X = some r) :
    scanString (escapeByte b ++ X) = some (escapeByte b ++ r.1, r.2) := by
  rcases escapeByte_cases b hb hs with h | h | h | h | h | h | h
  · rw [h.1]
    rcases h.2 with h2 | h2 <;> simp [scanString_cons, B_val, h2, hX]
  · rw [h.1]; simp [scanString_cons, B_val, hX]
  · rw [h.1]; simp [scanString_cons, B_val, hX]
  · rw [h.1]; simp [scanString_cons, B_val, hX]
  · rw [h.1]; simp [scanString_cons, B_val, hX]
  · rw [h.1]; simp [scanString_cons, B_val, hX]
  · rw [h.1]; simp [scanString_cons, B_val, hX, h.2.1, h.2.2, hexVal_digits]

theorem scanString_safe (b : Byte) (X : GoString) (r : GoString × GoString)
    (hs : htmlSafeSet b = true) (hX : scanString X = some r) :
    scanString (b :: X) = some (b :: r.1, r.2) := by
  simp only [htmlSafeSet, Bool.and_eq_true, decide_eq_true_eq] at hs
  rw [scanString_cons, if_neg (by omega), if_neg (by omega), if_neg (by omega), hX]
  rfl

theorem scanString_appendStringAux (n : Nat) : ∀ (s rest : GoString), s.length ≤ n →
    scanString (appendStringAux n s ++ B 0x22 :: rest) = some (appendStringAux n s, rest) := by
  induction n with
  | zero =>
    intro s rest hs
    simp only [appendStringAux, List.nil_append]
    exact scanString_quote rest
  | succ n ih =>
    intro s rest hs
    rcases s with _ | ⟨b, s'⟩
    · simp only [appendStringAux, List.nil_append]
      exact scanString_quote rest
    · have hlen : s'.length ≤ n := by simpa using hs
      rw [appendStringAux]
      by_cases hb : b.val < 0x80
      · rw [if_pos hb]
        by_cases hsafe : htmlSafeSet b = true
        · rw [if_pos hsafe]
          exact scanString_safe b _ _ hsafe (ih s' rest hlen)
        · rw [if_neg hsafe, List.append_assoc]
          exact scanString_escapeByte b _ _ hb (by simpa using hsafe) (ih s' rest hlen)
      · rw [if_neg hb, DecodeRune_take4 b s' (by omega)]
        by_cases herr : (DecodeRune (b :: s')).1 = RuneError ∧ (DecodeRune (b :: s')).2 = 1
        · simp only [herr, and_self, if_true]
          have := ih s' rest hlen
          simp [scanString_cons, B_val, hexVal_digits, this]
        · obtain ⟨chunk, tail, c⟩ := DecodeRune_chunk b s' (by omega) herr
          have htail : tail.length ≤ n := by
            have := congrArg List.length c.split
            have h2 := c.two
            have h3 := c.len
            simp at this
            omega
          simp only [herr, if_false]
          rw [c.take, c.drop]
          have := ih tail rest htail
          by_cases hls : (DecodeRune (b :: s')).1 = 0x2028 ∨ (DecodeRune (b :: s')).1 = 0x2029
          · rw [if_pos hls]
            rcases hls with h1 | h1 <;> rw [h1] <;> simp [scanString_cons, B_val, hexVal_digits, hex, this]
          · rw [if_neg hls, List.append_assoc]
            exact scanString_high chunk _ _ c.high this

/-! ## The JSON string encoder and `unquote` -/

theorem unquoteAux_nil (m : Nat) : unquoteAux m [] = some [] := by
  cases m <;> rfl

theorem unquoteAux_cons (fuel : Nat) (c : Byte) (rest : GoString) :
    unquoteAux (fuel + 1) (c :: rest) =
    if c.val = 0x5C then
      match rest with
      | [] => none
      | e :: rest1 =>
        if e.val = 0x22 ∨ e.val = 0x5C ∨ e.val = 0x2F ∨ e.val = 0x27 then
          (unquoteAux fuel rest1).map fun t => e :: t
        else if e.val = 0x62 then (unquoteAux fuel rest1).map fun t => B 0x08 :: t
        else if e.val = 0x66 then (unquoteAux fuel rest1).map fun t => B 0x0C :: t
        else if e.val = 0x6E then (unquoteAux fuel rest1).map fun t => B 0x0A :: t
        else if e.val = 0x72 then (unquoteAux fuel rest1).map fun t => B 0x0D :: t
        else if e.val = 0x74 then (unquoteAux fuel rest1).map fun t => B 0x09 :: t
        else if e.val = 0x75 then
          match getu4 (c :: rest) with
          | none => none
          | some rr =>
            let after := (c :: rest).drop 6
            if 0xD800 ≤ rr ∧ rr < 0xE000 then
              let dec := utf16DecodeRune rr ((getu4 after).getD RuneError)
              if (getu4 after).isSome ∧ dec ≠ RuneError then
                (unquoteAux fuel (after.drop 6)).map fun t => AppendRune dec ++ t
              else (unquoteAux fuel after).map fun t => AppendRune RuneError ++ t
            else (unquoteAux fuel after).map fun t => AppendRune rr ++ t
        else none
    else if c.val = 0x22 ∨ c.val < 0x20 then none
    else if c.val < 0x80 then (unquoteAux fuel rest).map fun t => c :: t
    else
      let d := DecodeRune (c :: rest)
      (unquoteAux fuel ((c :: rest).drop d.2)).map fun t => AppendRune d.1 ++ t := by
  rw [unquoteAux.eq_def]
  rfl

theorem unquoteAux_safe (m : Nat) (b : Byte) (X : GoString) (hs : htmlSafeSet b = true) :
    unquoteAux (m + 1) (b :: X) = (unquoteAux m X).map fun t => b :: t := by
  simp only [htmlSafeSet, Bool.and_eq_true, decide_eq_true_eq] at hs
  rw [unquoteAux_cons, if_neg (by omega), if_neg (by omega), if_pos (by omega)]

theorem unquoteAux_escapeByte (m : Nat) (b : Byte) (X : GoString)
    (hb : b.val < 0x80) (hs : htmlSafeSet b = false) :
    unquoteAux (m + 1) (escapeByte b ++ X) = (unquoteAux m X).map fun t => b :: t := by
  rcases escapeByte_cases b hb hs with h | h | h | h | h | h | h
  · rw [h.1]
    rcases h.2 with h2 | h2 <;> simp [unquoteAux_cons, B_val, h2]
  · rw [h.1, h.2]; simp [unquoteAux_cons, B_val]
  · rw [h.1, h.2]; simp [unquoteAux_cons, B_val]
  · rw [h.1, h.2]; simp [unquoteAux_cons, B_val]
  · rw [h.1, h.2]; simp [unquoteAux_cons, B_val]
  · rw [h.1, h.2]; simp [unquoteAux_cons, B_val]
  · rw [h.1]
    have e : AppendRune b.val = [b] := by
      unfold AppendRune
      rw [if_pos (by omega), B_eq_of_val _ b rfl]
    simp [unquoteAux_cons, B_val, getu4, h.2.1, h.2.2, hexVal_digits]
    rw [if_neg (by omega)]
    have hv : b.val / 16 * 16 + b.val % 16 = b.val := by omega
    rw [hv, e]
    rfl

theorem unquoteAux_chunk (m : Nat) (s : GoString) (r size : Nat) (chunk tail X : GoString)
    (c : RuneChunk s r size chunk tail) :
    unquoteAux (m + 1) (chunk ++ X) = (unquoteAux m X).map fun t => chunk ++ t := by
  have hlen := c.len
  have h2 := c.two
  rcases hch : chunk with _ | ⟨c0, cs⟩
  · rw [hch] at hlen; simp at hlen; omega
  · have h0 : 0x80 ≤ c0.val := c.high c0 (by rw [hch]; simp)
    have hd := c.dec X
    rw [hch] at hd
    show unquoteAux (m + 1) (c0 :: (cs ++ X)) = _
    rw [unquoteAux_cons, if_neg (by omega), if_neg (by omega), if_neg (by omega)]
    show Option.map (fun t => AppendRune (DecodeRune ((c0 :: cs) ++ X)).1 ++ t)
      (unquoteAux m (List.drop (DecodeRune ((c0 :: cs) ++ X)).2 ((c0 :: cs) ++ X))) = _
    rw [hd, ← hch, ← c.len, List.drop_left', c.enc]
    rfl

theorem appendStringAux_nil (n : Nat) : appendStringAux n [] = [] := by
  cases n <;> rfl

theorem AppendRune_ls : AppendRune 0x2028 = [B 0xE2, B 0x80, B 0xA8]
    ∧ AppendRune 0x2029 = [B 0xE2, B 0x80, B 0xA9] := by
  decide

theorem unquoteAux_ls (m : Nat) (X : GoString) (r : Nat) (hr : r = 0x2028 ∨ r = 0x2029) :
    unquoteAux (m + 1) ([B 0x5C, B 0x75, B 0x32, B 0x30, B 0x32, hex (r % 16)] ++ X)
      = (unquoteAux m X).map fun t => AppendRune r ++ t := by
  rcases hr with rfl | rfl <;>
    simp [unquoteAux_cons, B_val, getu4, hexVal_digits, hex]

theorem unquoteAux_appendStringAux (k : Nat) : ∀ (n m : Nat) (s : GoString),
    s.length ≤ k → s.length ≤ n → validUTF8Aux k s = true →
    (appendStringAux n s).length ≤ m → unquoteAux m (appendStringAux n s) = some s := by
  induction k with
  | zero =>
    intro n m s hk _ _ _
    have : s = [] := List.eq_nil_of_length_eq_zero (by omega)
    subst this
    rw [appendStringAux_nil, unquoteAux_nil]
  | succ k ih =>
    intro n m s hk hn hv hm
    rcases s with _ | ⟨b, s'⟩
    · rw [appendStringAux_nil, unquoteAux_nil]
    · obtain ⟨n', rfl⟩ : ∃ n', n = n' + 1 := ⟨n - 1, by simp at hn; omega⟩
      have hk' : s'.length ≤ k := by simpa using hk
      have hn' : s'.length ≤ n' := by simpa using hn
      rw [validUTF8Aux] at hv
      rw [appendStringAux] at hm ⊢
      by_cases hb : b.val < 0x80
      · rw [DecodeRune_ascii b s' hb] at hv
        have hv' : validUTF8Aux k s' = true := by
          simp only [RuneError] at hv
          rw [if_neg (by omega)] at hv
          exact hv
        rw [if_pos hb] at hm ⊢
        by_cases hsafe : htmlSafeSet b = true
        · rw [if_pos hsafe] at hm ⊢
          obtain ⟨m', rfl⟩ : ∃ m', m = m' + 1 := ⟨m - 1, by simp at hm; omega⟩
          rw [unquoteAux_safe m' b _ hsafe, ih n' m' s' hk' hn' hv' (by simpa using hm)]
          rfl
        · rw [if_neg hsafe] at hm ⊢
          have hpos : 0 < (escapeByte b).length := by
            unfold escapeByte; split_ifs <;> simp
          obtain ⟨m', rfl⟩ : ∃ m', m = m' + 1 := ⟨m - 1, by simp at hm; omega⟩
          rw [unquoteAux_escapeByte m' b _ hb (by simpa using hsafe),
            ih n' m' s' hk' hn' hv' (by simp at hm; omega)]
          rfl
      · rw [if_neg hb, DecodeRune_take4 b s' (by omega)] at hm ⊢
        by_cases herr : (DecodeRune (b :: s')).1 = RuneError ∧ (DecodeRune (b :: s')).2 = 1
        · simp [herr] at hv
        · obtain ⟨chunk, tail, c⟩ := DecodeRune_chunk b s' (by omega) herr
          have htail : tail.length + 2 ≤ s'.length + 1 := by
            have := congrArg List.length c.split
            have h2 := c.two
            have h3 := c.len
            simp at this
            omega
          have hv' : validUTF8Aux k tail = true := by
            simp only [herr, if_false] at hv
            rw [c.drop] at hv
            exact hv
          simp only [herr, if_false] at hm ⊢
          rw [c.take, c.drop] at hm ⊢
          have hs : b :: s' = chunk ++ tail := c.split
          by_cases hls : (DecodeRune (b :: s')).1 = 0x2028 ∨ (DecodeRune (b :: s')).1 = 0x2029
          · rw [if_pos hls] at hm ⊢
            obtain ⟨m', rfl⟩ : ∃ m', m = m' + 1 := ⟨m - 1, by simp at hm; omega⟩
            rw [unquoteAux_ls m' _ _ hls,
              ih n' m' tail (by omega) (by omega) hv' (by simp at hm; omega), c.enc, hs]
            rfl
          · rw [if_neg hls] at hm ⊢
            have h2 := c.two
            have h3 := c.len
            obtain ⟨m', rfl⟩ : ∃ m', m = m' + 1 := ⟨m - 1, by simp at hm; omega⟩
            rw [unquoteAux_chunk m' _ _ _ chunk tail _ c,
              ih n' m' tail (by omega) (by omega) hv' (by simp at hm; omega), hs]
            rfl

/-- A string that is valid UTF-8 is read back unchanged from its JSON literal. -/
theorem unquote_appendStringAux (s : GoString) (hv : ValidString s = true) :
    unquote (appendStringAux s.length s) = some s :=
  unquoteAux_appendStringAux s.length s.length _ s (le_refl _) (le_refl _) hv (le_refl _)

/-! ## Parsing what the encoder writes -/

theorem skipSpace_cons (c : Byte) (rest : GoString) (h : isSpace c = false) :
    skipSpace (c :: rest) = c :: rest := by
  rw [skipSpace, h]
  rfl

theorem parseValue_string (f d : Nat) (raw rest : GoString)
    (h : scanString (raw ++ B 0x22 :: rest) = some (raw, rest)) :
    parseValue (f + 1) d (B 0x22 :: (raw ++ B 0x22 :: rest)) = some (Json.string raw, rest) := by
  rw [parseValue, skipSpace_cons _ _ (by decide)]
  simp [B_val, h]

/-- The scanner reads a string of bytes that need no escaping up to the closing
quote. -/
theorem scanString_plain (key rest : GoString) (hk : key.all htmlSafeSet = true) :
    scanString (key ++ B 0x22 :: rest) = some (key, rest) := by
  induction key with
  | nil => exact scanString_quote rest
  | cons c cs ih =>
    simp only [List.all_cons, Bool.and_eq_true] at hk
    exact scanString_safe c _ _ hk.1 (ih hk.2)

theorem parseMembers_string_comma (f d : Nat) (acc : List (GoString × Json))
    (key raw rest : GoString) (hk : key.all htmlSafeSet = true)
    (h : ∀ rest', scanString (raw ++ B 0x22 :: rest') = some (raw, rest')) :
    parseMembers (f + 2) d acc
        (B 0x22 :: (key ++ B 0x22 :: B 0x3A :: B 0x22 :: (raw ++ B 0x22 :: B 0x2C :: rest)))
      = parseMembers (f + 1) d (acc ++ [(key, Json.string raw)]) rest := by
  rw [parseMembers, skipSpace_cons _ _ (by decide)]
  simp only [B_val, scanString_plain key _ hk]
  rw [skipSpace_cons _ _ (by decide)]
  simp only [B_val, parseValue_string f d raw _ (h _)]
  rw [skipSpace_cons _ _ (by decide)]
  simp [B_val]

theorem parseMembers_string_close (f d : Nat) (acc : List (GoString × Json))
    (key raw rest : GoString) (hk : key.all htmlSafeSet = true)
    (h : ∀ rest', scanString (raw ++ B 0x22 :: rest') = some (raw, rest')) :
    parseMembers (f + 2) d acc
        (B 0x22 :: (key ++ B 0x22 :: B 0x3A :: B 0x22 :: (raw ++ B 0x22 :: B 0x7D :: rest)))
      = some (Json.object (acc ++ [(key, Json.string raw)]), rest) := by
  rw [parseMembers, skipSpace_cons _ _ (by decide)]
  simp only [B_val, scanString_plain key _ hk]
  rw [skipSpace_cons _ _ (by decide)]
  simp only [B_val, parseValue_string f d raw _ (h _)]
  rw [skipSpace_cons _ _ (by decide)]
  simp [B_val]

theorem parseValue_object (f : Nat) (c : Byte) (rest : GoString) (hc : isSpace c = false)
    (hc' : c.val ≠ 0x7D) :
    parseValue (f + 1) 0 (B 0x7B :: c :: rest) = parseMembers f 1 [] (c :: rest) := by
  rw [parseValue, skipSpace_cons _ _ (by decide)]
  simp only [B_val]
  rw [skipSpace_cons _ _ hc]
  simp [maxNestingDepth, hc']

/-! ## The token file: what is written is what is read -/

/-- The raw text between the quotes of the literal the encoder writes. -/
theorem appendString_eq (s : GoString) :
    appendString s = B 0x22 :: (appendStringAux s.length s ++ [B 0x22]) := rfl

theorem tokenInfo_encode_eq (info : tokenInfo) :
    info.encode = B 0x7B :: B 0x22 :: (str "access_token" ++ B 0x22 :: B 0x3A :: B 0x22 ::
      (appendStringAux info.AccessToken.length info.AccessToken ++ B 0x22 :: B 0x2C ::
      B 0x22 :: (str "server" ++ B 0x22 :: B 0x3A :: B 0x22 ::
      (appendStringAux info.Server.length info.Server ++ B 0x22 :: B 0x2C ::
      B 0x22 :: (str "cacert_file" ++ B 0x22 :: B 0x3A :: B 0x22 ::
      (appendStringAux info.CACertFile.length info.CACertFile ++ B 0x22 :: B 0x7D ::
      str "\n")))))) := by
  have h1 : str "\x7b\"access_token\":" = B 0x7B :: B 0x22 :: (str "access_token" ++ [B 0x22, B 0x3A]) := by
    decide
  have h2 : str ",\"server\":" = B 0x2C :: B 0x22 :: (str "server" ++ [B 0x22, B 0x3A]) := by
    decide
  have h3 : str ",\"cacert_file\":" = B 0x2C :: B 0x22 :: (str "cacert_file" ++ [B 0x22, B 0x3A]) := by
    decide
  have h4 : str "\x7d" = [B 0x7D] := by decide
  simp only [tokenInfo.encode, appendString_eq, h1, h2, h3, h4, List.append_assoc,
    List.cons_append, List.nil_append]

theorem readValue_fuel (data : GoString) (k : Nat) (v : Json) (rest : GoString)
    (hlen : k ≤ data.length + 1) (h : ∀ f, parseValue (f + k) 0 data = some (v, rest)) :
    readValue data = some (v, rest) := by
  unfold readValue
  obtain ⟨f, hf⟩ : ∃ f, data.length + 1 = f + k := ⟨data.length + 1 - k, by omega⟩
  rw [hf]
  exact h f

theorem readValue_tokenInfo (info : tokenInfo) :
    readValue info.encode = some (Json.object
      [(str "access_token", Json.string (appendStringAux info.AccessToken.length info.AccessToken)),
       (str "server", Json.string (appendStringAux info.Server.length info.Server)),
       (str "cacert_file", Json.string (appendStringAux info.CACertFile.length info.CACertFile))],
      str "\n") := by
  apply readValue_fuel _ 5
  · rw [tokenInfo_encode_eq]; simp; omega
  · intro f
    rw [tokenInfo_encode_eq, parseValue_object (f + 4) _ _ (by decide) (by decide),
      parseMembers_string_comma (f + 2) 1 _ _ _ _ (by decide)
        (fun r => scanString_appendStringAux _ _ r (le_refl _)),
      parseMembers_string_comma (f + 1) 1 _ _ _ _ (by decide)
        (fun r => scanString_appendStringAux _ _ r (le_refl _)),
      parseMembers_string_close f 1 _ _ _ _ (by decide)
        (fun r => scanString_appendStringAux _ _ r (le_refl _))]
    rfl

theorem tokenInfo_decode_encode (t s c : GoString) (into : tokenInfo)
    (ht : ValidString t = true) (hs : ValidString s = true) (hc : ValidString c = true) :
    tokenInfo.decode (Json.object
      [(str "access_token", Json.string (appendStringAux t.length t)),
       (str "server", Json.string (appendStringAux s.length s)),
       (str "cacert_file", Json.string (appendStringAux c.length c))]) into
      = ({ AccessToken := t, Server := s, CACertFile := c }, none) := by
  have k1 : (unquote (str "access_token")).getD [] = str "access_token" := by decide
  have k2 : (unquote (str "server")).getD [] = str "server" := by decide
  have k3 : (unquote (str "cacert_file")).getD [] = str "cacert_file" := by decide
  have i1 : fieldIndex tokenInfoFields (str "access_token") = some 0 := by decide
  have i2 : fieldIndex tokenInfoFields (str "server") = some 1 := by decide
  have i3 : fieldIndex tokenInfoFields (str "cacert_file") = some 2 := by decide
  simp [tokenInfo.decode, tokenInfo.decodeMember, k1, k2, k3, i1, i2, i3, decodeString,
    unquote_appendStringAux _ ht, unquote_appendStringAux _ hs, unquote_appendStringAux _ hc]

/-! ## The data directory and the token file in the file system -/


theorem FS.le_refl (fs : FS) : FS.le fs fs := ⟨fun _ h => h, fun _ h => h⟩

theorem FS.le_trans {a b c : FS} (h1 : FS.le a b) (h2 : FS.le b c) : FS.le a c :=
  ⟨fun p h => h2.1 p (h1.1 p h), fun p h => h2.2 p (h1.2 p h)⟩

theorem FS.le_writeFile (fs : FS) (path data : GoString) : FS.le fs (fs.writeFile path data) := by
  refine ⟨fun p h => h, fun p h => ?_⟩
  simp only [FS.writeFile]
  split_ifs <;> simp [h]

theorem FS.le_mkdir (fs : FS) (path : GoString) : FS.le fs (fs.mkdir path) := by
  refine ⟨fun p h => ?_, fun p h => h⟩
  simp only [FS.mkdir]
  split_ifs <;> simp [h]

theorem bind_eq {α β : Type} (m : Proc α) (f : α → Proc β) : (m >>= f) = Proc.bind m f := rfl

theorem pure_eq {α : Type} (a : α) : (pure a : Proc α) = Proc.pure a := rfl

/-- Once `GetDataDir` has returned a directory, it returns the same one in
every later state of the file system, without changing it. -/
theorem GetDataDir_stable (os : OS) (w w2 : World) (dir : GoString)
    (h : (GetDataDir os w).1 = Outcome.ret (dir, none))
    (hle : FS.le (GetDataDir os w).2.fs w2.fs) :
    GetDataDir os w2 = (Outcome.ret (dir, none), w2) := by
  unfold GetDataDir at h hle ⊢
  rcases hh : os.UserHomeDir with err | baseDir
  · simp [hh] at h
  · simp only [hh] at h hle ⊢
    rcases hst : osStat os w.fs (Join [baseDir, PASMCLIDataSubdir]) with _ | ⟨err, b⟩
    · simp only [hst] at h hle
      have hd : dir = Join [baseDir, PASMCLIDataSubdir] := by
        simp at h; exact h.symm
      subst hd
      have : osStat os w2.fs (Join [baseDir, PASMCLIDataSubdir]) = none := by
        unfold osStat at hst ⊢
        rcases hse : os.statErr (Join [baseDir, PASMCLIDataSubdir]) with _ | e
        · simp only [hse] at hst ⊢
          split_ifs at hst with hex
          rw [if_pos]
          rcases hex with hex | hex
          · exact Or.inl (hle.1 _ hex)
          · exact Or.inr (hle.2 _ hex)
        · simp [hse] at hst
      simp [this]
    · unfold osStat at hst
      rcases hse : os.statErr (Join [baseDir, PASMCLIDataSubdir]) with _ | e
      · simp only [hse] at hst
        split_ifs at hst with hex
        simp only [Option.some.injEq, Prod.mk.injEq] at hst
        obtain ⟨rfl, rfl⟩ := hst
        have hst' : osStat os w.fs (Join [baseDir, PASMCLIDataSubdir])
            = some (notExistError (str "stat") (Join [baseDir, PASMCLIDataSubdir]), true) := by
          unfold osStat
          simp only [hse]
          rw [if_neg hex]
        simp only [hst'] at h hle
        unfold osMkdirAll at h hle
        rcases hmk : os.mkdirAllErr (Join [baseDir, PASMCLIDataSubdir]) with _ | e
        · simp only [hmk] at h hle
          have hd : dir = Join [baseDir, PASMCLIDataSubdir] := by
            simp at h; exact h.symm
          subst hd
          have hdir : w2.fs.dirs (Join [baseDir, PASMCLIDataSubdir]) = true :=
            hle.1 _ (by simp [FS.mkdir])
          have : osStat os w2.fs (Join [baseDir, PASMCLIDataSubdir]) = none := by
            unfold osStat
            simp only [hse]
            rw [if_pos (Or.inl hdir)]
          simp [this]
        · simp [hmk] at h
      · simp only [hse, Option.some.injEq, Prod.mk.injEq] at hst
        obtain ⟨rfl, rfl⟩ := hst
        have hst' : osStat os w.fs (Join [baseDir, PASMCLIDataSubdir]) = some (e, false) := by
          unfold osStat
          simp only [hse]
        have hst2 : osStat os w2.fs (Join [baseDir, PASMCLIDataSubdir]) = some (e, false) := by
          unfold osStat
          simp only [hse]
        simp only [hst'] at h
        have hd : dir = Join [baseDir, PASMCLIDataSubdir] := by
          simp at h; exact h.symm
        subst hd
        simp [hst2]

/-- The file system only grows while `GetDataDir` runs. -/
theorem GetDataDir_le (os : OS) (w : World) : FS.le w.fs (GetDataDir os w).2.fs := by
  unfold GetDataDir
  rcases os.UserHomeDir with err | baseDir
  · exact FS.le_refl _
  · simp only
    rcases osStat os w.fs (Join [baseDir, PASMCLIDataSubdir]) with _ | ⟨err, b⟩
    · exact FS.le_refl _
    · cases b
      · exact FS.le_refl _
      · simp only [osMkdirAll]
        rcases os.mkdirAllErr (Join [baseDir, PASMCLIDataSubdir]) with _ | e
        · exact FS.le_mkdir _ _
        · exact FS.le_refl _

/-- `GetDataDir` always returns: it neither exits nor panics. -/
theorem GetDataDir_returns (os : OS) (w : World) :
    ∃ r, (GetDataDir os w).1 = Outcome.ret r := by
  unfold GetDataDir
  rcases os.UserHomeDir with err | baseDir
  · exact ⟨_, rfl⟩
  · simp only
    rcases osStat os w.fs (Join [baseDir, PASMCLIDataSubdir]) with _ | ⟨err, b⟩
    · exact ⟨_, rfl⟩
    · cases b
      · exact ⟨_, rfl⟩
      · simp only [osMkdirAll]
        rcases os.mkdirAllErr (Join [baseDir, PASMCLIDataSubdir]) with _ | e
        · exact ⟨_, rfl⟩
        · exact ⟨_, rfl⟩

/-- `GetDataDir` leaves everything but the file system as it is. -/
theorem GetDataDir_world (os : OS) (w : World) :
    (GetDataDir os w).2 = { w with fs := (GetDataDir os w).2.fs } := by
  unfold GetDataDir
  rcases os.UserHomeDir with err | baseDir
  · rfl
  · simp only
    rcases osStat os w.fs (Join [baseDir, PASMCLIDataSubdir]) with _ | ⟨err, b⟩
    · rfl
    · cases b
      · rfl
      · simp only [osMkdirAll]
        rcases os.mkdirAllErr (Join [baseDir, PASMCLIDataSubdir]) with _ | e
        · rfl
        · rfl

theorem resolveTokenFile_returns (os : OS) (f : GoString) (w : World) :
    ∃ r, (resolveTokenFile os f w).1 = Outcome.ret r := by
  unfold resolveTokenFile
  by_cases hf : f = []
  · rw [if_pos hf, bind_eq]
    obtain ⟨r, hr⟩ := GetDataDir_returns os w
    unfold Proc.bind
    rcases hg : GetDataDir os w with ⟨o, w1⟩
    rw [hg] at hr
    simp only at hr
    subst hr
    simp only
    rcases r.2 with _ | e
    · exact ⟨_, rfl⟩
    · exact ⟨_, rfl⟩
  · rw [if_neg hf]
    exact ⟨_, rfl⟩

theorem resolveTokenFile_le (os : OS) (f : GoString) (w : World) :
    FS.le w.fs (resolveTokenFile os f w).2.fs := by
  unfold resolveTokenFile
  by_cases hf : f = []
  · rw [if_pos hf, bind_eq]
    have hle := GetDataDir_le os w
    obtain ⟨r, hr⟩ := GetDataDir_returns os w
    unfold Proc.bind
    rcases hg : GetDataDir os w with ⟨o, w1⟩
    rw [hg] at hr hle
    simp only at hr hle
    subst hr
    simp only
    rcases r.2 with _ | e
    · exact hle
    · exact hle
  · rw [if_neg hf]
    exact FS.le_refl _

theorem resolveTokenFile_world (os : OS) (f : GoString) (w : World) :
    (resolveTokenFile os f w).2 = { w with fs := (resolveTokenFile os f w).2.fs } := by
  unfold resolveTokenFile
  by_cases hf : f = []
  · rw [if_pos hf, bind_eq]
    have hw := GetDataDir_world os w
    obtain ⟨r, hr⟩ := GetDataDir_returns os w
    unfold Proc.bind
    rcases hg : GetDataDir os w with ⟨o, w1⟩
    rw [hg] at hr hw
    simp only at hr hw
    subst hr
    simp only
    rcases r.2 with _ | e
    · exact hw
    · exact hw
  · rw [if_neg hf]
    rfl

/-- Once a token file path has been resolved, the same argument resolves to the
same path in every later state of the file system. -/
theorem resolveTokenFile_stable (os : OS) (f : GoString) (w w2 : World) (path : GoString)
    (h : (resolveTokenFile os f w).1 = Outcome.ret (path, none))
    (hle : FS.le (resolveTokenFile os f w).2.fs w2.fs) :
    resolveTokenFile os f w2 = (Outcome.ret (path, none), w2) := by
  unfold resolveTokenFile at h hle ⊢
  by_cases hf : f = []
  · rw [if_pos hf, bind_eq] at h hle ⊢
    obtain ⟨r, hr⟩ := GetDataDir_returns os w
    have hst := GetDataDir_stable os w w2 r.1
    unfold Proc.bind at h hle ⊢
    rcases hg : GetDataDir os w with ⟨o, w1⟩
    rw [hg] at hr h hle hst
    simp only at hr
    subst hr
    simp only at h hle hst
    rcases hr2 : r.2 with _ | e
    · rw [hr2] at h hle
      have hr' : r = (r.1, none) := Prod.ext rfl hr2
      rw [hst (by rw [hr']) hle]
      simp only
      simp only [pure_eq, Proc.pure, Outcome.ret.injEq, Prod.mk.injEq, and_true] at h
      rw [← h]
      rfl
    · rw [hr2] at h
      simp [pure_eq, Proc.pure] at h
  · rw [if_neg hf] at h ⊢
    simp only [pure_eq, Proc.pure, Outcome.ret.injEq, Prod.mk.injEq, and_true] at h
    rw [← h]
    rfl

/-- What a successful `SaveAccessToken` has done: the path it returns holds the
encoded record, and nothing that existed before has gone. -/
theorem SaveAccessToken_ok (os : OS) (f t s c : GoString) (w : World) (path : GoString)
    (h : (SaveAccessToken os f t s c w).1 = Outcome.ret (path, none)) :
    (resolveTokenFile os f w).1 = Outcome.ret (path, none)
    ∧ FS.le (resolveTokenFile os f w).2.fs (SaveAccessToken os f t s c w).2.fs
    ∧ (SaveAccessToken os f t s c w).2.fs.files path
        = some (tokenInfo.encode { AccessToken := t, Server := s, CACertFile := c }) := by
  unfold SaveAccessToken at h ⊢
  rw [bind_eq] at h ⊢
  unfold Proc.bind at h ⊢
  obtain ⟨r, hr⟩ := resolveTokenFile_returns os f w
  rcases hg : resolveTokenFile os f w with ⟨o, w1⟩
  rw [hg] at hr h
  simp only at hr
  subst hr
  simp only at h ⊢
  rcases hr2 : r.2 with _ | e
  · rw [hr2] at h
    simp only at h ⊢
    unfold osCreate at h ⊢
    rcases hc : os.createErr r.1 with _ | e
    · rw [hc] at h
      simp only at h ⊢
      unfold osWrite at h ⊢
      rcases hwr : os.writeErr r.1 with _ | e
      · rw [hwr] at h
        simp only [Outcome.ret.injEq, Prod.mk.injEq, and_true] at h
        subst h
        refine ⟨by rw [← hr2], FS.le_trans (FS.le_writeFile _ _ _) (FS.le_writeFile _ _ _), ?_⟩
        simp [FS.writeFile]
      · rw [hwr] at h
        simp at h
    · rw [hc] at h
      simp at h
  · rw [hr2] at h
    simp [pure_eq, Proc.pure] at h

/-- The error `LoadAccessToken` makes for a record without token or server. -/
theorem LoadAccessToken_of_file (os : OS) (f : GoString) (w w1 : World)
    (path data : GoString) (v : Json) (rest : GoString)
    (hres : resolveTokenFile os f w = (Outcome.ret (path, none), w1))
    (hfile : w1.fs.files path = some data) (hopen : os.openErr path = none)
    (hread : readValue data = some (v, rest)) :
    LoadAccessToken os f w =
      (Outcome.ret (path,
        match (tokenInfo.decode v w1.gTokenInfo).2 with
        | some err => some err
        | none =>
          if (tokenInfo.decode v w1.gTokenInfo).1.AccessToken = []
              ∨ (tokenInfo.decode v w1.gTokenInfo).1.Server = [] then
            some (GoError.errorString
              (str "Invalid or corrupt Token File - access_token or server is missing"))
          else none),
       { w1 with gTokenInfo := (tokenInfo.decode v w1.gTokenInfo).1 }) := by
  unfold LoadAccessToken
  rw [bind_eq]
  unfold Proc.bind
  rw [hres]
  simp only [osOpen, hfile, hopen, hread]
  rcases (tokenInfo.decode v w1.gTokenInfo).2 with _ | e
  · simp only
    split_ifs <;> rfl
  · rfl

/-! ## C1, C2: the credential file -/

/-- C1 (as stated) fails: a CA certificate path that is not valid UTF-8 (the
single byte `0xFF`) is saved and loaded without error but comes back as
U+FFFD, and when the file cannot be created both the save and the load fail. -/
theorem SaveAccessToken_LoadAccessToken_counterexample :
    ((SaveAccessToken exampleOS (str "tok") (str "t") (str "s") [B 0xFF] (World.fresh emptyFS)).1
        = Outcome.ret (str "tok", none)
      ∧ (LoadAccessToken exampleOS (str "tok") (World.fresh
          (SaveAccessToken exampleOS (str "tok") (str "t") (str "s") [B 0xFF]
            (World.fresh emptyFS)).2.fs)).1 = Outcome.ret (str "tok", none)
      ∧ GetCACertFile (LoadAccessToken exampleOS (str "tok") (World.fresh
          (SaveAccessToken exampleOS (str "tok") (str "t") (str "s") [B 0xFF]
            (World.fresh emptyFS)).2.fs)).2 = [B 0xEF, B 0xBF, B 0xBD]
      ∧ GetCACertFile (LoadAccessToken exampleOS (str "tok") (World.fresh
          (SaveAccessToken exampleOS (str "tok") (str "t") (str "s") [B 0xFF]
            (World.fresh emptyFS)).2.fs)).2 ≠ [B 0xFF])
    ∧ ((LoadAccessToken readOnlyOS (str "tok") (World.fresh
          (SaveAccessToken readOnlyOS (str "tok") (str "t") (str "s") (str "ca.pem")
            (World.fresh emptyFS)).2.fs)).1
        = Outcome.ret (str "tok", some (notExistError (str "open") (str "tok")))) := by
  decide

/-- C1 (amended): for strings that are valid UTF-8, with a non-empty token and
server, when `SaveAccessToken` returns no error and the file it wrote can be
opened, a following `LoadAccessToken` of the same argument returns no error and
leaves exactly the saved token, server and CA certificate path in the getters. -/
theorem SaveAccessToken_LoadAccessToken_roundtrip (os : OS) (f t s c path : GoString)
    (w w2 : World) (ht : t ≠ []) (hs : s ≠ [])
    (vt : ValidString t = true) (vs : ValidString s = true) (vc : ValidString c = true)
    (hsave : (SaveAccessToken os f t s c w).1 = Outcome.ret (path, none))
    (hfs : w2.fs = (SaveAccessToken os f t s c w).2.fs)
    (hopen : os.openErr path = none) :
    (LoadAccessToken os f w2).1 = Outcome.ret (path, none)
      ∧ GetAccessToken (LoadAccessToken os f w2).2 = t
      ∧ GetServer (LoadAccessToken os f w2).2 = s
      ∧ GetCACertFile (LoadAccessToken os f w2).2 = c := by
  obtain ⟨hres, hle, hfile⟩ := SaveAccessToken_ok os f t s c w path hsave
  rw [← hfs] at hle hfile
  have hres2 := resolveTokenFile_stable os f w w2 path hres hle
  rw [LoadAccessToken_of_file os f w2 w2 path _ _ _ hres2 hfile hopen (readValue_tokenInfo _),
    tokenInfo_decode_encode t s c _ vt vs vc]
  simp [GetAccessToken, GetServer, GetCACertFile, ht, hs]

/-- C1 (amended), at a concrete input. -/
theorem SaveAccessToken_LoadAccessToken_roundtrip_witness :
    (LoadAccessToken exampleOS [] (World.fresh
        (SaveAccessToken exampleOS [] (str "t0k<én>") (str "vault.example:443")
          (str "/etc/ca.pem") (World.fresh emptyFS)).2.fs)).1
      = Outcome.ret (str "/home/u/pasmcli.data/pasm_token.txt", none)
    ∧ GetAccessToken (LoadAccessToken exampleOS [] (World.fresh
        (SaveAccessToken exampleOS [] (str "t0k<én>") (str "vault.example:443")
          (str "/etc/ca.pem") (World.fresh emptyFS)).2.fs)).2 = str "t0k<én>"
    ∧ GetServer (LoadAccessToken exampleOS [] (World.fresh
        (SaveAccessToken exampleOS [] (str "t0k<én>") (str "vault.example:443")
          (str "/etc/ca.pem") (World.fresh emptyFS)).2.fs)).2 = str "vault.example:443"
    ∧ GetCACertFile (LoadAccessToken exampleOS [] (World.fresh
        (SaveAccessToken exampleOS [] (str "t0k<én>") (str "vault.example:443")
          (str "/etc/ca.pem") (World.fresh emptyFS)).2.fs)).2 = str "/etc/ca.pem" :=
  SaveAccessToken_LoadAccessToken_roundtrip exampleOS [] (str "t0k<én>")
    (str "vault.example:443") (str "/etc/ca.pem") (str "/home/u/pasmcli.data/pasm_token.txt")
    (World.fresh emptyFS) _ (by decide) (by decide) (by decide) (by decide) (by decide)
    (by decide) rfl rfl

/-- C2: when the token file opens and its content decodes as JSON into the
zero-valued `gTokenInfo` of a fresh process, `LoadAccessToken` returns an error
exactly when the decoded `access_token` or the decoded `server` is empty; that
error is the one saying that `access_token or server is missing`. -/
theorem LoadAccessToken_error_iff (os : OS) (fs : FS) (f path data rest : GoString) (v : Json)
    (info : tokenInfo)
    (hres : (resolveTokenFile os f (World.fresh fs)).1 = Outcome.ret (path, none))
    (hfile : (resolveTokenFile os f (World.fresh fs)).2.fs.files path = some data)
    (hopen : os.openErr path = none)
    (hread : readValue data = some (v, rest))
    (hdec : tokenInfo.decode v (World.fresh fs).gTokenInfo = (info, none)) :
    ∃ err, (LoadAccessToken os f (World.fresh fs)).1 = Outcome.ret (path, err)
      ∧ (err ≠ none ↔ info.AccessToken = [] ∨ info.Server = [])
      ∧ (err ≠ none → err = some (GoError.errorString
          (str "Invalid or corrupt Token File - access_token or server is missing"))) := by
  have hw := resolveTokenFile_world os f (World.fresh fs)
  have hres' : resolveTokenFile os f (World.fresh fs)
      = (Outcome.ret (path, none), (resolveTokenFile os f (World.fresh fs)).2) :=
    Prod.ext hres rfl
  have hg : (resolveTokenFile os f (World.fresh fs)).2.gTokenInfo = (World.fresh fs).gTokenInfo := by
    rw [hw]
  rw [LoadAccessToken_of_file os f _ _ path data v rest hres' hfile hopen hread, hg, hdec]
  by_cases h : info.AccessToken = [] ∨ info.Server = []
  · exact ⟨_, rfl, by simp [h], by simp [h]⟩
  · exact ⟨_, rfl, by simp [h], by simp [h]⟩

/-- C2, at a concrete file: `{"access_token":"","server":"s"}` decodes, and the
load fails with the error about the missing field. -/
theorem LoadAccessToken_error_iff_witness :
    (LoadAccessToken exampleOS (str "tok") (World.fresh
        (emptyFS.writeFile (str "tok") (str "\x7b\"access_token\":\"\",\"server\":\"s\"\x7d")))).1
      = Outcome.ret (str "tok", some (GoError.errorString
          (str "Invalid or corrupt Token File - access_token or server is missing"))) := by
  obtain ⟨err, h1, h2, h3⟩ := LoadAccessToken_error_iff exampleOS
    (emptyFS.writeFile (str "tok") (str "\x7b\"access_token\":\"\",\"server\":\"s\"\x7d"))
    (str "tok") (str "tok") (str "\x7b\"access_token\":\"\",\"server\":\"s\"\x7d") []
    (Json.object [(str "access_token", Json.string []), (str "server", Json.string (str "s"))])
    { AccessToken := [], Server := str "s", CACertFile := [] }
    rfl rfl rfl rfl rfl
  have hne : err ≠ none := h2.mpr (Or.inl rfl)
  rw [h3 hne] at h1
  exact h1

/-! ## Base64 and decimal numbers are injective -/

theorem decodeStd_encodeStd : ∀ n : Fin 64,
    decodeStd (encodeStd n.val) = some n.val ∧ (encodeStd n.val).val ≠ 0x3D := by
  decide

theorem decodeStd_encodeStd_nat (n : Nat) (h : n < 64) :
    decodeStd (encodeStd n) = some n ∧ (encodeStd n).val ≠ 0x3D :=
  decodeStd_encodeStd ⟨n, h⟩

theorem decodeQuanta_b64Encode : ∀ s : GoString, decodeQuanta (b64Encode s) = s
  | [] => rfl
  | [a] => by
    have h0 := decodeStd_encodeStd_nat (a.val / 4) (by omega)
    have h1 := decodeStd_encodeStd_nat (a.val % 4 * 16) (by omega)
    simp only [b64Encode, decodeQuanta, h0.1, h1.1]
    rw [if_pos (by decide), if_pos (by decide), B_eq_of_val _ a (by omega)]
  | [a, b] => by
    have h0 := decodeStd_encodeStd_nat (a.val / 4) (by omega)
    have h1 := decodeStd_encodeStd_nat (a.val % 4 * 16 + b.val / 16) (by omega)
    have h2 := decodeStd_encodeStd_nat (b.val % 16 * 4) (by omega)
    simp only [b64Encode, decodeQuanta, h0.1, h1.1, h2.1]
    rw [if_neg h2.2, if_pos (by decide), B_eq_of_val _ a (by omega), B_eq_of_val _ b (by omega)]
  | a :: b :: c :: rest => by
    have h0 := decodeStd_encodeStd_nat (a.val / 4) (by omega)
    have h1 := decodeStd_encodeStd_nat (a.val % 4 * 16 + b.val / 16) (by omega)
    have h2 := decodeStd_encodeStd_nat (b.val % 16 * 4 + c.val / 64) (by omega)
    have h3 := decodeStd_encodeStd_nat (c.val % 64) (by omega)
    simp only [b64Encode, decodeQuanta, h0.1, h1.1, h2.1, h3.1]
    rw [if_neg h2.2, if_neg h3.2, B_eq_of_val _ a (by omega), B_eq_of_val _ b (by omega),
      B_eq_of_val _ c (by omega), decodeQuanta_b64Encode rest]

theorem b64Encode_injective (s1 s2 : GoString) (h : b64Encode s1 = b64Encode s2) : s1 = s2 := by
  rw [← decodeQuanta_b64Encode s1, ← decodeQuanta_b64Encode s2, h]

/-- The digits `formatNatAux` writes: some, all decimal, no leading zero (but
for the number zero), and they spell the number. -/
theorem formatNatAux_spec (fuel : Nat) : ∀ n : Nat, n < fuel →
    formatNatAux fuel n ≠ [] ∧ (formatNatAux fuel n).all isDigit = true
      ∧ (formatNatAux fuel n).foldl (fun acc c => acc * 10 + (c.val - 48)) 0 = n
      ∧ (n ≠ 0 → ∀ c rest, formatNatAux fuel n = c :: rest → 0x31 ≤ c.val)
      ∧ (n = 0 → formatNatAux fuel n = [B 0x30]) := by
  induction fuel with
  | zero => intro n h; omega
  | succ fuel ih =>
    intro n h
    rw [formatNatAux]
    by_cases h10 : n < 10
    · rw [if_pos h10]
      have hv : (B (48 + n)).val = 48 + n := by rw [B_val]; omega
      refine ⟨by simp, by simp [isDigit, hv]; omega, by simp [hv], ?_, ?_⟩
      · intro hn c rest hc
        simp only [List.cons.injEq] at hc
        rw [← hc.1, hv]
        omega
      · intro hn
        subst hn
        rfl
    · rw [if_neg h10]
      obtain ⟨h1, h2, h3, h4, _⟩ := ih (n / 10) (by omega)
      have hv : (B (48 + n % 10)).val = 48 + n % 10 := by rw [B_val]; omega
      refine ⟨by simp, ?_, ?_, ?_, by omega⟩
      · simp only [List.all_append, h2, List.all_cons, List.all_nil, Bool.and_true,
          Bool.true_and, isDigit, hv]
        simp
        omega
      · rw [List.foldl_append, h3]
        simp only [List.foldl_cons, List.foldl_nil, hv]
        omega
      · intro _ c rest hc
        rcases hf : formatNatAux fuel (n / 10) with _ | ⟨d, ds⟩
        · exact absurd hf h1
        · rw [hf] at hc
          simp only [List.cons_append, List.cons.injEq] at hc
          rw [← hc.1]
          exact h4 (by omega) d ds hf

theorem parseDigits_formatNat (n : Nat) : parseDigits (formatNat n) = some n := by
  obtain ⟨h1, h2, h3, _, _⟩ := formatNatAux_spec (n + 1) n (by omega)
  unfold parseDigits formatNat
  rw [if_neg]
  · rw [h3]
  · simp [h2, h1]

theorem formatNat_injective (n m : Nat) (h : formatNat n = formatNat m) : n = m := by
  have h1 := parseDigits_formatNat n
  rw [h, parseDigits_formatNat m] at h1
  exact (Option.some.inj h1).symm

theorem formatNat_head (n : Nat) : ∃ c rest, formatNat n = c :: rest ∧ isDigit c = true := by
  obtain ⟨h1, h2, _, _, _⟩ := formatNatAux_spec (n + 1) n (by omega)
  unfold formatNat
  rcases hf : formatNatAux (n + 1) n with _ | ⟨c, rest⟩
  · exact absurd hf h1
  · rw [hf] at h2
    simp only [List.all_cons, Bool.and_eq_true] at h2
    exact ⟨c, rest, rfl, h2.1⟩

set_option maxRecDepth 100000 in
theorem isDigit_ne_minus : ∀ c : Byte, isDigit c = true → c ≠ B 0x2D := by
  decide

theorem formatInt_injective (v1 v2 : Int) (h : formatInt v1 = formatInt v2) : v1 = v2 := by
  unfold formatInt at h
  obtain ⟨c1, r1, e1, d1⟩ := formatNat_head v1.natAbs
  obtain ⟨c2, r2, e2, d2⟩ := formatNat_head v2.natAbs
  have hd := isDigit_ne_minus
  by_cases n1 : v1 < 0 <;> by_cases n2 : v2 < 0
  · rw [if_pos n1, if_pos n2] at h
    have := formatNat_injective _ _ (List.cons.inj h).2
    omega
  · rw [if_pos n1, if_neg n2, e2] at h
    exact absurd (List.cons.inj h).1.symm (hd c2 d2)
  · rw [if_neg n1, if_pos n2, e1] at h
    exact absurd (List.cons.inj h).1 (hd c1 d1)
  · rw [if_neg n1, if_neg n2] at h
    have := formatNat_injective _ _ h
    omega

/-! ## C6, C7: the lease file path -/

/-- The identifier `GetLeaseFilePath` encodes. -/
theorem GetLeaseFilePath_eq (os : OS) (boxId secretId dir : GoString) (version : Int) (w : World)
    (hdir : (GetDataDir os w).1 = Outcome.ret (dir, none)) :
    (GetLeaseFilePath os boxId secretId version w).1 =
      Outcome.ret (dir ++ str "/vault_lease_"
        ++ b64Encode (if version ≠ -1 then
            boxId ++ str "|" ++ secretId ++ str "|" ++ formatInt version
          else boxId ++ str "|" ++ secretId) ++ str ".txt", none) := by
  unfold GetLeaseFilePath
  rw [bind_eq]
  unfold Proc.bind
  rcases hg : GetDataDir os w with ⟨o, w1⟩
  rw [hg] at hdir
  simp only at hdir
  subst hdir
  rfl

theorem leasePath_injective (dir id1 id2 : GoString)
    (h : dir ++ str "/vault_lease_" ++ b64Encode id1 ++ str ".txt"
      = dir ++ str "/vault_lease_" ++ b64Encode id2 ++ str ".txt") : id1 = id2 := by
  have h1 := List.append_cancel_right h
  rw [List.append_assoc, List.append_assoc] at h1
  have h2 := List.append_cancel_left (List.append_cancel_left h1)
  exact b64Encode_injective _ _ h2

/-- C6: with the data directory fixed, `GetLeaseFilePath` returns a path; two
calls with the same box id, secret id and version return the same path, and two
calls that differ only in an explicit version (neither being `-1`) return
different paths. -/
theorem GetLeaseFilePath_deterministic (os : OS) (boxId secretId dir : GoString)
    (v1 v2 : Int) (w1 w2 : World)
    (hdir1 : (GetDataDir os w1).1 = Outcome.ret (dir, none))
    (hdir2 : (GetDataDir os w2).1 = Outcome.ret (dir, none)) :
    ∃ p1 p2, (GetLeaseFilePath os boxId secretId v1 w1).1 = Outcome.ret (p1, none)
      ∧ (GetLeaseFilePath os boxId secretId v2 w2).1 = Outcome.ret (p2, none)
      ∧ (v1 = v2 → p1 = p2)
      ∧ (v1 ≠ -1 → v2 ≠ -1 → v1 ≠ v2 → p1 ≠ p2) := by
  refine ⟨_, _, GetLeaseFilePath_eq os boxId secretId dir v1 w1 hdir1,
    GetLeaseFilePath_eq os boxId secretId dir v2 w2 hdir2, ?_, ?_⟩
  · intro h
    rw [h]
  · intro n1 n2 hne hp
    have hid := leasePath_injective _ _ _ hp
    rw [if_pos n1, if_pos n2] at hid
    exact hne (formatInt_injective _ _ (List.append_cancel_left hid))

/-- C6, at concrete inputs: versions 1 and 2 of the same secret get different
lease files. -/
theorem GetLeaseFilePath_deterministic_witness :
    (GetLeaseFilePath exampleOS (str "box") (str "sec") 1 (World.fresh emptyFS)).1
      ≠ (GetLeaseFilePath exampleOS (str "box") (str "sec") 2 (World.fresh emptyFS)).1 := by
  obtain ⟨p1, p2, h1, h2, _, hne⟩ := GetLeaseFilePath_deterministic exampleOS (str "box")
    (str "sec") (str "/home/u/pasmcli.data") 1 2 (World.fresh emptyFS) (World.fresh emptyFS)
    (by decide) (by decide)
  rw [h1, h2]
  intro h
  simp only [Outcome.ret.injEq, Prod.mk.injEq, and_true] at h
  exact hne (by decide) (by decide) (by decide) h

/-- C7: with the data directory fixed, the path for an omitted version (`-1`)
is `<data dir>/vault_lease_<B>.txt` with `B` the base64 of `box_id|secret_id`;
for an explicit version `v` it is the base64 of `box_id|secret_id|v` with `v`
in decimal; and the path for an omitted version differs from the path of every
explicit version of the same box id and secret id. -/
theorem GetLeaseFilePath_scheme (os : OS) (boxId secretId dir : GoString) (w : World)
    (hdir : (GetDataDir os w).1 = Outcome.ret (dir, none)) :
    (GetLeaseFilePath os boxId secretId (-1) w).1 =
        Outcome.ret (dir ++ str "/vault_lease_" ++ b64Encode (boxId ++ str "|" ++ secretId)
          ++ str ".txt", none)
      ∧ (∀ v : Int, v ≠ -1 → (GetLeaseFilePath os boxId secretId v w).1 =
          Outcome.ret (dir ++ str "/vault_lease_"
            ++ b64Encode (boxId ++ str "|" ++ secretId ++ str "|" ++ formatInt v)
            ++ str ".txt", none))
      ∧ (∀ v : Int, v ≠ -1 → (GetLeaseFilePath os boxId secretId v w).1
          ≠ (GetLeaseFilePath os boxId secretId (-1) w).1) := by
  refine ⟨?_, ?_, ?_⟩
  · rw [GetLeaseFilePath_eq os boxId secretId dir (-1) w hdir, if_neg (by simp)]
  · intro v hv
    rw [GetLeaseFilePath_eq os boxId secretId dir v w hdir, if_pos hv]
  · intro v hv h
    rw [GetLeaseFilePath_eq os boxId secretId dir v w hdir,
      GetLeaseFilePath_eq os boxId secretId dir (-1) w hdir, if_pos hv, if_neg (by simp)] at h
    simp only [Outcome.ret.injEq, Prod.mk.injEq, and_true] at h
    have hid := leasePath_injective _ _ _ h
    have hlen := congrArg List.length hid
    simp only [List.length_append] at hlen
    have : 0 < (str "|").length := by decide
    omega

/-- C7, at a concrete input. -/
theorem GetLeaseFilePath_scheme_witness :
    (GetLeaseFilePath exampleOS (str "box1") (str "sec1") (-1) (World.fresh emptyFS)).1 =
        Outcome.ret (str "/home/u/pasmcli.data/vault_lease_Ym94MXxzZWMx.txt", none)
      ∧ (GetLeaseFilePath exampleOS (str "box1") (str "sec1") 3 (World.fresh emptyFS)).1 =
        Outcome.ret (str "/home/u/pasmcli.data/vault_lease_Ym94MXxzZWMxfDM=.txt", none) :=
  ⟨(GetLeaseFilePath_scheme exampleOS (str "box1") (str "sec1") (str "/home/u/pasmcli.data")
      (World.fresh emptyFS) (by decide)).1.trans (by decide),
   ((GetLeaseFilePath_scheme exampleOS (str "box1") (str "sec1") (str "/home/u/pasmcli.data")
      (World.fresh emptyFS) (by decide)).2.1 3 (by decide)).trans (by decide)⟩

/-! ## Numbers the encoder writes are read back -/

theorem spanDigits_append (ds rest : GoString) (c : Byte) (hd : ds.all isDigit = true)
    (hc : isDigit c = false) : spanDigits (ds ++ c :: rest) = (ds, c :: rest) := by
  induction ds with
  | nil => simp [spanDigits, hc]
  | cons d ds ih =>
    simp only [List.all_cons, Bool.and_eq_true] at hd
    simp [spanDigits, hd.1, ih hd.2]

theorem scanFracExp_brace (rest : GoString) :
    scanFracExp (B 0x7D :: rest) = some ([], B 0x7D :: rest) := by
  simp [scanFracExp, B_val]

theorem scanNumber_formatNat (n : Nat) (rest : GoString) :
    scanNumber (formatNat n ++ B 0x7D :: rest) = some (formatNat n, B 0x7D :: rest)
      ∧ ∃ c tl, formatNat n = c :: tl ∧ isDigit c = true := by
  obtain ⟨h1, h2, _, h4, h5⟩ := formatNatAux_spec (n + 1) n (by omega)
  have hm := isDigit_ne_minus
  unfold formatNat
  by_cases hn : n = 0
  · rw [h5 hn]
    refine ⟨?_, _, _, rfl, by decide⟩
    simp [scanNumber, B_val, scanFracExp_brace]
  · rcases hf : formatNatAux (n + 1) n with _ | ⟨c, tl⟩
    · exact absurd hf h1
    · have hc := h4 hn c tl hf
      rw [hf] at h2
      simp only [List.all_cons, Bool.and_eq_true] at h2
      have hc9 : c.val ≤ 0x39 := by
        have := h2.1
        simp only [isDigit, Bool.and_eq_true, decide_eq_true_eq] at this
        exact this.2
      refine ⟨?_, _, _, rfl, h2.1⟩
      have hsp := spanDigits_append tl rest (B 0x7D) h2.2 (by decide)
      simp only [scanNumber, List.cons_append]
      rw [if_neg (by omega)]
      simp only
      rw [if_neg (by omega), if_pos ⟨hc, hc9⟩, hsp]
      simp [scanFracExp_brace]

theorem scanNumber_formatInt (v : Int) (rest : GoString) :
    scanNumber (formatInt v ++ B 0x7D :: rest) = some (formatInt v, B 0x7D :: rest) := by
  obtain ⟨hs, c, tl, hf, hd⟩ := scanNumber_formatNat v.natAbs rest
  unfold formatInt
  by_cases hv : v < 0
  · rw [if_pos hv]
    have hc : c.val ≠ 0x2D := by
      intro h
      exact isDigit_ne_minus c hd (Fin.ext h)
    simp only [scanNumber, hf, List.cons_append, hc, ↓reduceIte] at hs
    simp only [scanNumber, hf, List.cons_append, B_val]
    rw [if_pos (by decide)]
    simp only
    split_ifs at hs ⊢ with h0 h1
    · simp only [Option.map_eq_some', Prod.mk.injEq] at hs ⊢
      obtain ⟨a, ha, h1, h2⟩ := hs
      exact ⟨a, ha, by rw [← h1]; rfl, h2⟩
    · simp only [Option.map_eq_some', Prod.mk.injEq] at hs ⊢
      obtain ⟨a, ha, h1, h2⟩ := hs
      exact ⟨a, ha, by rw [← h1]; rfl, h2⟩
  · rw [if_neg hv]
    exact hs

theorem parseInt64_formatInt (v : Int) (h1 : -2 ^ 63 ≤ v) (h2 : v < 2 ^ 63) :
    parseInt64 (formatInt v) = some v := by
  obtain ⟨c, tl, hf, hd⟩ := formatNat_head v.natAbs
  have hp := parseDigits_formatNat v.natAbs
  have e63 : (2 : Nat) ^ 63 = 9223372036854775808 := by norm_num
  have i63 : (2 : Int) ^ 63 = 9223372036854775808 := by norm_num
  rw [i63] at h1 h2
  unfold formatInt parseInt64
  rw [e63]
  by_cases hv : v < 0
  · have hn : (v.natAbs : Int) = -v := Int.ofNat_natAbs_of_nonpos (le_of_lt hv)
    rw [if_pos hv]
    simp only [B_val]
    rw [if_pos (by decide)]
    simp only [hp, ↓reduceIte]
    rw [if_pos (by omega : v.natAbs ≤ 9223372036854775808)]
    congr 1
    omega
  · have hn : (v.natAbs : Int) = v := Int.natAbs_of_nonneg (by omega)
    rw [if_neg hv, hf]
    have hc : c.val ≠ 0x2D ∧ c.val ≠ 0x2B := by
      simp only [isDigit, Bool.and_eq_true, decide_eq_true_eq] at hd
      omega
    simp only [hc.1, hc.2, ↓reduceIte, ← hf, hp]
    rw [if_neg (by simp), if_pos (by omega : v.natAbs < 9223372036854775808)]
    congr 1

theorem parseValue_number (f d : Nat) (v : Int) (rest : GoString) :
    parseValue (f + 1) d (formatInt v ++ B 0x7D :: rest)
      = some (Json.number (formatInt v), B 0x7D :: rest) := by
  have hs := scanNumber_formatInt v rest
  have hh : ∃ c tl, formatInt v = c :: tl ∧ (c.val = 0x2D ∨ isDigit c = true) := by
    obtain ⟨c, tl, hf, hd⟩ := formatNat_head v.natAbs
    unfold formatInt
    by_cases hv : v < 0
    · rw [if_pos hv]
      exact ⟨_, _, rfl, Or.inl (by decide)⟩
    · rw [if_neg hv]
      exact ⟨c, tl, hf, Or.inr hd⟩
  obtain ⟨c, tl, hf, hc⟩ := hh
  rw [hf] at hs ⊢
  have hcv : c.val = 0x2D ∨ (0x30 ≤ c.val ∧ c.val ≤ 0x39) := by
    rcases hc with h | h
    · exact Or.inl h
    · simp only [isDigit, Bool.and_eq_true, decide_eq_true_eq] at h
      exact Or.inr h
  have hsp : isSpace c = false := by
    simp only [isSpace, Bool.or_eq_false_iff, decide_eq_false_iff_not]
    omega
  simp only [List.cons_append] at hs ⊢
  rw [parseValue, skipSpace_cons _ _ hsp]
  simp only
  rw [if_neg (by omega), if_neg (by omega), if_neg (by omega), if_pos hc, hs]
  rfl

theorem parseMembers_number_close (f d : Nat) (acc : List (GoString × Json))
    (key rest : GoString) (v : Int) (hk : key.all htmlSafeSet = true) :
    parseMembers (f + 2) d acc
        (B 0x22 :: (key ++ B 0x22 :: B 0x3A :: (formatInt v ++ B 0x7D :: rest)))
      = some (Json.object (acc ++ [(key, Json.number (formatInt v))]), rest) := by
  rw [parseMembers, skipSpace_cons _ _ (by decide)]
  simp only [B_val, scanString_plain key _ hk]
  rw [skipSpace_cons _ _ (by decide)]
  simp only [B_val, parseValue_number f d v rest]
  rw [skipSpace_cons _ _ (by decide)]
  simp [B_val]

/-! ## C8: the lease file -/

theorem leaseInfo_encode_eq (info : leaseInfo) :
    info.encode = B 0x7B :: B 0x22 :: (str "box_id" ++ B 0x22 :: B 0x3A :: B 0x22 ::
      (appendStringAux info.BoxId.length info.BoxId ++ B 0x22 :: B 0x2C ::
      B 0x22 :: (str "secret_id" ++ B 0x22 :: B 0x3A :: B 0x22 ::
      (appendStringAux info.SecretId.length info.SecretId ++ B 0x22 :: B 0x2C ::
      B 0x22 :: (str "lease_id" ++ B 0x22 :: B 0x3A :: B 0x22 ::
      (appendStringAux info.LeaseId.length info.LeaseId ++ B 0x22 :: B 0x2C ::
      B 0x22 :: (str "expires_at" ++ B 0x22 :: B 0x3A :: B 0x22 ::
      (appendStringAux info.ExpiresAt.length info.ExpiresAt ++ B 0x22 :: B 0x2C ::
      B 0x22 :: (str "renewable" ++ B 0x22 :: B 0x3A :: B 0x22 ::
      (appendStringAux info.Renewable.length info.Renewable ++ B 0x22 :: B 0x2C ::
      B 0x22 :: (str "version" ++ B 0x22 :: B 0x3A ::
      (formatInt info.Version ++ B 0x7D :: str "\n")))))))))))) := by
  have h1 : str "\x7b\"box_id\":" = B 0x7B :: B 0x22 :: (str "box_id" ++ [B 0x22, B 0x3A]) := by
    decide
  have h2 : str ",\"secret_id\":" = B 0x2C :: B 0x22 :: (str "secret_id" ++ [B 0x22, B 0x3A]) := by
    decide
  have h3 : str ",\"lease_id\":" = B 0x2C :: B 0x22 :: (str "lease_id" ++ [B 0x22, B 0x3A]) := by
    decide
  have h4 : str ",\"expires_at\":" = B 0x2C :: B 0x22 :: (str "expires_at" ++ [B 0x22, B 0x3A]) := by
    decide
  have h5 : str ",\"renewable\":" = B 0x2C :: B 0x22 :: (str "renewable" ++ [B 0x22, B 0x3A]) := by
    decide
  have h6 : str ",\"version\":" = B 0x2C :: B 0x22 :: (str "version" ++ [B 0x22, B 0x3A]) := by
    decide
  have h7 : str "\x7d" = [B 0x7D] := by decide
  simp only [leaseInfo.encode, appendString_eq, h1, h2, h3, h4, h5, h6, h7, List.append_assoc,
    List.cons_append, List.nil_append]

theorem readValue_leaseInfo (info : leaseInfo) :
    readValue info.encode = some (Json.object
      [(str "box_id", Json.string (appendStringAux info.BoxId.length info.BoxId)),
       (str "secret_id", Json.string (appendStringAux info.SecretId.length info.SecretId)),
       (str "lease_id", Json.string (appendStringAux info.LeaseId.length info.LeaseId)),
       (str "expires_at", Json.string (appendStringAux info.ExpiresAt.length info.ExpiresAt)),
       (str "renewable", Json.string (appendStringAux info.Renewable.length info.Renewable)),
       (str "version", Json.number (formatInt info.Version))],
      str "\n") := by
  apply readValue_fuel _ 8
  · rw [leaseInfo_encode_eq]; simp; omega
  · intro f
    rw [leaseInfo_encode_eq, parseValue_object (f + 7) _ _ (by decide) (by decide),
      parseMembers_string_comma (f + 5) 1 _ _ _ _ (by decide)
        (fun r => scanString_appendStringAux _ _ r (le_refl _)),
      parseMembers_string_comma (f + 4) 1 _ _ _ _ (by decide)
        (fun r => scanString_appendStringAux _ _ r (le_refl _)),
      parseMembers_string_comma (f + 3) 1 _ _ _ _ (by decide)
        (fun r => scanString_appendStringAux _ _ r (le_refl _)),
      parseMembers_string_comma (f + 2) 1 _ _ _ _ (by decide)
        (fun r => scanString_appendStringAux _ _ r (le_refl _)),
      parseMembers_string_comma (f + 1) 1 _ _ _ _ (by decide)
        (fun r => scanString_appendStringAux _ _ r (le_refl _)),
      parseMembers_number_close f 1 _ _ _ _ (by decide)]
    rfl

theorem leaseInfo_decode_encode (b s l e r : GoString) (v : Int) (into : leaseInfo)
    (hl : ValidString l = true) (h1 : -2 ^ 63 ≤ v) (h2 : v < 2 ^ 63) :
    (leaseInfo.decode (Json.object
      [(str "box_id", Json.string (appendStringAux b.length b)),
       (str "secret_id", Json.string (appendStringAux s.length s)),
       (str "lease_id", Json.string (appendStringAux l.length l)),
       (str "expires_at", Json.string (appendStringAux e.length e)),
       (str "renewable", Json.string (appendStringAux r.length r)),
       (str "version", Json.number (formatInt v))]) into).2 = none
    ∧ (leaseInfo.decode (Json.object
      [(str "box_id", Json.string (appendStringAux b.length b)),
       (str "secret_id", Json.string (appendStringAux s.length s)),
       (str "lease_id", Json.string (appendStringAux l.length l)),
       (str "expires_at", Json.string (appendStringAux e.length e)),
       (str "renewable", Json.string (appendStringAux r.length r)),
       (str "version", Json.number (formatInt v))]) into).1.LeaseId = l := by
  have k1 : (unquote (str "box_id")).getD [] = str "box_id" := by decide
  have k2 : (unquote (str "secret_id")).getD [] = str "secret_id" := by decide
  have k3 : (unquote (str "lease_id")).getD [] = str "lease_id" := by decide
  have k4 : (unquote (str "expires_at")).getD [] = str "expires_at" := by decide
  have k5 : (unquote (str "renewable")).getD [] = str "renewable" := by decide
  have k6 : (unquote (str "version")).getD [] = str "version" := by decide
  have i1 : fieldIndex leaseInfoFields (str "box_id") = some 0 := by decide
  have i2 : fieldIndex leaseInfoFields (str "secret_id") = some 1 := by decide
  have i3 : fieldIndex leaseInfoFields (str "lease_id") = some 2 := by decide
  have i4 : fieldIndex leaseInfoFields (str "expires_at") = some 3 := by decide
  have i5 : fieldIndex leaseInfoFields (str "renewable") = some 4 := by decide
  have i6 : fieldIndex leaseInfoFields (str "version") = some 5 := by decide
  simp [leaseInfo.decode, leaseInfo.decodeMember, k1, k2, k3, k4, k5, k6, i1, i2, i3, i4, i5,
    i6, decodeString, decodeInt, unquote_appendStringAux _ hl, parseInt64_formatInt v h1 h2]

/-- What a successful `SaveLeaseInfo` has done: the lease file holds the
encoded record. -/
theorem SaveLeaseInfo_ok (os : OS) (f b s l e r : GoString) (v : Int) (w : World)
    (h : (SaveLeaseInfo os f b s l e r v w).1 = Outcome.ret (f, none)) :
    (SaveLeaseInfo os f b s l e r v w).2.fs.files f
      = some (leaseInfo.encode
          { BoxId := b, SecretId := s, LeaseId := l, ExpiresAt := e, Renewable := r,
            Version := v }) := by
  unfold SaveLeaseInfo at h ⊢
  unfold osCreate at h ⊢
  rcases hc : os.createErr f with _ | err
  · rw [hc] at h
    simp only at h ⊢
    unfold osWrite at h ⊢
    rcases hwr : os.writeErr f with _ | err
    · simp [FS.writeFile]
    · rw [hwr] at h
      simp at h
  · rw [hc] at h
    simp at h

/-- C8 (as stated) fails: a lease id that is not valid UTF-8 (the single byte
`0xFF`) is saved without error and read back as U+FFFD, and when the file
cannot be created the read fails although the lease id is not empty. -/
theorem SaveLeaseInfo_GetLeaseId_counterexample :
    ((SaveLeaseInfo exampleOS (str "lease") (str "b") (str "s") [B 0xFF] (str "e") (str "true") 1
        (World.fresh emptyFS)).1 = Outcome.ret (str "lease", none)
      ∧ (GetLeaseId exampleOS (str "lease")
          (SaveLeaseInfo exampleOS (str "lease") (str "b") (str "s") [B 0xFF] (str "e")
            (str "true") 1 (World.fresh emptyFS)).2).1
        = Outcome.ret ([B 0xEF, B 0xBF, B 0xBD], none)
      ∧ ([B 0xEF, B 0xBF, B 0xBD] : GoString) ≠ [B 0xFF])
    ∧ (GetLeaseId readOnlyOS (str "lease")
          (SaveLeaseInfo readOnlyOS (str "lease") (str "b") (str "s") (str "id") (str "e")
            (str "true") 1 (World.fresh emptyFS)).2).1
        = Outcome.ret ([], some (notExistError (str "open") (str "lease"))) := by
  decide

/-- C8 (amended): for a lease id that is valid UTF-8 and a version in the range
of a Go `int`, when `SaveLeaseInfo` returns no error and the file it wrote can
be opened, a following `GetLeaseId` of the same path returns the lease id and
no error when the lease id is not empty, and the error `missing lease_id` when
it is empty. -/
theorem SaveLeaseInfo_GetLeaseId (os : OS) (f b s l e r : GoString) (v : Int) (w w2 : World)
    (hl : ValidString l = true) (h1 : -2 ^ 63 ≤ v) (h2 : v < 2 ^ 63)
    (hsave : (SaveLeaseInfo os f b s l e r v w).1 = Outcome.ret (f, none))
    (hfs : w2.fs = (SaveLeaseInfo os f b s l e r v w).2.fs)
    (hopen : os.openErr f = none) :
    (l ≠ [] → (GetLeaseId os f w2).1 = Outcome.ret (l, none))
    ∧ (l = [] → (GetLeaseId os f w2).1 = Outcome.ret ([], some (GoError.errorString
        (str "Invalid or corrupt lease file - missing lease_id")))) := by
  have hfile := SaveLeaseInfo_ok os f b s l e r v w hsave
  rw [← hfs] at hfile
  obtain ⟨d1, d2⟩ := leaseInfo_decode_encode b s l e r v
    { BoxId := [], SecretId := [], LeaseId := [], ExpiresAt := [], Renewable := [], Version := 0 }
    hl h1 h2
  unfold GetLeaseId
  simp only [osOpen, hfile, hopen, readValue_leaseInfo, d1, d2]
  constructor
  · intro hne
    rw [if_neg hne]
  · intro he
    rw [if_pos he]

/-- C8 (amended), at a concrete input. -/
theorem SaveLeaseInfo_GetLeaseId_witness :
    (GetLeaseId exampleOS (str "lease")
        (SaveLeaseInfo exampleOS (str "lease") (str "box") (str "sec") (str "lease-é-42")
          (str "never") (str "true") (-7) (World.fresh emptyFS)).2).1
      = Outcome.ret (str "lease-é-42", none) :=
  (SaveLeaseInfo_GetLeaseId exampleOS (str "lease") (str "box") (str "sec") (str "lease-é-42")
    (str "never") (str "true") (-7) (World.fresh emptyFS) _ (by decide) (by decide) (by decide)
    (by decide) rfl rfl).1 (by decide)

/-! ## C3, C4, C5: the HTTP wrappers -/

theorem doRequest_response (method : GoString) (os : OS) (net : Net)
    (endpoint cacert : GoString) (headers : List (GoString × GoString))
    (jsonParams contentType : GoString) (response : Response) (w w1 : World)
    (roots : Option GoString) (dst : GoString)
    (hurl : net.urlParseErr endpoint = false)
    (htls : tlsSetup os cacert w = (Outcome.ret roots, w1))
    (hdo : ∀ req : Request, req.URL = endpoint → net.Do req = .ok response)
    (hbody : response.Body ≠ []) (hind : jsonIndent response.Body = some dst) :
    doRequest method os net endpoint cacert headers jsonParams contentType w
      = (Outcome.ret ({ status := some response.StatusCode, data := some dst }, none), w1) := by
  unfold doRequest
  rw [hurl, bind_eq]
  unfold Proc.bind
  simp only [Bool.false_eq_true, if_false, htls]
  rw [hdo _ rfl]
  simp only [hind]
  rw [if_pos (by simpa using hbody)]
  rfl

theorem DoPost2_response {δ : Type} (os : OS) (net : Net) (endpoint cacert : GoString)
    (headers : List (GoString × GoString)) (jsonParams contentType : GoString)
    (responseData : Option δ) (decode : Json → δ → δ × Option GoError)
    (response : Response) (w w1 : World) (roots : Option GoString)
    (hurl : net.urlParseErr endpoint = false)
    (htls : tlsSetup os cacert w = (Outcome.ret roots, w1))
    (hdo : ∀ req : Request, req.URL = endpoint → net.Do req = .ok response) :
    DoPost2 os net endpoint cacert headers jsonParams contentType responseData decode none w
      = (if response.StatusCode = 200 ∨ response.StatusCode = 201 then
            match responseData with
            | none => Proc.pure { value := some response.Body, dest := none, err := none }
            | some dest =>
              if response.HeaderGet (str "Content-Type") ≠ ContentTypeJSON then
                Proc.pure { value := none, dest := some dest,
                            err := some (GoError.errorString (str "Invalid Content-Type: "
                              ++ response.HeaderGet (str "Content-Type"))) }
              else
                match readValue response.Body with
                | none =>
                  Proc.pure { value := none, dest := some dest, err := some jsonSyntaxError }
                | some (v, _) =>
                  Proc.pure { value := none, dest := some (decode v dest).1,
                              err := (decode v dest).2 }
          else
            Proc.pure { value := none, dest := responseData,
                        err := some (GoError.api (newAPIError endpoint response)) }) w1 := by
  unfold DoPost2
  rw [hurl, bind_eq]
  unfold Proc.bind
  simp only [Bool.false_eq_true, if_false, htls]
  rw [hdo _ rfl]

theorem APIError_Error_infix (e : APIError) :
    e.RequestURL <:+: e.Error ∧ e.HttpStatus <:+: e.Error
      ∧ (e.ErrorJSON ≠ [] → e.ErrorJSON <:+: e.Error) := by
  unfold APIError.Error
  by_cases h : e.ErrorJSON.length > 0
  · rw [if_pos h]
    refine ⟨⟨[], str "\n" ++ e.HttpStatus ++ str "\n" ++ e.ErrorJSON, by simp⟩,
      ⟨e.RequestURL ++ str "\n", str "\n" ++ e.ErrorJSON, by simp⟩,
      fun _ => ⟨e.RequestURL ++ str "\n" ++ e.HttpStatus ++ str "\n", [], by simp⟩⟩
  · rw [if_neg h]
    refine ⟨⟨[], str "\n" ++ e.HttpStatus, by simp⟩, ⟨e.RequestURL ++ str "\n", [], by simp⟩, ?_⟩
    intro hne
    exact absurd (List.length_pos.mpr hne) h

/-- C4: `DoPost2` without a response handler, for a response whose status code
is neither 200 nor 201, returns an `APIError` holding the endpoint, the status
code, the status text, and as `ErrorJSON` the response body when the
`Content-Type` header is `application/json` and nothing otherwise; its
`Error()` text contains the URL and the status text, and the body when
`ErrorJSON` is not empty. -/
theorem DoPost2_error {δ : Type} (os : OS) (net : Net) (endpoint cacert : GoString)
    (headers : List (GoString × GoString)) (jsonParams contentType : GoString)
    (responseData : Option δ) (decode : Json → δ → δ × Option GoError)
    (response : Response) (w w1 : World) (roots : Option GoString)
    (hurl : net.urlParseErr endpoint = false)
    (htls : tlsSetup os cacert w = (Outcome.ret roots, w1))
    (hdo : ∀ req : Request, req.URL = endpoint → net.Do req = .ok response)
    (h200 : response.StatusCode ≠ 200) (h201 : response.StatusCode ≠ 201) :
    ∃ e : APIError,
      (DoPost2 os net endpoint cacert headers jsonParams contentType responseData decode
          none w).1 = Outcome.ret { value := none, dest := responseData,
                                    err := some (GoError.api e) }
      ∧ e.RequestURL = endpoint ∧ e.HttpStatusCode = response.StatusCode
      ∧ e.HttpStatus = response.Status
      ∧ (response.HeaderGet (str "Content-Type") = ContentTypeJSON → e.ErrorJSON = response.Body)
      ∧ (response.HeaderGet (str "Content-Type") ≠ ContentTypeJSON → e.ErrorJSON = [])
      ∧ endpoint <:+: (GoError.api e).Error ∧ response.Status <:+: (GoError.api e).Error
      ∧ (e.ErrorJSON ≠ [] → e.ErrorJSON <:+: (GoError.api e).Error) := by
  refine ⟨newAPIError endpoint response, ?_, rfl, rfl, rfl, ?_, ?_, ?_⟩
  · rw [DoPost2_response os net endpoint cacert headers jsonParams contentType responseData
      decode response w w1 roots hurl htls hdo, if_neg (by simp [h200, h201])]
    rfl
  · intro h
    simp [newAPIError, h]
  · intro h
    simp [newAPIError, h]
  · exact APIError_Error_infix (newAPIError endpoint response)

/-- C4, at a concrete response: a 404 with a JSON body. -/
theorem DoPost2_error_witness :
    (DoPost2 exampleOS
        (constNet (mkResponse 404 (str "404 Not Found") ContentTypeJSON
          (str "\x7b\"error\": \"x\"\x7d")))
        (str "https://vault/vault/1.0/Login/") [] [] (str "\x7b\x7d") ContentTypeJSON
        (none : Option tokenInfo) tokenInfo.decode none (World.fresh emptyFS)).1
      = Outcome.ret
          { value := none, dest := none,
            err := some (GoError.api
              { RequestURL := str "https://vault/vault/1.0/Login/", HttpStatusCode := 404,
                HttpStatus := str "404 Not Found",
                ErrorJSON := str "\x7b\"error\": \"x\"\x7d" }) } := by
  obtain ⟨e, h, h1, h2, h3, h4, _⟩ := DoPost2_error exampleOS
    (constNet (mkResponse 404 (str "404 Not Found") ContentTypeJSON
      (str "\x7b\"error\": \"x\"\x7d")))
    (str "https://vault/vault/1.0/Login/") [] [] (str "\x7b\x7d") ContentTypeJSON
    (none : Option tokenInfo) tokenInfo.decode
    (mkResponse 404 (str "404 Not Found") ContentTypeJSON (str "\x7b\"error\": \"x\"\x7d"))
    (World.fresh emptyFS) _ none rfl rfl (fun _ _ => rfl) (by decide) (by decide)
  rw [h]
  have h5 := h4 (by decide)
  cases e
  simp only at h1 h2 h3 h5
  subst h1 h2 h3 h5
  rfl

/-- C3 (as stated) fails: `DoPost`, answered with status 500 and the body
`{"error": "x"}`, returns a nil error; the status code and the re-indented body
are in the result map. -/
theorem DoPost_error_status_counterexample :
    (DoPost exampleOS
        (constNet (mkResponse 500 (str "500 Internal Server Error") ContentTypeJSON
          (str "\x7b\"error\": \"x\"\x7d")))
        (str "https://vault/vault/1.0/CreateBox/") [] [] (str "\x7b\x7d") ContentTypeJSON
        (World.fresh emptyFS)).1
      = Outcome.ret
          ({ status := some 500, data := some (str "\x7b\n  \"error\": \"x\"\n\x7d") }, none) := by
  decide

theorem jsonIndent_error_x :
    jsonIndent (str "\x7b\"error\": \"x\"\x7d") = some (str "\x7b\n  \"error\": \"x\"\n\x7d") := by
  decide

/-- C3 (amended): when the server answers with a status code of 400 or more and
the body `{"error": "x"}`, `DoPost2` called without a response handler returns
a non-nil error whose message contains the request URL and the status text,
while `DoGet`, `DoPost`, `DoPatch` and `DoDelete` return a nil error and hand
the status code and the re-indented body back in the result map. -/
theorem wrappers_error_status {δ : Type} (os : OS) (net : Net) (endpoint cacert : GoString)
    (headers : List (GoString × GoString)) (jsonParams contentType : GoString)
    (responseData : Option δ) (decode : Json → δ → δ × Option GoError)
    (response : Response) (w w1 : World) (roots : Option GoString)
    (hurl : net.urlParseErr endpoint = false)
    (htls : tlsSetup os cacert w = (Outcome.ret roots, w1))
    (hdo : ∀ req : Request, req.URL = endpoint → net.Do req = .ok response)
    (hcode : 400 ≤ response.StatusCode)
    (hbody : response.Body = str "\x7b\"error\": \"x\"\x7d") :
    (∃ e : GoError,
      (DoPost2 os net endpoint cacert headers jsonParams contentType responseData decode
          none w).1 = Outcome.ret { value := none, dest := responseData, err := some e }
      ∧ endpoint <:+: e.Error ∧ response.Status <:+: e.Error)
    ∧ (DoGet os net endpoint cacert headers jsonParams contentType w).1
        = Outcome.ret ({ status := some response.StatusCode,
                         data := some (str "\x7b\n  \"error\": \"x\"\n\x7d") }, none)
    ∧ (DoPost os net endpoint cacert headers jsonParams contentType w).1
        = Outcome.ret ({ status := some response.StatusCode,
                         data := some (str "\x7b\n  \"error\": \"x\"\n\x7d") }, none)
    ∧ (DoPatch os net endpoint cacert headers jsonParams contentType w).1
        = Outcome.ret ({ status := some response.StatusCode,
                         data := some (str "\x7b\n  \"error\": \"x\"\n\x7d") }, none)
    ∧ (DoDelete os net endpoint cacert headers jsonParams contentType w).1
        = Outcome.ret ({ status := some response.StatusCode,
                         data := some (str "\x7b\n  \"error\": \"x\"\n\x7d") }, none) := by
  have hne : response.Body ≠ [] := by rw [hbody]; decide
  have hind : jsonIndent response.Body = some (str "\x7b\n  \"error\": \"x\"\n\x7d") := by
    rw [hbody]; exact jsonIndent_error_x
  have hreq : ∀ method,
      (doRequest method os net endpoint cacert headers jsonParams contentType w).1
        = Outcome.ret
            ({ status := some response.StatusCode,
               data := some (str "\x7b\n  \"error\": \"x\"\n\x7d") }, none) := by
    intro method
    rw [doRequest_response method os net endpoint cacert headers jsonParams contentType
      response w w1 roots _ hurl htls hdo hne hind]
  refine ⟨?_, hreq _, hreq _, hreq _, hreq _⟩
  obtain ⟨e, h, h1, _, h3, _, _, h6, h7, _⟩ := DoPost2_error os net endpoint cacert headers
    jsonParams contentType responseData decode response w w1 roots hurl htls hdo
    (by omega) (by omega)
  exact ⟨GoError.api e, h, h6, h7⟩

/-- C3 (amended), at a concrete response: status 503 with the body
`{"error": "x"}`. -/
theorem wrappers_error_status_witness :
    (DoGet exampleOS
        (constNet (mkResponse 503 (str "503 Service Unavailable") ContentTypeJSON
          (str "\x7b\"error\": \"x\"\x7d")))
        (str "https://vault/vault/1.0/X/") [] [] [] ContentTypeJSON (World.fresh emptyFS)).1
      = Outcome.ret
          ({ status := some 503, data := some (str "\x7b\n  \"error\": \"x\"\n\x7d") }, none) :=
  (wrappers_error_status exampleOS
    (constNet (mkResponse 503 (str "503 Service Unavailable") ContentTypeJSON
      (str "\x7b\"error\": \"x\"\x7d")))
    (str "https://vault/vault/1.0/X/") [] [] [] ContentTypeJSON (none : Option tokenInfo)
    tokenInfo.decode
    (mkResponse 503 (str "503 Service Unavailable") ContentTypeJSON
      (str "\x7b\"error\": \"x\"\x7d"))
    (World.fresh emptyFS) _ none rfl rfl (fun _ _ => rfl) (by decide) rfl).2.1

/-- C5: `DoPost2` without a response handler, for a response with status 200 or
201: with a nil destination it returns the raw body and no error; with a
destination, the content type `application/json` and a body that decodes into
the destination without error, the destination holds the decoded value and no
error is returned. -/
theorem DoPost2_success {δ : Type} (os : OS) (net : Net) (endpoint cacert : GoString)
    (headers : List (GoString × GoString)) (jsonParams contentType : GoString)
    (decode : Json → δ → δ × Option GoError)
    (response : Response) (w w1 : World) (roots : Option GoString)
    (hurl : net.urlParseErr endpoint = false)
    (htls : tlsSetup os cacert w = (Outcome.ret roots, w1))
    (hdo : ∀ req : Request, req.URL = endpoint → net.Do req = .ok response)
    (hcode : response.StatusCode = 200 ∨ response.StatusCode = 201) :
    (DoPost2 os net endpoint cacert headers jsonParams contentType none decode none w).1
        = Outcome.ret { value := some response.Body, dest := none, err := none }
    ∧ (∀ (dest : δ) (v : Json) (rest : GoString),
        response.HeaderGet (str "Content-Type") = ContentTypeJSON →
        readValue response.Body = some (v, rest) → (decode v dest).2 = none →
        (DoPost2 os net endpoint cacert headers jsonParams contentType (some dest) decode
            none w).1
          = Outcome.ret { value := none, dest := some (decode v dest).1, err := none }) := by
  constructor
  · rw [DoPost2_response os net endpoint cacert headers jsonParams contentType none
      decode response w w1 roots hurl htls hdo, if_pos hcode]
    rfl
  · intro dest v rest hct hread hdec
    rw [DoPost2_response os net endpoint cacert headers jsonParams contentType (some dest)
      decode response w w1 roots hurl htls hdo, if_pos hcode]
    simp only [hct, ne_eq, not_true_eq_false, if_false, hread]
    rw [hdec]
    rfl

/-- C5, at a concrete response: a login answer decoded into a `tokenInfo`. -/
theorem DoPost2_success_witness :
    (DoPost2 exampleOS
        (constNet (mkResponse 200 (str "200 OK") ContentTypeJSON
          (str "\x7b\"access_token\": \"abc\"\x7d")))
        (str "https://vault/vault/1.0/Login/") [] [] (str "\x7b\x7d") ContentTypeJSON
        (some { AccessToken := [], Server := [], CACertFile := [] }) tokenInfo.decode none
        (World.fresh emptyFS)).1
      = Outcome.ret
          { value := none,
            dest := some { AccessToken := str "abc", Server := [], CACertFile := [] },
            err := none } :=
  (DoPost2_success exampleOS
    (constNet (mkResponse 200 (str "200 OK") ContentTypeJSON
      (str "\x7b\"access_token\": \"abc\"\x7d")))
    (str "https://vault/vault/1.0/Login/") [] [] (str "\x7b\x7d") ContentTypeJSON
    tokenInfo.decode
    (mkResponse 200 (str "200 OK") ContentTypeJSON (str "\x7b\"access_token\": \"abc\"\x7d"))
    (World.fresh emptyFS) _ none rfl rfl (fun _ _ => rfl) (by decide)).2
    { AccessToken := [], Server := [], CACertFile := [] }
    (Json.object [(str "access_token", Json.string (str "abc"))]) [] (by decide) rfl rfl

/-! ## C9: `checkout-secret` on the body `{"secret_data": "abc"}` -/

set_option maxRecDepth 1000000 in
/-- C9 fails on the code: answered with status 200 and the body
`{"secret_data": "abc"}`, `checkout-secret` panics at the unchecked type
assertion on `secret_subtype_info`; the process ends with the exit status of a
panic, 2, and only the TLS warning has been printed. -/
theorem checkoutSecretCmd_Run_secret_data_only :
    (checkoutSecretCmd_Run exampleOS
        (constNet (mkResponse 200 (str "200 OK") ContentTypeJSON
          (str "\x7b\"secret_data\": \"abc\"\x7d")))
        exampleLib
        { dontSaveLease := false, leaseFile := [], boxid := str "box", secretid := str "sec",
          version := none, jsonOutput := false }
        loggedInWorld).1
      = Outcome.panic
          (str "interface conversion: interface \x7b\x7d is nil, not map[string]interface \x7b\x7d")
    ∧ (checkoutSecretCmd_Run exampleOS
        (constNet (mkResponse 200 (str "200 OK") ContentTypeJSON
          (str "\x7b\"secret_data\": \"abc\"\x7d")))
        exampleLib
        { dontSaveLease := false, leaseFile := [], boxid := str "box", secretid := str "sec",
          version := none, jsonOutput := false }
        loggedInWorld).1.exitCode = 2
    ∧ (checkoutSecretCmd_Run exampleOS
        (constNet (mkResponse 200 (str "200 OK") ContentTypeJSON
          (str "\x7b\"secret_data\": \"abc\"\x7d")))
        exampleLib
        { dontSaveLease := false, leaseFile := [], boxid := str "box", secretid := str "sec",
          version := none, jsonOutput := false }
        loggedInWorld).2.stdout = insecureWarning ++ str "\n" := by
  decide

set_option maxRecDepth 1000000 in
/-- With an (empty) `secret_subtype_info` object beside it, the same secret is
printed and the process exits with code 0. -/
theorem checkoutSecretCmd_Run_with_subtype_info :
    (checkoutSecretCmd_Run exampleOS
        (constNet (mkResponse 200 (str "200 OK") ContentTypeJSON
          (str "\x7b\"secret_data\": \"abc\", \"secret_subtype_info\": \x7b\x7d\x7d")))
        exampleLib
        { dontSaveLease := false, leaseFile := [], boxid := str "box", secretid := str "sec",
          version := none, jsonOutput := false }
        loggedInWorld).1 = Outcome.exit 0
    ∧ (checkoutSecretCmd_Run exampleOS
        (constNet (mkResponse 200 (str "200 OK") ContentTypeJSON
          (str "\x7b\"secret_data\": \"abc\", \"secret_subtype_info\": \x7b\x7d\x7d")))
        exampleLib
        { dontSaveLease := false, leaseFile := [], boxid := str "box", secretid := str "sec",
          version := none, jsonOutput := false }
        loggedInWorld).2.stdout
      = insecureWarning ++ str "\n" ++ str "\nSecret data: abc\n" ++ str "\n" := by
  decide

/-! ## C10: exit codes of `create-box` and `update-audit-settings` -/

set_option maxRecDepth 1000000 in
/-- C10 (as stated) fails: `create-box`, answered with status 500 and the body
`{}`, prints the body and exits with code 0. -/
theorem createBoxCmd_Run_counterexample :
    (createBoxCmd_Run exampleOS
        (constNet (mkResponse 500 (str "500 Internal Server Error") ContentTypeJSON
          (str "\x7b\x7d")))
        (str "\x7b\"name\":\"box1\"\x7d") loggedInWorld).1 = Outcome.exit 0
    ∧ (createBoxCmd_Run exampleOS
        (constNet (mkResponse 500 (str "500 Internal Server Error") ContentTypeJSON
          (str "\x7b\x7d")))
        (str "\x7b\"name\":\"box1\"\x7d") loggedInWorld).2.stdout
      = insecureWarning ++ str "\n" ++ str "\n\x7b\x7d\n" ++ str "\n" := by
  decide

set_option maxRecDepth 1000000 in
/-- The same response makes `update-audit-settings` print `Unknown error` and
exit with code 0, where its sibling commands exit with code 100. -/
theorem updateAuditSettingsCmd_Run_unknown_error :
    (updateAuditSettingsCmd_Run exampleOS
        (constNet (mkResponse 500 (str "500 Internal Server Error") ContentTypeJSON
          (str "\x7b\x7d")))
        [] (some 30) none loggedInWorld).1 = Outcome.exit 0
    ∧ (updateAuditSettingsCmd_Run exampleOS
        (constNet (mkResponse 500 (str "500 Internal Server Error") ContentTypeJSON
          (str "\x7b\x7d")))
        [] (some 30) none loggedInWorld).2.stdout
      = insecureWarning ++ str "\n" ++ str "\n\x7b\x7d\n" ++ str "\n" ++ str "\nUnknown error\n"
        ++ str "\n" := by
  decide

theorem DoPost_response (os : OS) (net : Net)
    (endpoint cacert : GoString) (headers : List (GoString × GoString))
    (jsonParams contentType : GoString) (response : Response) (w w1 : World)
    (roots : Option GoString)
    (hurl : net.urlParseErr endpoint = false)
    (htls : tlsSetup os cacert w = (Outcome.ret roots, w1))
    (hdo : ∀ req : Request, req.URL = endpoint → net.Do req = .ok response) :
    DoPost os net endpoint cacert headers jsonParams contentType w
      = (if response.Body.length ≠ 0 then
          match jsonIndent response.Body with
          | none => Println (str "\n" ++ response.Body ++ str "\n") >>= fun _ => osExit 4
          | some dst =>
            Proc.pure ({ status := some response.StatusCode, data := some dst }, none)
        else Proc.pure ({ status := some response.StatusCode, data := some [] }, none)) w1 := by
  unfold DoPost doRequest
  rw [hurl, bind_eq]
  unfold Proc.bind
  simp only [Bool.false_eq_true, if_false, htls]
  rw [hdo _ rfl]
  try rfl

/-- C10 (amended): `create-box` decides its exit code from the response body,
not from the status code.  Once the request has been answered: a 404 with an
empty body exits with code 5; an empty body with another status exits with
code 1; a body that is not JSON exits with code 4; and when the re-indented
body `retStr` decodes to a map, the process prints it and
exits with code 3 if the map has the key `error` and with code 0 if it has
not, whatever the status code, 2xx or not. -/
theorem createBoxCmd_Run_exit (os : OS) (net : Net) (jsonParams : GoString) (w w1 : World)
    (roots : Option GoString) (response : Response)
    (hurl : net.urlParseErr (GetEndPoint w [] (str "1.0") (str "CreateBox")) = false)
    (htls : tlsSetup os (GetCACertFile w) w = (Outcome.ret roots, w1))
    (hdo : ∀ req : Request, req.URL = GetEndPoint w [] (str "1.0") (str "CreateBox") →
      net.Do req = .ok response) :
    (response.Body = [] → response.StatusCode = 404 →
        (createBoxCmd_Run os net jsonParams w).1 = Outcome.exit 5)
    ∧ (response.Body = [] → response.StatusCode ≠ 404 →
        (createBoxCmd_Run os net jsonParams w).1 = Outcome.exit 1)
    ∧ (response.Body ≠ [] → jsonIndent response.Body = none →
        (createBoxCmd_Run os net jsonParams w).1 = Outcome.exit 4)
    ∧ (∀ (retStr : GoString) (m : JsonMap), response.Body ≠ [] →
        jsonIndent response.Body = some retStr → unmarshalMap retStr = .ok m →
        (createBoxCmd_Run os net jsonParams w).1
            = Outcome.exit (if (m.get (str "error")).isSome then 3 else 0)
          ∧ (createBoxCmd_Run os net jsonParams w).2.stdout
            = w1.stdout ++ (str "\n" ++ retStr ++ str "\n" ++ str "\n")) := by
  have hpost := DoPost_response os net (GetEndPoint w [] (str "1.0") (str "CreateBox"))
    (GetCACertFile w) (AuthTokenKV w) jsonParams (str "application/json") response w w1 roots
    hurl htls hdo
  have hempty : unmarshalMap [] = .error jsonUnexpectedEnd := rfl
  refine ⟨?_, ?_, ?_, ?_⟩
  · intro hb hc
    unfold createBoxCmd_Run
    rw [bind_eq]
    unfold Proc.bind
    rw [hpost]
    simp [hb, hc, Proc.pure, retDataStatus, bind_eq, Proc.bind, Println, print, osExit]
  · intro hb hc
    unfold createBoxCmd_Run
    rw [bind_eq]
    unfold Proc.bind
    rw [hpost]
    simp [hb, hc, hempty, Proc.pure, retDataStatus, bind_eq, Proc.bind, Println, print, osExit,
      JsonStrToMap]
  · intro hb hi
    unfold createBoxCmd_Run
    rw [bind_eq]
    unfold Proc.bind
    rw [hpost]
    simp [hb, hi, Proc.pure, bind_eq, Proc.bind, Println, print, osExit]
  · intro retStr m hb hi hm
    have hne : retStr ≠ [] := by
      intro h
      rw [h] at hm
      rw [hempty] at hm
      cases hm
    unfold createBoxCmd_Run
    rw [bind_eq]
    unfold Proc.bind
    rw [hpost]
    by_cases he : (m.get (str "error")).isSome
    · simp [hb, hi, hne, hm, he, Proc.pure, retDataStatus, bind_eq, Proc.bind, Println, print,
        osExit, JsonStrToMap]
    · simp [hb, hi, hne, hm, he, Proc.pure, retDataStatus, bind_eq, Proc.bind, Println, print,
        osExit, JsonStrToMap]

set_option maxRecDepth 1000000 in
/-- C10 (amended), at a concrete response: status 500 with a body that carries
an `error` key exits with code 3. -/
theorem createBoxCmd_Run_exit_witness :
    (createBoxCmd_Run exampleOS
        (constNet (mkResponse 500 (str "500 Internal Server Error") ContentTypeJSON
          (str "\x7b\"error\":\"bad\"\x7d")))
        (str "\x7b\"name\":\"box1\"\x7d") loggedInWorld).1 = Outcome.exit 3 :=
  ((createBoxCmd_Run_exit exampleOS
      (constNet (mkResponse 500 (str "500 Internal Server Error") ContentTypeJSON
        (str "\x7b\"error\":\"bad\"\x7d")))
      (str "\x7b\"name\":\"box1\"\x7d") loggedInWorld _ none
      (mkResponse 500 (str "500 Internal Server Error") ContentTypeJSON
        (str "\x7b\"error\":\"bad\"\x7d"))
      rfl rfl (fun _ _ => rfl)).2.2.2
    (str "\x7b\n  \"error\": \"bad\"\n\x7d")
    (some [(str "error", Json.string (str "bad"))])
    (by decide) (by decide) rfl).1

/-! ## C19: the default token file -/

set_option maxRecDepth 1000000 in
/-- C19 fails on the code: called with an empty token file name,
`SaveAccessToken` writes the record to `pasm_token.txt` in the data directory
and returns that path; no file named `vault_token.txt`, the name the help text
of `--token-file` promises, is made. -/
theorem SaveAccessToken_default_file :
    (SaveAccessToken exampleOS [] (str "tok") (str "vault") [] (World.fresh emptyFS)).1
      = Outcome.ret (str "/home/u/pasmcli.data/pasm_token.txt", none)
    ∧ (SaveAccessToken exampleOS [] (str "tok") (str "vault") [] (World.fresh emptyFS)).2.fs.files
          (str "/home/u/pasmcli.data/pasm_token.txt")
        = some (tokenInfo.encode
            { AccessToken := str "tok", Server := str "vault", CACertFile := [] })
    ∧ (SaveAccessToken exampleOS [] (str "tok") (str "vault") [] (World.fresh emptyFS)).2.fs.files
          (str "/home/u/pasmcli.data/vault_token.txt") = none := by
  decide

/-! ## Lemmas on the request wrappers -/

/-- The TLS setup returns when no CA file is named or the named file can be
read; it leaves the file system and the token record as they are. -/
theorem tlsSetup_returns (os : OS) (cacert : GoString) (w : World)
    (hca : cacert = [] ∨ ∃ data, osOpen os w.fs cacert = .ok data) :
    ∃ roots w1, tlsSetup os cacert w = (Outcome.ret roots, w1) ∧ w1.fs = w.fs
      ∧ w1.gTokenInfo = w.gTokenInfo := by
  unfold tlsSetup
  by_cases hc : cacert = []
  · subst hc
    exact ⟨none, _, rfl, rfl, rfl⟩
  · rcases hca with h | ⟨data, h⟩
    · exact absurd h hc
    · rw [if_pos hc]
      simp only [h]
      exact ⟨some data, w, rfl, rfl, rfl⟩

theorem DoPost_transport (os : OS) (net : Net)
    (endpoint cacert : GoString) (headers : List (GoString × GoString))
    (jsonParams contentType : GoString) (w w1 : World)
    (roots : Option GoString)
    (hurl : net.urlParseErr endpoint = false)
    (htls : tlsSetup os cacert w = (Outcome.ret roots, w1))
    (hdo : ∀ req : Request, req.URL = endpoint → ∃ err, net.Do req = .error err) :
    ∃ err, DoPost os net endpoint cacert headers jsonParams contentType w
      = (Outcome.ret ({ status := none, data := none }, some err), w1) := by
  unfold DoPost doRequest
  rw [hurl, bind_eq]
  unfold Proc.bind
  simp only [Bool.false_eq_true, if_false, htls]
  obtain ⟨err, herr⟩ := hdo { Method := str "POST", URL := endpoint,
                              Header := (str "Content-Type", contentType) :: headers,
                              Body := jsonParams, RootCAs := roots } rfl
  rw [herr]
  exact ⟨err, rfl⟩

theorem DoPost2_transport {δ : Type} (os : OS) (net : Net) (endpoint cacert : GoString)
    (headers : List (GoString × GoString)) (jsonParams contentType : GoString)
    (responseData : Option δ) (decode : Json → δ → δ × Option GoError)
    (w w1 : World) (roots : Option GoString)
    (hurl : net.urlParseErr endpoint = false)
    (htls : tlsSetup os cacert w = (Outcome.ret roots, w1))
    (hdo : ∀ req : Request, req.URL = endpoint → ∃ err, net.Do req = .error err) :
    ∃ err, DoPost2 os net endpoint cacert headers jsonParams contentType responseData decode
        none w
      = (Outcome.ret { value := none, dest := responseData, err := some err }, w1) := by
  unfold DoPost2
  rw [hurl, bind_eq]
  unfold Proc.bind
  simp only [Bool.false_eq_true, if_false, htls]
  obtain ⟨err, herr⟩ := hdo { Method := str "POST", URL := endpoint,
                              Header := (str "Content-Type", contentType) :: headers,
                              Body := jsonParams, RootCAs := roots } rfl
  rw [herr]
  exact ⟨err, rfl⟩

/-! ## C11: a 404 with an empty body -/

set_option maxRecDepth 1000000 in
/-- C11 (as stated) fails: `renew`, answered with status 404 and an empty body,
reports a failed call and exits with code 1. -/
theorem renewCmd_Run_not_found_counterexample :
    (renewCmd_Run exampleOS (constNet (mkResponse 404 (str "404 Not Found") ContentTypeJSON []))
        exampleLib exampleText [] loggedInWorld).1 = Outcome.exit 1 := by
  decide

set_option maxRecDepth 1000000 in
/-- The same response makes `rotate-secret` exit with code 1: it decodes the
empty body before it tests for the 404. -/
theorem rotateSecretCmd_Run_not_found :
    (rotateSecretCmd_Run exampleOS
        (constNet (mkResponse 404 (str "404 Not Found") ContentTypeJSON []))
        exampleLib (str "box") (str "sec") none loggedInWorld).1 = Outcome.exit 1
    ∧ (rotateSecretCmd_Run exampleOS
        (constNet (mkResponse 404 (str "404 Not Found") ContentTypeJSON []))
        exampleLib (str "box") (str "sec") none loggedInWorld).2.stdout
      = insecureWarning ++ str "\n" ++ str "Error parsing json string:  unexpected end of JSON input\n" := by
  decide

/-- C11 (amended): answered with status 404 and an empty body, the commands
that read the result map of `DoPost` and test for the 404 before they decode
the body exit with code 5 (`create-box`, `checkout-secret`, and
`checkin-secret` once it has its lease id), while `renew`, which goes through
`DoPost2`, reports a failed call and exits with code 1. -/
theorem not_found_exit (os : OS) (net : Net) (lib : Lib) (txt : Text) (w : World)
    (response : Response)
    (hurl : ∀ u, net.urlParseErr u = false)
    (hca : GetCACertFile w = [] ∨ ∃ data, osOpen os w.fs (GetCACertFile w) = .ok data)
    (hdo : ∀ req : Request, net.Do req = .ok response)
    (hbody : response.Body = []) (hcode : response.StatusCode = 404) :
    (∀ jsonParams, (createBoxCmd_Run os net jsonParams w).1 = Outcome.exit 5)
    ∧ (∀ flags : CheckoutFlags, ¬ (flags.leaseFile ≠ [] ∧ flags.dontSaveLease = true) →
        (checkoutSecretCmd_Run os net lib flags w).1 = Outcome.exit 5)
    ∧ (∀ leaseId, (checkinPost os net leaseId w).1 = Outcome.exit 5)
    ∧ (∀ tokenFile, (renewCmd_Run os net lib txt tokenFile w).1 = Outcome.exit 1) := by
  obtain ⟨roots, w1, htls, -, -⟩ := tlsSetup_returns os (GetCACertFile w) w hca
  refine ⟨?_, ?_, ?_, ?_⟩
  · intro jsonParams
    have hpost := DoPost_response os net (GetEndPoint w [] (str "1.0") (str "CreateBox"))
      (GetCACertFile w) (AuthTokenKV w) jsonParams (str "application/json") response w w1 roots
      (hurl _) htls (fun req _ => hdo req)
    unfold createBoxCmd_Run
    rw [bind_eq]
    unfold Proc.bind
    rw [hpost]
    simp [hbody, hcode, Proc.pure, retDataStatus, bind_eq, Proc.bind, Println, print, osExit]
  · intro flags hflags
    have hpost := DoPost_response os net (GetEndPoint w [] (str "1.0") (str "CheckoutSecret"))
      (GetCACertFile w) (AuthTokenKV w) (checkoutParamsJSON flags) (str "application/json")
      response w w1 roots (hurl _) htls (fun req _ => hdo req)
    unfold checkoutSecretCmd_Run
    rw [if_neg hflags, bind_eq]
    unfold Proc.bind
    rw [hpost]
    simp [hbody, hcode, Proc.pure, retDataStatus, bind_eq, Proc.bind, Println, print, osExit]
  · intro leaseId
    have hpost := DoPost_response os net (GetEndPoint w [] (str "1.0") (str "CheckinSecret"))
      (GetCACertFile w) (AuthTokenKV w)
      (str "\x7b\"lease_id\":" ++ appendString leaseId ++ str "\x7d") (str "application/json")
      response w w1 roots (hurl _) htls (fun req _ => hdo req)
    unfold checkinPost
    rw [bind_eq]
    unfold Proc.bind
    rw [hpost]
    simp [hbody, hcode, Proc.pure, retDataStatus, bind_eq, Proc.bind, Println, print, osExit]
  · intro tokenFile
    have hpost := DoPost2_response os net (GetEndPoint w [] (str "1.0") (str "Renew"))
      (GetCACertFile w) (AuthTokenKV w) (str "\x7b\x7d") ContentTypeJSON
      (some ({ Token := [], Expiration := [] } : renewAccessToken)) renewAccessToken.decode
      response w w1 roots (hurl _) htls (fun req _ => hdo req)
    unfold renewCmd_Run
    rw [bind_eq]
    unfold Proc.bind
    rw [hpost]
    simp [hcode, Proc.pure, bind_eq, Proc.bind, print, osExit]

set_option maxRecDepth 1000000 in
/-- C11 (amended), at a concrete response: `checkout-secret` answered with a 404
and an empty body exits with code 5. -/
theorem not_found_exit_witness :
    (checkoutSecretCmd_Run exampleOS
        (constNet (mkResponse 404 (str "404 Not Found") ContentTypeJSON [])) exampleLib
        { dontSaveLease := false, leaseFile := [], boxid := str "box", secretid := str "sec",
          version := none, jsonOutput := false } loggedInWorld).1 = Outcome.exit 5 :=
  (not_found_exit exampleOS (constNet (mkResponse 404 (str "404 Not Found") ContentTypeJSON []))
    exampleLib exampleText loggedInWorld
    (mkResponse 404 (str "404 Not Found") ContentTypeJSON [])
    (fun _ => rfl) (Or.inl rfl) (fun _ => rfl) rfl rfl).2.1
    { dontSaveLease := false, leaseFile := [], boxid := str "box", secretid := str "sec",
      version := none, jsonOutput := false } (by decide)

/-! ## C12: a request that is not answered -/

theorem getCredentials_returns (txt : Text) (pre user password : GoString) (w : World) :
    ∃ cred w1, getCredentials txt pre user password w = (Outcome.ret cred, w1) ∧ w1.fs = w.fs := by
  unfold getCredentials
  by_cases hu : user = [] <;> by_cases hp : password = []
  · rw [if_pos hu, if_pos hp]
    exact ⟨_, _, rfl, rfl⟩
  · rw [if_pos hu, if_neg hp]
    exact ⟨_, _, rfl, rfl⟩
  · rw [if_neg hu, if_pos hp]
    exact ⟨_, _, rfl, rfl⟩
  · rw [if_neg hu, if_neg hp]
    exact ⟨_, _, rfl, rfl⟩

theorem checkinLeaseId_of_file (os : OS) (flags : CheckinFlags) (w w1 w2 : World)
    (leaseFile leaseId : GoString)
    (hv : checkinValidate os flags w = (Outcome.ret (Sum.inr leaseFile), w1))
    (hg : GetLeaseId os leaseFile w1 = (Outcome.ret (leaseId, none), w2)) :
    checkinLeaseId os flags w = (Outcome.ret leaseId, w2) := by
  unfold checkinLeaseId
  rw [bind_eq]
  unfold Proc.bind
  rw [hv]
  simp only [bind_eq]
  unfold Proc.bind
  rw [hg]
  rfl

theorem csvRecordsFrom_length (common : CommonSecretInfo) (servers : List SshServerInfo)
    (i : Nat) : (csvRecordsFrom common i servers).length = servers.length := by
  induction servers generalizing i with
  | nil => rfl
  | cons s rest ih => simp [csvRecordsFrom, ih]

theorem csvRecordsFrom_getElem? (common : CommonSecretInfo) (servers : List SshServerInfo)
    (i k : Nat) :
    (csvRecordsFrom common i servers)[k]?
      = servers[k]?.map fun s => generateCsvRecordForServer s common ((i + k : Nat) + 1) := by
  induction servers generalizing i k with
  | nil => simp [csvRecordsFrom]
  | cons s rest ih =>
    cases k with
    | zero => simp [csvRecordsFrom]
    | succ k =>
      simp only [csvRecordsFrom, List.getElem?_cons_succ]
      rw [ih (i + 1) k]
      have : i + 1 + k = i + (k + 1) := by omega
      rw [this]

theorem replaceFirst_of_not_mem (old : Byte) (new : GoString) (n : Nat) (t : GoString)
    (h : old ∉ t) : replaceFirst old new n t = t := by
  induction t generalizing n with
  | nil => cases n <;> rfl
  | cons c t ih =>
    cases n with
    | zero => rfl
    | succ n =>
      have hc : c ≠ old := fun e => h (by simp [e])
      have ht2 : old ∉ t := fun e => h (by simp [e])
      simp [replaceFirst, hc, ih (n + 1) ht2]

theorem stringsReplaceAll_of_not_mem (s : GoString) (old : Byte) (new : GoString)
    (h : old ∉ s) : stringsReplaceAll s old new = s := by
  unfold stringsReplaceAll stringsReplace
  simp [replaceFirst_of_not_mem old new _ s h]

/-- C14: `createCsvRecordsForServers` returns the fixed header of twelve
columns followed by one record per server, in order; the record of the server
at position `k` (from 0) has twelve fields, which are, under the header columns
`box_name` to `expires_at`: the box name, the secret name made from the pattern
and the number `k + 1`, the host, the user, the private key with its double
quotes removed (the private key itself when it has none), the description, the
port in decimal, the passphrase, the lease duration, `true` or `false` for the
exclusive checkout, the tag and the expiry. -/
theorem createCsvRecordsForServers_layout (servers : List SshServerInfo)
    (common : CommonSecretInfo) :
    (createCsvRecordsForServers servers common)[0]?
        = some [str "box_name", str "secret_name", str "host", str "user", str "keyfile",
                str "desc", str "port", str "keypwd", str "lease-duration",
                str "exclusive-checkout", str "tags", str "expires_at"]
    ∧ (createCsvRecordsForServers servers common).length = servers.length + 1
    ∧ (∀ record ∈ createCsvRecordsForServers servers common, record.length = 12)
    ∧ (∀ (k : Nat) (s : SshServerInfo), servers[k]? = some s →
        (createCsvRecordsForServers servers common)[k + 1]?
          = some [common.BoxName,
                  stringsReplace common.SecretNamePattern (B 0x2A) (Itoa ((k : Int) + 1)) 1,
                  s.Server,
                  s.User,
                  stringsReplaceAll s.Private_key (B 0x22) [],
                  common.SecretDescription,
                  formatInt s.Port,
                  s.Passphrase,
                  common.LeaseDuration,
                  (if common.ExclusiveCheckout then str "true" else str "false"),
                  common.Tag,
                  common.SecretExpiry]
        ∧ (B 0x22 ∉ s.Private_key → stringsReplaceAll s.Private_key (B 0x22) [] = s.Private_key))
    := by
  refine ⟨?_, ?_, ?_, ?_⟩
  · simp [createCsvRecordsForServers, createCsvHeaderRecord]
  · simp [createCsvRecordsForServers, csvRecordsFrom_length]
  · intro record hrec
    unfold createCsvRecordsForServers at hrec
    rcases List.mem_cons.mp hrec with h | h
    · rw [h]
      rfl
    · obtain ⟨k, hk⟩ := List.mem_iff_getElem?.mp h
      rw [csvRecordsFrom_getElem?] at hk
      rcases hs : servers[k]? with _ | s
      · rw [hs] at hk
        cases hk
      · rw [hs] at hk
        simp only [Option.map_some', Option.some.injEq] at hk
        rw [← hk]
        rfl
  · intro k s hs
    refine ⟨?_, stringsReplaceAll_of_not_mem _ _ _⟩
    unfold createCsvRecordsForServers
    rw [List.getElem?_cons_succ, csvRecordsFrom_getElem?, hs]
    simp [generateCsvRecordForServer, Itoa, FormatBool]

set_option maxRecDepth 100000 in
/-- C14, at a concrete list: the record of the second of two servers. -/
theorem createCsvRecordsForServers_layout_witness :
    (createCsvRecordsForServers
        [{ SshServerInfo.zero with Server := str "h1", Port := 22 },
         { SshServerInfo.zero with Server := str "h2", Port := 2222 }]
        { BoxName := str "box1", Tag := [], SecretExpiry := [],
          SecretNamePattern := DefaultSecretNamePattern, SecretDescription := [],
          LeaseDuration := [], ExclusiveCheckout := false })[2]?
      = some [str "box1", str "ssh-secret-2", str "h2", [], [], [], str "2222", [], [],
              str "false", [], []] :=
  ((createCsvRecordsForServers_layout
      [{ SshServerInfo.zero with Server := str "h1", Port := 22 },
       { SshServerInfo.zero with Server := str "h2", Port := 2222 }]
      { BoxName := str "box1", Tag := [], SecretExpiry := [],
        SecretNamePattern := DefaultSecretNamePattern, SecretDescription := [],
        LeaseDuration := [], ExclusiveCheckout := false }).2.2.2 1
    { SshServerInfo.zero with Server := str "h2", Port := 2222 } rfl).1

theorem createCsvRecordsForServers_length (servers : List SshServerInfo)
    (common : CommonSecretInfo) :
    (createCsvRecordsForServers servers common).length = servers.length + 1 := by
  simp [createCsvRecordsForServers, csvRecordsFrom_length]

/-! ## C13: the rows of the servers CSV -/

theorem passwordDials_append (l1 l2 : List SshEvent) :
    passwordDials (l1 ++ l2) = passwordDials l1 ++ passwordDials l2 := by
  induction l1 with
  | nil => rfl
  | cons e rest ih => cases e <;> simp [passwordDials, ih]

theorem verifyKeybasedSshAccess_dials (st : Setup) (log : List SshEvent) (s : SshServerInfo) :
    passwordDials (verifyKeybasedSshAccess st log s).2 = passwordDials log := by
  unfold verifyKeybasedSshAccess sshDo
  split
  · rename_i heq
    simp only [Prod.mk.injEq] at heq
    obtain ⟨_, rfl⟩ := heq
    simp [passwordDials_append, passwordDials]
  · rename_i heq
    simp only [Prod.mk.injEq] at heq
    obtain ⟨_, rfl⟩ := heq
    simp [passwordDials_append, passwordDials]

/-- One call of `setupKeybasedSshAccess` makes exactly one password-authenticated
connection, to the server it is called for. -/
theorem setupKeybasedSshAccess_dials (st : Setup) (log : List SshEvent) (s : SshServerInfo) :
    passwordDials (setupKeybasedSshAccess st log s).2
      = passwordDials log ++ [(sshAddr s, s.User, s.Password)] := by
  unfold setupKeybasedSshAccess runCommandOnSshServer sshDo
  split
  · rename_i heq
    simp only [Prod.mk.injEq] at heq
    obtain ⟨_, rfl⟩ := heq
    simp [passwordDials_append, passwordDials]
  · rename_i heq
    simp only [Prod.mk.injEq] at heq
    obtain ⟨_, rfl⟩ := heq
    split
    · rename_i heq
      simp only [Prod.mk.injEq] at heq
      obtain ⟨_, rfl⟩ := heq
      simp [passwordDials_append, passwordDials]
    · rename_i heq
      simp only [Prod.mk.injEq] at heq
      obtain ⟨_, rfl⟩ := heq
      split
      · rename_i heq
        simp only [Prod.mk.injEq] at heq
        obtain ⟨_, rfl⟩ := heq
        simp [passwordDials_append, passwordDials]
      · rename_i heq
        simp only [Prod.mk.injEq] at heq
        obtain ⟨_, rfl⟩ := heq
        split
        · rename_i heq
          have hv := congrArg (fun r => passwordDials r.2) heq
          simp only [verifyKeybasedSshAccess_dials] at hv
          simp [passwordDials_append, passwordDials, ← hv]
        · rename_i heq
          have hv := congrArg (fun r => passwordDials r.2) heq
          simp only [verifyKeybasedSshAccess_dials] at hv
          simp [passwordDials_append, passwordDials, ← hv]

theorem setupKeybasedSshAccess_ok (st : Setup) (hssh : ∀ log, st.ssh log = none)
    (log : List SshEvent) (s : SshServerInfo) :
    (setupKeybasedSshAccess st log s).1 = none := by
  unfold setupKeybasedSshAccess verifyKeybasedSshAccess runCommandOnSshServer sshDo
  simp [hssh]

/-- The second loop returns; it has tried every server of its list once, in
order, and when no SSH step fails every server is successful. -/
theorem setupServers_attempts (st : Setup) (infos : List SshServerInfo) (acc : SetupResult)
    (w : World) :
    ∃ res w1, setupServers st infos acc w = (Outcome.ret res, w1) ∧ w1.fs = w.fs
      ∧ w1.gTokenInfo = w.gTokenInfo
      ∧ passwordDials res.log
          = passwordDials acc.log ++ infos.map (fun s => (sshAddr s, s.User, s.Password))
      ∧ ((∀ log, st.ssh log = none) →
          res.successfulServers = acc.successfulServers ++ infos
            ∧ res.unsuccessfulServers = acc.unsuccessfulServers ∧ w1 = w) := by
  induction infos generalizing acc w with
  | nil => exact ⟨acc, w, rfl, rfl, rfl, by simp, fun _ => ⟨by simp, rfl, rfl⟩⟩
  | cons s rest ih =>
    unfold setupServers
    have hd := setupKeybasedSshAccess_dials st acc.log s
    rcases hr : setupKeybasedSshAccess st acc.log s with ⟨e, log1⟩
    rw [hr] at hd
    simp only at hd
    rcases e with _ | err
    · simp only
      obtain ⟨res, w1, h1, h2, h3, h4, h5⟩ := ih
        { acc with log := log1, successfulServers := acc.successfulServers ++ [s] } w
      refine ⟨res, w1, h1, h2, h3, ?_, fun hssh => ?_⟩
      · rw [h4, hd]
        simp
      · obtain ⟨a, b, c⟩ := h5 hssh
        exact ⟨by rw [a]; simp, b, c⟩
    · simp only [bind_eq]
      unfold Proc.bind
      simp only [print]
      obtain ⟨res, w1, h1, h2, h3, h4, h5⟩ := ih
        { acc with log := log1, unsuccessfulServers := acc.unsuccessfulServers ++ [s] }
        { w with stdout := w.stdout ++ (str "Error occurred while setting up key based access for server "
            ++ s.Server ++ str ". " ++ err.Error
            ++ str ". This server will not be onboarded in PASM vault.\n") }
      refine ⟨res, w1, h1, h2, h3, ?_, fun hssh => ?_⟩
      · rw [h4, hd]
        simp
      · have := setupKeybasedSshAccess_ok st hssh acc.log s
        rw [hr] at this
        cases this

/-- The first loop returns; of rows of four fields it keeps, in order, exactly
those whose port field `strconv.Atoi` accepts, when every key generation
succeeds. -/
theorem readServerInfos_rows (st : Setup) (txt : Text) (rows : List (List GoString))
    (h4 : ∀ r ∈ rows, r.length = 4)
    (hk : ∀ k, ∃ keys, st.generateKeys k = .ok keys)
    (k : Nat) (acc : List SshServerInfo) (w : World) :
    ∃ infos w1, readServerInfos st txt (rows.map .ok) k acc w = (Outcome.ret infos, w1)
      ∧ w1.fs = w.fs ∧ w1.gTokenInfo = w.gTokenInfo
      ∧ infos.map SshServerInfo.login = acc.map SshServerInfo.login ++ rows.filterMap rowServer
      := by
  induction rows generalizing k acc w with
  | nil => exact ⟨acc, w, rfl, rfl, rfl, by simp⟩
  | cons r rest ih =>
    have hrest : ∀ r ∈ rest, r.length = 4 := fun r hr => h4 r (List.mem_cons_of_mem _ hr)
    have hr := h4 r (List.mem_cons_self _ _)
    rcases r with _ | ⟨a, _ | ⟨b, _ | ⟨c, _ | ⟨d, _ | ⟨e, t⟩⟩⟩⟩⟩ <;> simp at hr
    simp only [List.map_cons, readServerInfos, populateServerInfoFromCsvRecord, bind_eq]
    unfold Proc.bind
    rcases hp : parseInt64 b with _ | port
    · have hrow : rowServer [a, b, c, d] = none := by simp [rowServer, hp]
      simp only [List.getElem?_cons_succ, List.getElem?_cons_zero, Atoi, hp, Proc.pure, bind_eq,
        print]
      obtain ⟨infos, w1, h1, h2, h3, h5⟩ := ih hrest k acc
        { w with stdout := w.stdout ++ (str "Error parsing record. "
          ++ (GoError.library (str "strconv.Atoi: parsing " ++ txt.quote b ++ str ": "
              ++ (if atoiSyntax b then str "value out of range" else str "invalid syntax"))).Error
          ++ str ". This row will be skipped from processing.\n") }
      refine ⟨infos, w1, h1, h2, h3, ?_⟩
      rw [h5, List.filterMap_cons, hrow]
    · have hrow : rowServer [a, b, c, d] = some (a, port, c, d) := by simp [rowServer, hp]
      obtain ⟨keys, hkeys⟩ := hk k
      simp only [List.getElem?_cons_succ, List.getElem?_cons_zero, Atoi, hp, Proc.pure, hkeys]
      obtain ⟨infos, w1, h1, h2, h3, h5⟩ := ih hrest (k + 1)
        (acc ++ [{ Server := a, Port := port, User := c, Password := d, Private_key := keys.1,
                   Public_key := keys.2.1, Passphrase := keys.2.2 }]) w
      refine ⟨infos, w1, h1, h2, h3, ?_⟩
      rw [h5, List.filterMap_cons, hrow]
      simp [SshServerInfo.login]

/-- The first loop gives the server of the `i`-th row it keeps the keys of the
`i`-th key generation. -/
theorem readServerInfos_keys (st : Setup) (txt : Text) (rows : List (List GoString))
    (h4 : ∀ r ∈ rows, r.length = 4)
    (hk : ∀ k, ∃ keys, st.generateKeys k = .ok keys)
    (k : Nat) (acc : List SshServerInfo) (w : World) :
    ∃ infos w1 new, readServerInfos st txt (rows.map .ok) k acc w = (Outcome.ret infos, w1)
      ∧ infos = acc ++ new
      ∧ ∀ (i : Nat) (s : SshServerInfo), new[i]? = some s →
          ∃ keys, st.generateKeys (k + i) = .ok keys ∧ s.Private_key = keys.1
            ∧ s.Public_key = keys.2.1 ∧ s.Passphrase = keys.2.2 := by
  induction rows generalizing k acc w with
  | nil => exact ⟨acc, w, [], rfl, by simp, fun i s h => by simp at h⟩
  | cons r rest ih =>
    have hrest : ∀ r ∈ rest, r.length = 4 := fun r hr => h4 r (List.mem_cons_of_mem _ hr)
    have hr := h4 r (List.mem_cons_self _ _)
    rcases r with _ | ⟨a, _ | ⟨b, _ | ⟨c, _ | ⟨d, _ | ⟨e, t⟩⟩⟩⟩⟩ <;> simp at hr
    simp only [List.map_cons, readServerInfos, populateServerInfoFromCsvRecord, bind_eq]
    unfold Proc.bind
    rcases hp : parseInt64 b with _ | port
    · simp only [List.getElem?_cons_succ, List.getElem?_cons_zero, Atoi, hp, Proc.pure, bind_eq,
        print]
      exact ih hrest k acc _
    · obtain ⟨keys, hkeys⟩ := hk k
      simp only [List.getElem?_cons_succ, List.getElem?_cons_zero, Atoi, hp, Proc.pure, hkeys]
      obtain ⟨infos, w1, new, h1, h2, h3⟩ := ih hrest (k + 1)
        (acc ++ [{ Server := a, Port := port, User := c, Password := d, Private_key := keys.1,
                   Public_key := keys.2.1, Passphrase := keys.2.2 }]) w
      refine ⟨infos, w1,
        ({ Server := a, Port := port, User := c, Password := d, Private_key := keys.1,
           Public_key := keys.2.1, Passphrase := keys.2.2 } : SshServerInfo) :: new,
        h1, by rw [h2]; simp, fun i s hi => ?_⟩
      cases i with
      | zero =>
        simp only [List.getElem?_cons_zero, Option.some.injEq] at hi
        subst hi
        exact ⟨keys, hkeys, rfl, rfl, rfl⟩
      | succ j =>
        simp only [List.getElem?_cons_succ] at hi
        obtain ⟨keys2, g1, g2⟩ := h3 j s hi
        exact ⟨keys2, by rw [← g1]; congr 1; omega, g2⟩

/-- With servers to stage, a temporary file that can be made and written:
`writeCsvToDisk` leaves in it the records written one after the other, the
header first, and the upload runs on that disk, with the removal deferred. -/
theorem stageAndUpload_staged (os : OS) (net : Net) (st : Setup) (txt : Text)
    (servers : List SshServerInfo) (common : CommonSecretInfo) (name : GoString) (w : World)
    (hne : servers ≠ []) (htemp : st.createTemp = .ok name) (hwrite : os.writeErr name = none) :
    writeCsvToDisk os st (createCsvRecordsForServers servers common) w
        = (Outcome.ret (name, none),
            { w with
              fs := (w.fs.writeFile name []).writeFile name
                      (csvRecord createCsvHeaderRecord
                        ++ ((csvRecordsFrom common 0 servers).map csvRecord).flatten) })
    ∧ stageAndUpload os net st txt servers common w
        = withDefer (osRemove st name)
            (uploadCsv os net st txt name SecretType >>= fun _ =>
              Println (str "CSV upload for servers for which key based SSH access setup was "
                ++ str "successful. Check status using 'get-csv-import-status' command."))
            { w with
              fs := (w.fs.writeFile name []).writeFile name
                      (csvRecord createCsvHeaderRecord
                        ++ ((csvRecordsFrom common 0 servers).map csvRecord).flatten) } := by
  have hw : writeCsvToDisk os st (createCsvRecordsForServers servers common) w
      = (Outcome.ret (name, none),
          { w with
            fs := (w.fs.writeFile name []).writeFile name
                    (csvRecord createCsvHeaderRecord
                      ++ ((csvRecordsFrom common 0 servers).map csvRecord).flatten) }) := by
    unfold writeCsvToDisk
    simp only [htemp, osWrite, hwrite, FS.writeFile, if_true, Option.getD_some, List.nil_append,
      csvWriteAll, createCsvRecordsForServers, List.map_cons, List.flatten_cons]
  refine ⟨hw, ?_⟩
  have hlen : servers.length > 0 := by
    cases servers with
    | nil => exact absurd rfl hne
    | cons s rest => simp
  unfold stageAndUpload
  rw [if_pos hlen, bind_eq]
  unfold Proc.bind
  rw [hw]

theorem printUnsuccessfulServerList_nil (w : World) :
    printUnsuccessfulServerList [] w = (Outcome.ret (), w) := by
  simp [printUnsuccessfulServerList, Proc.pure]

/-- C13: for a servers CSV whose rows have four fields, when every key
generation succeeds, `setup-ssh-proxy` skips exactly the rows whose port field
is not a decimal integer (`strconv.Atoi` rejects it) and tries to set up every
other row's server once, in input order: the first loop keeps those rows, the
second loop makes one password-authenticated connection for each, and the
command goes on to stage the servers that succeeded.  When no SSH step fails,
all of them succeed, and when there is one at least and the temporary file can
be made and written, the command writes the output CSV to the temporary file
before it uploads it: the header record and then one record for each kept row,
in order, each as `csv.Writer` writes it; the upload and the deferred removal
run on the disk that holds this file.  In particular, for three rows of which
the second has a port that is not a number, the first and the third are tried
and the file written is the header followed by exactly two data records, that
of the first row with secret number 1 and that of the third with secret number
2.  The header is written as the line
`box_name,secret_name,host,user,keyfile,desc,port,keypwd,lease-duration,exclusive-checkout,tags,expires_at`. -/
theorem setupSSHProxy_rows (os : OS) (net : Net) (st : Setup) (txt : Text)
    (flags : SetupProxyFlags) (common : CommonSecretInfo) (content : GoString)
    (rows : List (List GoString)) (w : World)
    (hopen : osOpen os w.fs flags.serversCsv = .ok content)
    (hflags : parseCommonSecretInfoFromCommandFlags flags = .ok common)
    (hread : st.csvRead content = rows.map .ok)
    (h4 : ∀ r ∈ rows, r.length = 4)
    (hk : ∀ k, ∃ keys, st.generateKeys k = .ok keys) :
    ∃ (infos : List SshServerInfo) (res : SetupResult) (w1 w2 : World),
      readServerInfos st txt (rows.map .ok) 0 [] w = (Outcome.ret infos, w1)
      ∧ infos.map SshServerInfo.login = rows.filterMap rowServer
      ∧ (∀ (i : Nat) (s : SshServerInfo), infos[i]? = some s →
          ∃ keys, st.generateKeys i = .ok keys ∧ s.Private_key = keys.1
            ∧ s.Public_key = keys.2.1 ∧ s.Passphrase = keys.2.2)
      ∧ setupServers st infos { log := [], successfulServers := [], unsuccessfulServers := [] }
          w1 = (Outcome.ret res, w2)
      ∧ passwordDials res.log = infos.map (fun s => (sshAddr s, s.User, s.Password))
      ∧ setupSSHProxy os net st txt flags w
          = (printUnsuccessfulServerList res.unsuccessfulServers >>= fun _ =>
              stageAndUpload os net st txt res.successfulServers common) w2
      ∧ ((∀ log, st.ssh log = none) →
          res.successfulServers = infos ∧ res.unsuccessfulServers = []
            ∧ (createCsvRecordsForServers res.successfulServers common).length
                = (rows.filterMap rowServer).length + 1
            ∧ (∀ name, st.createTemp = .ok name → os.writeErr name = none → infos ≠ [] →
                ∃ w3, writeCsvToDisk os st (createCsvRecordsForServers infos common) w2
                    = (Outcome.ret (name, none), w3)
                  ∧ w3.fs.files name
                      = some (csvRecord createCsvHeaderRecord
                          ++ ((csvRecordsFrom common 0 infos).map csvRecord).flatten)
                  ∧ setupSSHProxy os net st txt flags w
                      = withDefer (osRemove st name)
                          (uploadCsv os net st txt name SecretType >>= fun _ =>
                            Println (str "CSV upload for servers for which key based SSH access setup was "
                              ++ str "successful. Check status using 'get-csv-import-status' command."))
                          w3)
            ∧ ∀ r1 r2 r3 x1 x3, rows = [r1, r2, r3] → rowServer r1 = some x1 →
                rowServer r2 = none → rowServer r3 = some x3 →
                infos.map SshServerInfo.login = [x1, x3]
                  ∧ (createCsvRecordsForServers res.successfulServers common).length = 3
                  ∧ ∃ s1 s3, infos = [s1, s3] ∧ s1.login = x1 ∧ s3.login = x3
                    ∧ ∀ name, st.createTemp = .ok name → os.writeErr name = none →
                      ∃ w3, writeCsvToDisk os st (createCsvRecordsForServers infos common) w2
                          = (Outcome.ret (name, none), w3)
                        ∧ w3.fs.files name
                            = some (csvRecord createCsvHeaderRecord
                                ++ csvRecord (generateCsvRecordForServer s1 common 1)
                                ++ csvRecord (generateCsvRecordForServer s3 common 2))
                        ∧ setupSSHProxy os net st txt flags w
                            = withDefer (osRemove st name)
                                (uploadCsv os net st txt name SecretType >>= fun _ =>
                                  Println (str "CSV upload for servers for which key based SSH access setup was "
                                    ++ str "successful. Check status using 'get-csv-import-status' command."))
                                w3)
      ∧ csvRecord createCsvHeaderRecord
          = str "box_name,secret_name,host,user,keyfile,desc,port,keypwd,lease-duration,exclusive-checkout,tags,expires_at\n"
      := by
  obtain ⟨infos, w1, h1, -, -, h5⟩ := readServerInfos_rows st txt rows h4 hk 0 [] w
  obtain ⟨res, w2, g1, -, -, g4, g5⟩ := setupServers_attempts st infos
    { log := [], successfulServers := [], unsuccessfulServers := [] } w1
  simp only [List.map_nil, List.nil_append] at h5
  have hrun : setupSSHProxy os net st txt flags w
      = (printUnsuccessfulServerList res.unsuccessfulServers >>= fun _ =>
          stageAndUpload os net st txt res.successfulServers common) w2 := by
    unfold setupSSHProxy
    simp only [hopen, hflags, hread, bind_eq]
    unfold Proc.bind
    simp only [h1]
    rw [g1]
  have hkeys : ∀ (i : Nat) (s : SshServerInfo), infos[i]? = some s →
      ∃ keys, st.generateKeys i = .ok keys ∧ s.Private_key = keys.1
        ∧ s.Public_key = keys.2.1 ∧ s.Passphrase = keys.2.2 := by
    obtain ⟨infos2, w12, new, k1, k2, k3⟩ := readServerInfos_keys st txt rows h4 hk 0 [] w
    rw [h1] at k1
    simp only [Prod.mk.injEq, Outcome.ret.injEq] at k1
    rw [← k1.1, List.nil_append] at k2
    intro i s hi
    rw [k2] at hi
    simpa using k3 i s hi
  refine ⟨infos, res, w1, w2, h1, h5, hkeys, g1, ?_, hrun, fun hssh => ?_, by decide⟩
  · simpa [passwordDials] using g4
  · obtain ⟨a, b, -⟩ := g5 hssh
    simp only [List.nil_append] at a b
    have hlen : (createCsvRecordsForServers res.successfulServers common).length
        = (rows.filterMap rowServer).length + 1 := by
      rw [(createCsvRecordsForServers_length res.successfulServers common), a, ← h5,
        List.length_map]
    have hstage : ∀ name, st.createTemp = .ok name → os.writeErr name = none → infos ≠ [] →
        ∃ w3, writeCsvToDisk os st (createCsvRecordsForServers infos common) w2
            = (Outcome.ret (name, none), w3)
          ∧ w3.fs.files name
              = some (csvRecord createCsvHeaderRecord
                  ++ ((csvRecordsFrom common 0 infos).map csvRecord).flatten)
          ∧ setupSSHProxy os net st txt flags w
              = withDefer (osRemove st name)
                  (uploadCsv os net st txt name SecretType >>= fun _ =>
                    Println (str "CSV upload for servers for which key based SSH access setup was "
                      ++ str "successful. Check status using 'get-csv-import-status' command."))
                  w3 := by
      intro name htemp hwrite hne
      obtain ⟨s1, s2⟩ := stageAndUpload_staged os net st txt infos common name w2 hne htemp
        hwrite
      refine ⟨_, s1, by simp [FS.writeFile], ?_⟩
      rw [hrun, bind_eq]
      unfold Proc.bind
      rw [b, printUnsuccessfulServerList_nil, a]
      exact s2
    refine ⟨a, b, hlen, hstage, fun r1 r2 r3 x1 x3 hrows e1 e2 e3 => ?_⟩
    have hf : rows.filterMap rowServer = [x1, x3] := by
      rw [hrows]
      simp [List.filterMap_cons, e1, e2, e3]
    have hlogin : infos.map SshServerInfo.login = [x1, x3] := by rw [h5, hf]
    refine ⟨hlogin, by rw [hlen, hf]; rfl, ?_⟩
    rcases infos with _ | ⟨s1, _ | ⟨s3, _ | ⟨s4, rest⟩⟩⟩
    · simp at hlogin
    · simp at hlogin
    · simp only [List.map_cons, List.map_nil, List.cons.injEq, and_true] at hlogin
      refine ⟨s1, s3, rfl, hlogin.1, hlogin.2, fun name htemp hwrite => ?_⟩
      obtain ⟨w3, t1, t2, t3⟩ := hstage name htemp hwrite (by simp)
      refine ⟨w3, t1, ?_, t3⟩
      rw [t2]
      simp [csvRecordsFrom]
    · simp at hlogin

set_option maxRecDepth 1000000 in
/-- C13, at the three rows `h1,22,u1,p1`, `h2,ssh,u2,p2` and `h3,2222,u3,p3`:
the servers `h1` and `h3` are tried, in this order, and the file staged holds
the header and the two records of `h1` and `h3`.  On a network that refuses the
connection the file is what the command leaves on disk, and a server that
answers with the body of the request it got shows that the body uploaded is
this file followed by the secret type. -/
theorem setupSSHProxy_rows_witness :
    (∃ (infos : List SshServerInfo) (res : SetupResult) (w3 : World),
      infos.map SshServerInfo.login
        = [(str "h1", 22, str "u1", str "p1"), (str "h3", 2222, str "u3", str "p3")]
      ∧ passwordDials res.log = infos.map (fun s => (sshAddr s, s.User, s.Password))
      ∧ setupSSHProxy exampleOS downNet exampleSetup exampleText exampleSetupFlags setupWorld
          = withDefer (osRemove exampleSetup (str "/tmp/ssh-secret-csv1"))
              (uploadCsv exampleOS downNet exampleSetup exampleText (str "/tmp/ssh-secret-csv1")
                  SecretType >>= fun _ =>
                Println (str "CSV upload for servers for which key based SSH access setup was "
                  ++ str "successful. Check status using 'get-csv-import-status' command."))
              w3
      ∧ w3.fs.files (str "/tmp/ssh-secret-csv1")
          = some (str ("box_name,secret_name,host,user,keyfile,desc,port,keypwd,lease-duration,"
              ++ "exclusive-checkout,tags,expires_at\n"
              ++ "box1,ssh-secret-1,h1,u1,priv0,,22,pass0,,false,,\n"
              ++ "box1,ssh-secret-2,h3,u3,priv1,,2222,pass1,,false,,\n")))
    ∧ (setupSSHProxy exampleOS downNet exampleSetup exampleText exampleSetupFlags
        setupWorld).2.fs.files (str "/tmp/ssh-secret-csv1")
      = some (str ("box_name,secret_name,host,user,keyfile,desc,port,keypwd,lease-duration,"
          ++ "exclusive-checkout,tags,expires_at\n"
          ++ "box1,ssh-secret-1,h1,u1,priv0,,22,pass0,,false,,\n"
          ++ "box1,ssh-secret-2,h3,u3,priv1,,2222,pass1,,false,,\n"))
    ∧ (setupSSHProxy exampleOS echoNet exampleSetup exampleText exampleSetupFlags
        setupWorld).2.stdout
      = str "Error parsing record. strconv.Atoi: parsing ssh: invalid syntax. "
        ++ str "This row will be skipped from processing.\n"
        ++ insecureWarning ++ str "\n" ++ str "\n"
        ++ str ("box_name,secret_name,host,user,keyfile,desc,port,keypwd,lease-duration,"
          ++ "exclusive-checkout,tags,expires_at\n"
          ++ "box1,ssh-secret-1,h1,u1,priv0,,22,pass0,,false,,\n"
          ++ "box1,ssh-secret-2,h3,u3,priv1,,2222,pass1,,false,,\n")
        ++ SecretType ++ str "\n" ++ str "\n" := by
  refine ⟨?_, by decide, by decide⟩
  obtain ⟨infos, res, w1, w2, -, -, hkeys, -, h4, -, h6, -⟩ :=
    setupSSHProxy_rows exampleOS downNet exampleSetup exampleText exampleSetupFlags
      { BoxName := str "box1", Tag := [], SecretExpiry := [],
        SecretNamePattern := DefaultSecretNamePattern, SecretDescription := [],
        LeaseDuration := [], ExclusiveCheckout := false }
      (str "h1,22,u1,p1\nh2,ssh,u2,p2\nh3,2222,u3,p3\n")
      [[str "h1", str "22", str "u1", str "p1"], [str "h2", str "ssh", str "u2", str "p2"],
       [str "h3", str "2222", str "u3", str "p3"]]
      setupWorld rfl rfl rfl (by decide) (fun k => ⟨_, rfl⟩)
  obtain ⟨-, -, -, -, h7⟩ := h6 (fun _ => rfl)
  obtain ⟨h8, -, s1, s3, hinfos, hs1, hs3, h9⟩ := h7 _ _ _ (str "h1", 22, str "u1", str "p1")
    (str "h3", 2222, str "u3", str "p3") rfl (by decide) (by decide) (by decide)
  obtain ⟨w3, -, hfile, hrun⟩ := h9 (str "/tmp/ssh-secret-csv1") rfl rfl
  refine ⟨infos, res, w3, h8, h4, hrun, ?_⟩
  obtain ⟨k1, e1, a1, b1, c1⟩ := hkeys 0 s1 (by rw [hinfos]; rfl)
  obtain ⟨k3, e3, a3, b3, c3⟩ := hkeys 1 s3 (by rw [hinfos]; rfl)
  have f1 : k1 = (str "priv0", str "pub0", str "pass0") := by
    have : Except.ok k1 = (Except.ok (str "priv0", str "pub0", str "pass0") :
        Except GoError (GoString × GoString × GoString)) := e1.symm.trans rfl
    exact Except.ok.inj this
  have f3 : k3 = (str "priv1", str "pub1", str "pass1") := by
    have : Except.ok k3 = (Except.ok (str "priv1", str "pub1", str "pass1") :
        Except GoError (GoString × GoString × GoString)) := e3.symm.trans rfl
    exact Except.ok.inj this
  subst f1 f3
  have g1 : s1 =
      { Server := str "h1", Port := 22, User := str "u1", Password := str "p1",
        Private_key := str "priv0", Public_key := str "pub0", Passphrase := str "pass0" } := by
    cases s1
    simp only [SshServerInfo.login, Prod.mk.injEq] at hs1 a1 b1 c1
    simp only [SshServerInfo.mk.injEq]
    exact ⟨hs1.1, hs1.2.1, hs1.2.2.1, hs1.2.2.2, a1, b1, c1⟩
  have g3 : s3 =
      { Server := str "h3", Port := 2222, User := str "u3", Password := str "p3",
        Private_key := str "priv1", Public_key := str "pub1", Passphrase := str "pass1" } := by
    cases s3
    simp only [SshServerInfo.login, Prod.mk.injEq] at hs3 a3 b3 c3
    simp only [SshServerInfo.mk.injEq]
    exact ⟨hs3.1, hs3.2.1, hs3.2.2.1, hs3.2.2.2, a3, b3, c3⟩
  rw [hfile, g1, g3]
  decide

/-! ## C15: the secret names of a batch -/

theorem replaceFirst_one_split (old : Byte) (s : GoString) (h : old ∈ s) :
    ∃ pre post, s = pre ++ old :: post ∧ old ∉ pre
      ∧ ∀ new, replaceFirst old new 1 s = pre ++ new ++ post := by
  induction s with
  | nil => cases h
  | cons c t ih =>
    by_cases hc : c = old
    · subst hc
      exact ⟨[], t, rfl, by simp, fun new => by simp [replaceFirst]⟩
    · have ht : old ∈ t := by
        rcases List.mem_cons.mp h with e | e
        · exact absurd e.symm hc
        · exact e
      obtain ⟨pre, post, hs, hpre, hrep⟩ := ih ht
      refine ⟨c :: pre, post, by rw [hs]; rfl, ?_, fun new => ?_⟩
      · intro hm
        rcases List.mem_cons.mp hm with e | e
        · exact hc e.symm
        · exact hpre e
      · simp [replaceFirst, hc, hrep new]

/-- The secret name in the record of the server at position `k` (from 0) of a
staged CSV: the second field of the record after the header. -/
theorem secretName_eq (servers : List SshServerInfo) (common : CommonSecretInfo) (k : Nat)
    (s : SshServerInfo) (hs : servers[k]? = some s) :
    ((createCsvRecordsForServers servers common)[k + 1]?.bind fun record => record[1]?)
      = some (stringsReplace common.SecretNamePattern (B 0x2A) (formatInt ((k : Int) + 1)) 1) := by
  unfold createCsvRecordsForServers
  rw [List.getElem?_cons_succ, csvRecordsFrom_getElem?, hs]
  simp [generateCsvRecordForServer, Itoa]

set_option maxRecDepth 100000 in
/-- C15 (as stated) fails: the pattern `ssh-secret`, which has no `*`, is
accepted, and both servers of a batch of two are given the secret name
`ssh-secret`. -/
theorem secret_names_counterexample :
    (match parseCommonSecretInfoFromCommandFlags
        { exampleSetupFlags with secretNamePattern := some (str "ssh-secret") } with
      | .ok common =>
        some ((createCsvRecordsForServers
          [{ SshServerInfo.zero with Server := str "h1", Port := 22 },
           { SshServerInfo.zero with Server := str "h2", Port := 22 }] common).map
            fun record => record[1]?)
      | .error _ => none)
      = some [some (str "secret_name"), some (str "ssh-secret"), some (str "ssh-secret")] := by
  decide

/-- C15 (amended): a pattern accepted by
`parseCommonSecretInfoFromCommandFlags` has at most one `*`.  When it has one,
the server at position `k` (from 0) of a batch is given the secret name in
which that `*` is replaced by the decimal numeral of `k + 1`, and the names of
different servers of the batch are different.  When it has none, which is
accepted too, every server is given the pattern itself as its name. -/
theorem secret_names (flags : SetupProxyFlags) (common : CommonSecretInfo)
    (servers : List SshServerInfo)
    (hparse : parseCommonSecretInfoFromCommandFlags flags = .ok common) :
    stringsCount common.SecretNamePattern (B 0x2A) ≤ 1
    ∧ (stringsCount common.SecretNamePattern (B 0x2A) = 1 →
        (∃ pre post, common.SecretNamePattern = pre ++ B 0x2A :: post ∧ B 0x2A ∉ pre
            ∧ B 0x2A ∉ post
            ∧ ∀ (k : Nat) (s : SshServerInfo), servers[k]? = some s →
                ((createCsvRecordsForServers servers common)[k + 1]?.bind
                    fun record => record[1]?)
                  = some (pre ++ formatInt ((k : Int) + 1) ++ post))
        ∧ ∀ (i j : Nat) (si sj : SshServerInfo), servers[i]? = some si → servers[j]? = some sj →
            i ≠ j →
            ((createCsvRecordsForServers servers common)[i + 1]?.bind fun record => record[1]?)
              ≠ ((createCsvRecordsForServers servers common)[j + 1]?.bind
                  fun record => record[1]?))
    ∧ (stringsCount common.SecretNamePattern (B 0x2A) = 0 →
        ∀ (k : Nat) (s : SshServerInfo), servers[k]? = some s →
          ((createCsvRecordsForServers servers common)[k + 1]?.bind fun record => record[1]?)
            = some common.SecretNamePattern) := by
  have hcount : stringsCount common.SecretNamePattern (B 0x2A) ≤ 1 := by
    unfold parseCommonSecretInfoFromCommandFlags at hparse
    rcases hp : flags.secretNamePattern with _ | p
    · rw [hp] at hparse
      simp only [Except.ok.injEq] at hparse
      rw [← hparse]
      show stringsCount DefaultSecretNamePattern (B 0x2A) ≤ 1
      decide
    · rw [hp] at hparse
      simp only at hparse
      by_cases hgt : stringsCount p (B 0x2A) > 1
      · rw [if_pos hgt] at hparse
        cases hparse
      · rw [if_neg hgt] at hparse
        simp only [Except.ok.injEq] at hparse
        rw [← hparse]
        exact Nat.le_of_not_gt hgt
  have hsplit : stringsCount common.SecretNamePattern (B 0x2A) = 1 →
      ∃ pre post, common.SecretNamePattern = pre ++ B 0x2A :: post ∧ B 0x2A ∉ pre
        ∧ B 0x2A ∉ post
        ∧ ∀ new, stringsReplace common.SecretNamePattern (B 0x2A) new 1 = pre ++ new ++ post := by
    intro h1
    have hmem : B 0x2A ∈ common.SecretNamePattern := by
      apply List.count_pos_iff.mp
      unfold stringsCount at h1
      omega
    obtain ⟨pre, post, hs, hpre, hrep⟩ := replaceFirst_one_split _ _ hmem
    refine ⟨pre, post, hs, hpre, ?_, fun new => ?_⟩
    · intro hpost
      unfold stringsCount at h1
      rw [hs, List.count_append, List.count_cons_self] at h1
      have := List.count_pos_iff.mpr hpost
      omega
    · unfold stringsReplace
      simp only [show ¬ ((1 : Int) < 0) by decide, if_false]
      exact hrep new
  refine ⟨hcount, fun h1 => ?_, fun h0 k s hs => ?_⟩
  · obtain ⟨pre, post, hs, hpre, hpost, hrep⟩ := hsplit h1
    refine ⟨⟨pre, post, hs, hpre, hpost, fun k s hk => ?_⟩, fun i j si sj hi hj hij heq => ?_⟩
    · rw [secretName_eq servers common k s hk, hrep]
    · rw [secretName_eq servers common i si hi, secretName_eq servers common j sj hj, hrep, hrep]
        at heq
      have h2 := List.append_cancel_right (Option.some.inj heq)
      have h3 := formatInt_injective _ _ (List.append_cancel_left h2)
      omega
  · rw [secretName_eq servers common k s hs]
    unfold stringsReplace
    simp only [show ¬ ((1 : Int) < 0) by decide, if_false]
    rw [replaceFirst_of_not_mem]
    intro hmem
    have := List.count_pos_iff.mpr hmem
    unfold stringsCount at h0
    omega

set_option maxRecDepth 100000 in
/-- C15 (amended), for the default pattern and a batch of two servers: the
pattern has one `*` and the two secret names are different. -/
theorem secret_names_witness :
    ((createCsvRecordsForServers
        [{ SshServerInfo.zero with Server := str "h1", Port := 22 },
         { SshServerInfo.zero with Server := str "h2", Port := 22 }]
        { BoxName := str "box1", Tag := [], SecretExpiry := [],
          SecretNamePattern := DefaultSecretNamePattern, SecretDescription := [],
          LeaseDuration := [], ExclusiveCheckout := false })[0 + 1]?.bind
        fun record => record[1]?)
      ≠ ((createCsvRecordsForServers
        [{ SshServerInfo.zero with Server := str "h1", Port := 22 },
         { SshServerInfo.zero with Server := str "h2", Port := 22 }]
        { BoxName := str "box1", Tag := [], SecretExpiry := [],
          SecretNamePattern := DefaultSecretNamePattern, SecretDescription := [],
          LeaseDuration := [], ExclusiveCheckout := false })[1 + 1]?.bind
        fun record => record[1]?) :=
  ((secret_names exampleSetupFlags
      { BoxName := str "box1", Tag := [], SecretExpiry := [],
        SecretNamePattern := DefaultSecretNamePattern, SecretDescription := [],
        LeaseDuration := [], ExclusiveCheckout := false }
      [{ SshServerInfo.zero with Server := str "h1", Port := 22 },
       { SshServerInfo.zero with Server := str "h2", Port := 22 }] rfl).2.1 (by decide)).2
    0 1 _ _ rfl rfl (by decide)

/-! ## C16: the removal of the key after a failed verification -/

/-- When the password session and the two commands that install the key
succeed and the verification with the key fails, `setupKeybasedSshAccess` runs
one more command on the password session, `sed -i.bak '/^<public key>/d'`,
and returns the verification error whatever the result of that command is. -/
theorem setupKeybasedSshAccess_verify_failure (st : Setup) (log : List SshEvent)
    (serverInfo : SshServerInfo) (verifyErr : GoError)
    (hdial : st.ssh (log ++ [SshEvent.dialPassword (sshAddr serverInfo) serverInfo.User
      serverInfo.Password]) = none)
    (hmkdir : st.ssh (log ++ [SshEvent.dialPassword (sshAddr serverInfo) serverInfo.User
        serverInfo.Password]
      ++ [SshEvent.run (sshAddr serverInfo)
        (str "mkdir -p " ++ SshKeysDirectory ++ str " && chmod 700 " ++ SshKeysDirectory)])
      = none)
    (hecho : st.ssh (log ++ [SshEvent.dialPassword (sshAddr serverInfo) serverInfo.User
        serverInfo.Password]
      ++ [SshEvent.run (sshAddr serverInfo)
        (str "mkdir -p " ++ SshKeysDirectory ++ str " && chmod 700 " ++ SshKeysDirectory)]
      ++ [SshEvent.run (sshAddr serverInfo)
        (str "echo \"" ++ serverInfo.Public_key ++ str "\" >> " ++ SshKeysFile
          ++ str " && chmod 600 " ++ SshKeysFile)]) = none)
    (hverify : (verifyKeybasedSshAccess st
      (log ++ [SshEvent.dialPassword (sshAddr serverInfo) serverInfo.User serverInfo.Password]
        ++ [SshEvent.run (sshAddr serverInfo)
          (str "mkdir -p " ++ SshKeysDirectory ++ str " && chmod 700 " ++ SshKeysDirectory)]
        ++ [SshEvent.run (sshAddr serverInfo)
          (str "echo \"" ++ serverInfo.Public_key ++ str "\" >> " ++ SshKeysFile
            ++ str " && chmod 600 " ++ SshKeysFile)]) serverInfo).1 = some verifyErr) :
    setupKeybasedSshAccess st log serverInfo
      = (some verifyErr,
          (verifyKeybasedSshAccess st
            (log ++ [SshEvent.dialPassword (sshAddr serverInfo) serverInfo.User
                serverInfo.Password]
              ++ [SshEvent.run (sshAddr serverInfo)
                (str "mkdir -p " ++ SshKeysDirectory ++ str " && chmod 700 "
                  ++ SshKeysDirectory)]
              ++ [SshEvent.run (sshAddr serverInfo)
                (str "echo \"" ++ serverInfo.Public_key ++ str "\" >> " ++ SshKeysFile
                  ++ str " && chmod 600 " ++ SshKeysFile)]) serverInfo).2
            ++ [SshEvent.run (sshAddr serverInfo)
                (str "sed -i.bak '/^" ++ serverInfo.Public_key ++ str "/d'")]) := by
  unfold setupKeybasedSshAccess runCommandOnSshServer sshDo
  simp only [hdial, hmkdir, hecho]
  rcases hv : verifyKeybasedSshAccess st
      (log ++ [SshEvent.dialPassword (sshAddr serverInfo) serverInfo.User serverInfo.Password]
        ++ [SshEvent.run (sshAddr serverInfo)
          (str "mkdir -p " ++ SshKeysDirectory ++ str " && chmod 700 " ++ SshKeysDirectory)]
        ++ [SshEvent.run (sshAddr serverInfo)
          (str "echo \"" ++ serverInfo.Public_key ++ str "\" >> " ++ SshKeysFile
            ++ str " && chmod 600 " ++ SshKeysFile)]) serverInfo with ⟨e, log4⟩
  rw [hv] at hverify
  simp only at hverify
  subst hverify
  rfl

set_option maxRecDepth 1000000 in
/-- C16 fails on the code: for a server that refuses the key, the command
issued after the failed verification is `sed -i.bak '/^<public key>/d'` and
nothing more: it names no file, so `~/.ssh/authorized_keys` is not its target.
The verification error is returned, and the commands that installed the key
did name the file. -/
theorem setupKeybasedSshAccess_removal_command :
    setupKeybasedSshAccess refusingSetup []
        { Server := str "h1", Port := 22, User := str "u1", Password := str "p1",
          Private_key := str "priv", Public_key := str "ssh-rsa AAAA", Passphrase := str "pass" }
      = (some (GoError.library (str "ssh: handshake failed: unable to authenticate")),
          [SshEvent.dialPassword (str "h1:22") (str "u1") (str "p1"),
           SshEvent.run (str "h1:22") (str "mkdir -p ~/.ssh && chmod 700 ~/.ssh"),
           SshEvent.run (str "h1:22")
            (str "echo \"ssh-rsa AAAA\" >> ~/.ssh/authorized_keys && chmod 600 ~/.ssh/authorized_keys"),
           SshEvent.dialKey (str "h1:22") (str "u1") (str "priv") (str "pass"),
           SshEvent.run (str "h1:22") (str "sed -i.bak '/^ssh-rsa AAAA/d'")])
    ∧ ¬ (SshKeysFile <:+: str "sed -i.bak '/^ssh-rsa AAAA/d'")
    ∧ SshKeysFile = str "~/.ssh/authorized_keys" := by
  decide

/-! ## C17: the temporary file of the staged CSV -/

set_option maxRecDepth 1000000 in
/-- C17 fails on the code: when the upload is answered with an error payload,
`uploadCsv` ends the process with `os.Exit(3)`, the deferred `os.Remove` does
not run, and the temporary file stays on disk with the staged CSV in it.  The
same happens for a 404 with an empty body (exit code 5) and for a request that
is not answered (exit code 4). -/
theorem setupSSHProxy_temp_file_left :
    (setupSSHProxy exampleOS
        (constNet (mkResponse 400 (str "400 Bad Request") ContentTypeJSON
          (str "\x7b\"error\":\"bad\"\x7d")))
        exampleSetup exampleText exampleSetupFlags setupWorld).1 = Outcome.exit 3
    ∧ (setupSSHProxy exampleOS
        (constNet (mkResponse 400 (str "400 Bad Request") ContentTypeJSON
          (str "\x7b\"error\":\"bad\"\x7d")))
        exampleSetup exampleText exampleSetupFlags setupWorld).2.fs.files
          (str "/tmp/ssh-secret-csv1")
      = some (csvWriteAll (createCsvRecordsForServers
          [{ Server := str "h1", Port := 22, User := str "u1", Password := str "p1",
             Private_key := str "priv0", Public_key := str "pub0", Passphrase := str "pass0" },
           { Server := str "h3", Port := 2222, User := str "u3", Password := str "p3",
             Private_key := str "priv1", Public_key := str "pub1", Passphrase := str "pass1" }]
          { BoxName := str "box1", Tag := [], SecretExpiry := [],
            SecretNamePattern := DefaultSecretNamePattern, SecretDescription := [],
            LeaseDuration := [], ExclusiveCheckout := false }))
    ∧ (setupSSHProxy exampleOS
        (constNet (mkResponse 404 (str "404 Not Found") ContentTypeJSON []))
        exampleSetup exampleText exampleSetupFlags setupWorld).1 = Outcome.exit 5
    ∧ ((setupSSHProxy exampleOS
        (constNet (mkResponse 404 (str "404 Not Found") ContentTypeJSON []))
        exampleSetup exampleText exampleSetupFlags setupWorld).2.fs.files
          (str "/tmp/ssh-secret-csv1")).isSome = true
    ∧ (setupSSHProxy exampleOS downNet exampleSetup exampleText exampleSetupFlags
        setupWorld).1 = Outcome.exit 4
    ∧ ((setupSSHProxy exampleOS downNet exampleSetup exampleText exampleSetupFlags
        setupWorld).2.fs.files (str "/tmp/ssh-secret-csv1")).isSome = true := by
  decide

set_option maxRecDepth 1000000 in
/-- When the upload is accepted, `uploadCsv` returns, the command prints its
last message and returns, and the deferred `os.Remove` has removed the
temporary file. -/
theorem setupSSHProxy_temp_file_removed :
    (setupSSHProxy exampleOS
        (constNet (mkResponse 200 (str "200 OK") ContentTypeJSON
          (str "\x7b\"status\":\"ok\"\x7d")))
        exampleSetup exampleText exampleSetupFlags setupWorld).1 = Outcome.ret ()
    ∧ (setupSSHProxy exampleOS
        (constNet (mkResponse 200 (str "200 OK") ContentTypeJSON
          (str "\x7b\"status\":\"ok\"\x7d")))
        exampleSetup exampleText exampleSetupFlags setupWorld).2.fs.files
          (str "/tmp/ssh-secret-csv1") = none := by
  decide

/-! ## C18: the verification callback of `GetTLSConfig` -/

theorem parseIntermediates_ok (x : X509) (later : List GoString) (pool : CertPool)
    (h : ∀ c ∈ later, x.ParseCertificate c = none) :
    parseIntermediates x later pool = .ok (pool ++ later) := by
  induction later generalizing pool with
  | nil => simp [parseIntermediates]
  | cons c rest ih =>
    have hc := h c (List.mem_cons_self _ _)
    simp only [parseIntermediates, hc]
    rw [ih (pool ++ [c]) fun d hd => h d (List.mem_cons_of_mem _ hd)]
    simp

theorem parseIntermediates_error (x : X509) (later : List GoString) (pool : CertPool)
    (h : ∃ c ∈ later, x.ParseCertificate c ≠ none) :
    ∃ err, parseIntermediates x later pool = .error err := by
  induction later generalizing pool with
  | nil =>
    obtain ⟨c, hc, _⟩ := h
    cases hc
  | cons c rest ih =>
    rcases hp : x.ParseCertificate c with _ | err
    · simp only [parseIntermediates, hp]
      obtain ⟨d, hd, hne⟩ := h
      rcases List.mem_cons.mp hd with e | e
      · rw [e, hp] at hne
        exact absurd rfl hne
      · exact ih (pool ++ [c]) ⟨d, e, hne⟩
    · exact ⟨err, by simp only [parseIntermediates, hp]⟩

/-- C18: the configuration `GetTLSConfig` builds turns the standard
verification off (`InsecureSkipVerify`), and its callback, given a chain that
is not empty, decides from the raw certificates and the CA pool alone.  It
accepts exactly when every presented certificate parses and the leaf verifies
with the pool as roots, the later certificates as intermediates and no host
name to match; it rejects, with an error, when the leaf or a later certificate
does not parse and when that verification fails.  Two `crypto/x509`
implementations that agree on parsing and on verification without a host name
give the same answer, however they would judge any host name. -/
theorem GetTLSConfig_callback (x : X509) (caCertPool : CertPool) (raw0 : GoString)
    (later : List GoString) :
    (GetTLSConfig x caCertPool).InsecureSkipVerify = true
    ∧ ((GetTLSConfig x caCertPool).VerifyPeerCertificate (raw0 :: later) = Outcome.ret none
        ↔ (∀ c ∈ raw0 :: later, x.ParseCertificate c = none)
          ∧ x.Verify raw0 { Roots := caCertPool, Intermediates := later, DNSName := [] } = none)
    ∧ ((∃ c ∈ raw0 :: later, x.ParseCertificate c ≠ none) →
        ∃ err, (GetTLSConfig x caCertPool).VerifyPeerCertificate (raw0 :: later)
          = Outcome.ret (some err))
    ∧ ((∀ c ∈ raw0 :: later, x.ParseCertificate c = none) →
        (GetTLSConfig x caCertPool).VerifyPeerCertificate (raw0 :: later)
          = Outcome.ret
              (x.Verify raw0 { Roots := caCertPool, Intermediates := later, DNSName := [] }))
    ∧ (∀ y : X509, (∀ c, y.ParseCertificate c = x.ParseCertificate c) →
        (∀ c roots intermediates,
          y.Verify c { Roots := roots, Intermediates := intermediates, DNSName := [] }
            = x.Verify c { Roots := roots, Intermediates := intermediates, DNSName := [] }) →
        (GetTLSConfig y caCertPool).VerifyPeerCertificate (raw0 :: later)
          = (GetTLSConfig x caCertPool).VerifyPeerCertificate (raw0 :: later)) := by
  have hall : (∀ c ∈ raw0 :: later, x.ParseCertificate c = none) →
      (GetTLSConfig x caCertPool).VerifyPeerCertificate (raw0 :: later)
        = Outcome.ret
            (x.Verify raw0 { Roots := caCertPool, Intermediates := later, DNSName := [] }) := by
    intro h
    have h0 := h raw0 (List.mem_cons_self _ _)
    have hl := parseIntermediates_ok x later [] fun c hc => h c (List.mem_cons_of_mem _ hc)
    simp only [GetTLSConfig, h0, hl, List.nil_append]
  have hsome : (∃ c ∈ raw0 :: later, x.ParseCertificate c ≠ none) →
      ∃ err, (GetTLSConfig x caCertPool).VerifyPeerCertificate (raw0 :: later)
        = Outcome.ret (some err) := by
    intro h
    rcases h0 : x.ParseCertificate raw0 with _ | err
    · obtain ⟨c, hc, hne⟩ := h
      rcases List.mem_cons.mp hc with e | e
      · rw [e, h0] at hne
        exact absurd rfl hne
      · obtain ⟨err, herr⟩ := parseIntermediates_error x later [] ⟨c, e, hne⟩
        exact ⟨err, by simp only [GetTLSConfig, h0, herr]⟩
    · exact ⟨err, by simp only [GetTLSConfig, h0]⟩
  refine ⟨rfl, ⟨fun h => ?_, fun h => ?_⟩, hsome, hall, fun y hp hv => ?_⟩
  · by_cases hparse : ∀ c ∈ raw0 :: later, x.ParseCertificate c = none
    · refine ⟨hparse, ?_⟩
      rw [hall hparse] at h
      exact Outcome.ret.inj h
    · have : ∃ c ∈ raw0 :: later, x.ParseCertificate c ≠ none := by
        by_contra hcon
        exact hparse fun c hc => by
          by_contra hne
          exact hcon ⟨c, hc, hne⟩
      obtain ⟨err, herr⟩ := hsome this
      rw [herr] at h
      cases h
  · rw [hall h.1, h.2]
  · have hpi : ∀ (l : List GoString) (pool : CertPool),
        parseIntermediates y l pool = parseIntermediates x l pool := by
      intro l
      induction l with
      | nil => intro pool; rfl
      | cons c rest ih =>
        intro pool
        simp only [parseIntermediates, hp, ih]
    simp only [GetTLSConfig, hp, hpi, hv]

set_option maxRecDepth 100000 in
/-- C18, at a concrete chain: a leaf that is in the pool is accepted although
the stand-in library would refuse it for the host name `vault`, and a leaf that
is not in the pool is rejected. -/
theorem GetTLSConfig_callback_witness :
    (GetTLSConfig exampleX509 [str "ca-cert"]).VerifyPeerCertificate [str "ca-cert", str "mid"]
        = Outcome.ret none
    ∧ exampleX509.Verify (str "ca-cert")
        { Roots := [str "ca-cert"], Intermediates := [str "mid"], DNSName := str "vault" } ≠ none
    ∧ (GetTLSConfig exampleX509 [str "ca-cert"]).VerifyPeerCertificate [str "other", str "mid"]
        ≠ Outcome.ret none :=
  ⟨(GetTLSConfig_callback exampleX509 [str "ca-cert"] (str "ca-cert") [str "mid"]).2.1.mpr
      (by decide),
   by decide,
   by decide⟩

/-! ## C21: `--expiry` of `update-personal-access-token` -/

set_option maxRecDepth 1000000 in
/-- C21 fails on the code: with `--expiry tomorrow`, which `time.Parse` rejects,
`update-personal-access-token` prints `Can't parse time format` and goes on:
it sends the request with the Unix time of the zero time as `expiry`, and the
exit code is the one the response decides, here 0.  The network answers with
the body of the request, so the request sent is what the process prints. -/
theorem updatePersonalAccessTokenCmd_Run_unparsed_expiry :
    (updatePersonalAccessTokenCmd_Run exampleOS echoNet exampleLib (fun _ => 0)
        { name := str "tok1", description := none, expiry := some (str "tomorrow"),
          revoked := none } loggedInWorld).1 = Outcome.exit 0
    ∧ (updatePersonalAccessTokenCmd_Run exampleOS echoNet exampleLib (fun _ => 0)
        { name := str "tok1", description := none, expiry := some (str "tomorrow"),
          revoked := none } loggedInWorld).2.stdout
      = str "Can't parse time format\n\n" ++ insecureWarning ++ str "\n"
        ++ str "\n\x7b\n  \"expiry\": -62135596800,\n  \"name\": \"tok1\"\n\x7d\n\n"
    ∧ (exampleLib.parseRFC3339 (str "tomorrow" ++ str "T10:00:00Z")).isNone = true := by
  decide

/-- Whatever the flags, the network and the library are: when `time.Parse`
rejects the expiry, the request is built with `expiry` set to the Unix time of
the zero time, and the process does not exit before `DoPost`. -/
theorem updateTokenExpiry_unparsed (lib : Lib) (unix : GoTime → Int) (expiry : GoString)
    (w : World) (h : lib.parseRFC3339 (expiry ++ str "T10:00:00Z") = none) :
    updateTokenExpiry lib unix expiry w
      = (Outcome.ret (-62135596800),
          { w with stdout := w.stdout ++ str "Can't parse time format\n\n" }) := by
  unfold updateTokenExpiry
  rw [h]
  rfl

/-! ## C22: `GenerateRandomString` -/

set_option maxRecDepth 1000000 in
theorem RandomStringCharSet_get (r : Nat) (h : r < 62) :
    ∃ c, RandomStringCharSet[r]? = some c
      ∧ ((0x41 ≤ c.val ∧ c.val ≤ 0x5A) ∨ (0x61 ≤ c.val ∧ c.val ≤ 0x7A)
          ∨ (0x30 ≤ c.val ∧ c.val ≤ 0x39)) := by
  have key : ∀ r : Fin 62, ∃ c, RandomStringCharSet[r.val]? = some c
      ∧ ((0x41 ≤ c.val ∧ c.val ≤ 0x5A) ∨ (0x61 ≤ c.val ∧ c.val ≤ 0x7A)
          ∨ (0x30 ≤ c.val ∧ c.val ≤ 0x39)) := by
    decide
  exact key ⟨r, h⟩

theorem randomStringLoop_spec (draw : Nat → Option Nat) (count i : Nat) (acc : GoString)
    (hdraw : ∀ j, i ≤ j → j < i + count → ∃ r, r < 62 ∧ draw j = some r) :
    ∃ s, randomStringLoop draw count i acc = Outcome.ret (acc ++ s) ∧ s.length = count
      ∧ ∀ c ∈ s, (0x41 ≤ c.val ∧ c.val ≤ 0x5A) ∨ (0x61 ≤ c.val ∧ c.val ≤ 0x7A)
          ∨ (0x30 ≤ c.val ∧ c.val ≤ 0x39) := by
  induction count generalizing i acc with
  | zero => exact ⟨[], by simp [randomStringLoop], rfl, fun c hc => by cases hc⟩
  | succ n ih =>
    obtain ⟨r, hr, hd⟩ := hdraw i (le_refl _) (by omega)
    obtain ⟨c, hc, hclass⟩ := RandomStringCharSet_get r hr
    obtain ⟨s, hs, hlen, hall⟩ := ih (i + 1) (acc ++ [c])
      (fun j h1 h2 => hdraw j (by omega) (by omega))
    refine ⟨c :: s, ?_, by simp [hlen], ?_⟩
    · simp only [randomStringLoop, hd, hc, hs]
      simp
    · intro d hd2
      rcases List.mem_cons.mp hd2 with e | e
      · rw [e]
        exact hclass
      · exact hall d e

set_option maxRecDepth 1000000 in
/-- C22: when every draw of the random source gives an index below 62, as
`rand.Int(rand.Reader, maxIndex)` does when it returns no error,
`GenerateRandomString(n)` returns a string of exactly `n` bytes for `n ≥ 0`,
each an upper-case letter, a lower-case letter or a digit, and all of these
belong to `RandomStringCharSet`, which has 62 bytes; for `n ≤ 0` it returns
the empty string, whatever the random source does. -/
theorem GenerateRandomString_spec (draw : Nat → Option Nat) (n : Int) :
    ((∀ j : Nat, (j : Int) < n → ∃ r, r < 62 ∧ draw j = some r) → 0 ≤ n →
      ∃ s, GenerateRandomString draw n = Outcome.ret s ∧ (s.length : Int) = n
        ∧ (∀ c ∈ s, c ∈ RandomStringCharSet)
        ∧ ∀ c ∈ s, (0x41 ≤ c.val ∧ c.val ≤ 0x5A) ∨ (0x61 ≤ c.val ∧ c.val ≤ 0x7A)
            ∨ (0x30 ≤ c.val ∧ c.val ≤ 0x39))
    ∧ (n ≤ 0 → GenerateRandomString draw n = Outcome.ret [])
    ∧ RandomStringCharSet.length = 62 := by
  refine ⟨fun hdraw hn => ?_, fun hn => ?_, by decide⟩
  · obtain ⟨s, hs, hlen, hall⟩ := randomStringLoop_spec draw n.toNat 0 []
      (fun j _ h2 => hdraw j (by omega))
    refine ⟨s, by simpa [GenerateRandomString] using hs, by omega, fun c hc => ?_, hall⟩
    have hmem : ∀ b : Byte, ((0x41 ≤ b.val ∧ b.val ≤ 0x5A) ∨ (0x61 ≤ b.val ∧ b.val ≤ 0x7A)
        ∨ (0x30 ≤ b.val ∧ b.val ≤ 0x39)) → b ∈ RandomStringCharSet := by
      decide
    exact hmem c (hall c hc)
  · have : n.toNat = 0 := by omega
    simp [GenerateRandomString, this, randomStringLoop]

set_option maxRecDepth 100000 in
/-- C22, at concrete draws: the indices 0, 26 and 61 give `Aa0`. -/
theorem GenerateRandomString_spec_witness :
    ∃ s, GenerateRandomString (fun j => if j = 0 then some 0 else if j = 1 then some 26
        else some 61) 3 = Outcome.ret s ∧ (s.length : Int) = 3
      ∧ (∀ c ∈ s, c ∈ RandomStringCharSet)
      ∧ ∀ c ∈ s, (0x41 ≤ c.val ∧ c.val ≤ 0x5A) ∨ (0x61 ≤ c.val ∧ c.val ≤ 0x7A)
          ∨ (0x30 ≤ c.val ∧ c.val ≤ 0x39) :=
  (GenerateRandomString_spec (fun j => if j = 0 then some 0 else if j = 1 then some 26
      else some 61) 3).1
    (fun j _ => by
      by_cases h0 : j = 0
      · exact ⟨0, by decide, by simp [h0]⟩
      · by_cases h1 : j = 1
        · exact ⟨26, by decide, by simp [h1]⟩
        · exact ⟨61, by decide, by simp [h0, h1]⟩)
    (by decide)

/-! ## C26: twelve-hour time -/

set_option maxRecDepth 1000000 in
/-- C26: for every hour from 0 to 23, `convertTimeFrom24HourTo12HourFormat`
returns an hour from 1 to 12 and the marker `AM` exactly for the hours below
12, `PM` otherwise; the hour given is the returned hour modulo 12, plus 12 for
`PM`; and `TwelveHourTime` writes the same hour and marker in its text. -/
theorem convertTimeFrom24HourTo12HourFormat_spec (h : Nat) (hh : h ≤ 23) :
    1 ≤ (convertTimeFrom24HourTo12HourFormat h).1
    ∧ (convertTimeFrom24HourTo12HourFormat h).1 ≤ 12
    ∧ ((convertTimeFrom24HourTo12HourFormat h).2 = str "AM" ↔ h < 12)
    ∧ ((convertTimeFrom24HourTo12HourFormat h).2 = str "PM" ↔ ¬ h < 12)
    ∧ (h : Int) = (convertTimeFrom24HourTo12HourFormat h).1 % 12
        + (if (convertTimeFrom24HourTo12HourFormat h).2 = str "PM" then 12 else 0)
    ∧ ∀ (weekday month : GoString) (day : Nat) (year : Int) (min sec : Nat),
        TwelveHourTime (weekday, day, month, year, h, min, sec)
          = weekday ++ str ", " ++ pad2 day ++ str " " ++ month ++ str " " ++ formatInt year
            ++ str " " ++ pad2 (convertTimeFrom24HourTo12HourFormat h).1.toNat ++ str ":"
            ++ pad2 min ++ str ":" ++ pad2 sec ++ str " "
            ++ (convertTimeFrom24HourTo12HourFormat h).2 := by
  have key : ∀ k : Fin 24,
      1 ≤ (convertTimeFrom24HourTo12HourFormat k.val).1
      ∧ (convertTimeFrom24HourTo12HourFormat k.val).1 ≤ 12
      ∧ ((convertTimeFrom24HourTo12HourFormat k.val).2 = str "AM" ↔ k.val < 12)
      ∧ ((convertTimeFrom24HourTo12HourFormat k.val).2 = str "PM" ↔ ¬ k.val < 12)
      ∧ (k.val : Int) = (convertTimeFrom24HourTo12HourFormat k.val).1 % 12
          + (if (convertTimeFrom24HourTo12HourFormat k.val).2 = str "PM" then 12 else 0)
      ∧ (convertTimeFrom24HourTo12HourFormat k.val).1.toNat
          = (if k.val = 0 then 12 else if k.val > 12 then k.val - 12 else k.val)
      ∧ (convertTimeFrom24HourTo12HourFormat k.val).2
          = (if k.val > 11 then str "PM" else str "AM") := by
    decide
  obtain ⟨a, b, c, d, e, f, g⟩ := key ⟨h, by omega⟩
  refine ⟨a, b, c, d, e, fun weekday month day year min sec => ?_⟩
  simp only at f g
  simp only [TwelveHourTime, f, g]

/-- C26, at the hours 0 and 13: `12 AM` and `1 PM`. -/
theorem convertTimeFrom24HourTo12HourFormat_spec_witness :
    (1 ≤ (convertTimeFrom24HourTo12HourFormat (0 : Nat)).1
      ∧ (convertTimeFrom24HourTo12HourFormat (0 : Nat)).1 ≤ 12)
    ∧ convertTimeFrom24HourTo12HourFormat 0 = (12, str "AM")
    ∧ convertTimeFrom24HourTo12HourFormat 13 = (1, str "PM") :=
  ⟨⟨(convertTimeFrom24HourTo12HourFormat_spec 0 (by decide)).1,
    (convertTimeFrom24HourTo12HourFormat_spec 0 (by decide)).2.1⟩, by decide, by decide⟩

/-! ## C23: `GetValueFromKVString` -/

theorem matchKVHere_some (key t : GoString) (n : Nat) (h : matchKVHere key t = some n) :
    ∃ c post, t = key ++ B 0x3D :: c :: post ∧ isLowerAZ c = true := by
  unfold matchKVHere at h
  by_cases hp : key.isPrefixOf t = true
  · rw [if_pos hp] at h
    obtain ⟨r, hr⟩ := List.isPrefixOf_iff_prefix.mp hp
    subst hr
    rw [List.drop_left] at h
    rcases r with _ | ⟨c0, rest⟩
    · cases h
    · simp only at h
      split_ifs at h with hc
      obtain ⟨h1, h2⟩ := hc
      rcases rest with _ | ⟨c, post⟩
      · simp at h2
      · have hl : isLowerAZ c = true := by
          by_contra hn
          simp [List.takeWhile, hn] at h2
        have h0 : c0 = B 0x3D := (B_eq_of_val _ _ h1.symm).symm
        exact ⟨c, post, by rw [h0], hl⟩
  · rw [if_neg hp] at h
    cases h

theorem matchKVHere_of_occ (key : GoString) (c : Byte) (post : GoString)
    (hl : isLowerAZ c = true) :
    ∃ n, matchKVHere key (key ++ B 0x3D :: c :: post) = some n := by
  unfold matchKVHere
  have hp : key.isPrefixOf (key ++ B 0x3D :: c :: post) = true :=
    List.isPrefixOf_iff_prefix.mpr ⟨_, rfl⟩
  rw [if_pos hp, List.drop_left]
  have h1 : (B 0x3D).val = 0x3D := by decide
  have h2 : ((c :: post).takeWhile isLowerAZ).length > 0 := by
    simp [List.takeWhile, hl]
  simp only [h1, h2, and_self, if_true]
  exact ⟨_, rfl⟩

/-- The first match `FindAllStringSubmatchIndex` reports: there is none when
the pattern matches at no position, and otherwise the first one starts at the
leftmost position where it matches, with the second group right after the
`=`. -/
theorem findAllSubmatchIndex_first (key s : GoString) (off : Nat) :
    (findAllSubmatchIndex key s off 0 = []
      ∧ ∀ pre t, s = pre ++ t → matchKVHere key t = none)
    ∨ ∃ pre t n later, s = pre ++ t ∧ matchKVHere key t = some n
        ∧ (∀ pre2 t2, s = pre2 ++ t2 → pre2.length < pre.length → matchKVHere key t2 = none)
        ∧ findAllSubmatchIndex key s off 0
          = [off + pre.length, off + pre.length + key.length + 1 + n, off + pre.length,
             off + pre.length + key.length, off + pre.length + key.length + 1,
             off + pre.length + key.length + 1 + n] :: later := by
  induction s generalizing off with
  | nil =>
    left
    refine ⟨rfl, fun pre t h => ?_⟩
    have ht : t = [] := by
      have := congrArg List.length h
      simp at this
      exact List.eq_nil_of_length_eq_zero (by omega)
    subst ht
    unfold matchKVHere
    by_cases hp : key.isPrefixOf ([] : GoString) = true
    · rw [if_pos hp]
      simp
    · rw [if_neg hp]
  | cons c rest ih =>
    rcases hm : matchKVHere key (c :: rest) with _ | n
    · rcases ih (off + 1) with ⟨h1, h2⟩ | ⟨pre, t, n, later, h1, h2, h3, h4⟩
      · left
        refine ⟨by simp only [findAllSubmatchIndex, hm, h1], fun pre t h => ?_⟩
        rcases pre with _ | ⟨p, pre⟩
        · simp only [List.nil_append] at h
          rw [← h]
          exact hm
        · simp only [List.cons_append, List.cons.injEq] at h
          exact h2 pre t h.2
      · right
        refine ⟨c :: pre, t, n, later, by rw [h1]; rfl, h2, fun pre2 t2 h hlt => ?_, ?_⟩
        · rcases pre2 with _ | ⟨p, pre2⟩
          · simp only [List.nil_append] at h
            rw [← h]
            exact hm
          · simp only [List.cons_append, List.cons.injEq] at h
            exact h3 pre2 t2 h.2 (by simp at hlt; omega)
        · simp only [findAllSubmatchIndex, hm, h4, List.length_cons]
          have e1 : off + 1 + pre.length = off + (pre.length + 1) := by omega
          rw [e1]
    · right
      exact ⟨[], c :: rest, n, findAllSubmatchIndex key rest (off + 1) (key.length + n), rfl, hm,
        fun pre2 t2 _ hlt => by simp at hlt,
        by simp only [findAllSubmatchIndex, hm, List.length_nil, Nat.add_zero]⟩

/-- C23: for a key of ASCII letters, `GetValueFromKVString(kv, key)` returns
the error `<key> not found` exactly when `kv` has no occurrence of `key`
followed at once by `=` and a lower-case ASCII letter; otherwise it returns,
with no error, what follows the `=` of the leftmost such occurrence, up to the
end of `kv`. -/
theorem GetValueFromKVString_spec (kv key : GoString) (hkey : key.all isAsciiLetter = true) :
    (GetValueFromKVString kv key
        = some (.error (GoError.errorString (key ++ str " not found")))
      ↔ ¬ ∃ pre c post, kv = pre ++ key ++ B 0x3D :: c :: post ∧ isLowerAZ c = true)
    ∧ ∀ pre c post, kv = pre ++ key ++ B 0x3D :: c :: post → isLowerAZ c = true →
        (∀ pre2 c2 post2, kv = pre2 ++ key ++ B 0x3D :: c2 :: post2 → isLowerAZ c2 = true →
          pre.length ≤ pre2.length) →
        GetValueFromKVString kv key = some (.ok (c :: post)) := by
  unfold GetValueFromKVString
  rw [if_pos hkey]
  rcases findAllSubmatchIndex_first key kv 0 with ⟨h1, h2⟩ | ⟨pre, t, n, later, h1, h2, h3, h4⟩
  · simp only [h1]
    refine ⟨iff_of_true trivial ?_, fun pre c post hkv hl _ => ?_⟩
    · rintro ⟨pre, c, post, hkv, hl⟩
      obtain ⟨n, hn⟩ := matchKVHere_of_occ key c post hl
      rw [h2 pre (key ++ B 0x3D :: c :: post) (by rw [hkv, List.append_assoc])] at hn
      cases hn
    · obtain ⟨n, hn⟩ := matchKVHere_of_occ key c post hl
      rw [h2 pre (key ++ B 0x3D :: c :: post) (by rw [hkv, List.append_assoc])] at hn
      cases hn
  · obtain ⟨c, post, ht, hl⟩ := matchKVHere_some key t n h2
    simp only [h4, Nat.zero_add]
    have hlen : ¬ ([pre.length, pre.length + key.length + 1 + n, pre.length,
        pre.length + key.length, pre.length + key.length + 1,
        pre.length + key.length + 1 + n] : List Nat).length < 5 := by simp
    rw [if_neg hlen]
    have hdrop : kv.drop (pre.length + key.length + 1) = c :: post := by
      rw [h1, ht]
      have : pre ++ (key ++ B 0x3D :: c :: post) = (pre ++ key ++ [B 0x3D]) ++ (c :: post) := by
        simp
      rw [this]
      have hl2 : (pre ++ key ++ [B 0x3D]).length = pre.length + key.length + 1 := by
        simp only [List.length_append, List.length_singleton]
      rw [← hl2, List.drop_left]
    refine ⟨⟨fun h => by simp at h, fun h => absurd ⟨pre, c, post, by rw [h1, ht]; simp, hl⟩ h⟩,
      fun pre3 c3 post3 hkv hl3 hmin => ?_⟩
    have hle : pre3.length ≤ pre.length :=
      hmin pre c post (by rw [h1, ht]; simp) hl
    have hge : ¬ pre3.length < pre.length := by
      intro hlt
      obtain ⟨m, hm⟩ := matchKVHere_of_occ key c3 post3 hl3
      rw [h3 pre3 (key ++ B 0x3D :: c3 :: post3) (by rw [hkv, List.append_assoc]) hlt] at hm
      cases hm
    have heq : pre3.length = pre.length := by omega
    have hkv2 : pre3 ++ (key ++ B 0x3D :: c3 :: post3) = pre ++ (key ++ B 0x3D :: c :: post) := by
      rw [← ht, ← h1, hkv, List.append_assoc]
    have hsplit := List.append_inj hkv2 heq
    have h5 := List.append_cancel_left hsplit.2
    simp only [List.cons.injEq, true_and] at h5
    simp only [List.getD_cons_succ, List.getD_cons_zero]
    rw [hdrop, h5.1, h5.2]

set_option maxRecDepth 100000 in
/-- C23, at the header `attachment; filename=audit.csv` and the key `filename`:
the value is `audit.csv`. -/
theorem GetValueFromKVString_spec_witness :
    GetValueFromKVString (str "attachment; filename=audit.csv") (str "filename")
      = some (.ok (str "audit.csv")) :=
  (GetValueFromKVString_spec (str "attachment; filename=audit.csv") (str "filename")
    (by decide)).2 (str "attachment; ") (B 0x61) (str "udit.csv") (by decide) (by decide)
    (fun pre2 c2 post2 h _ => by
      by_contra hlt
      have hlt2 : pre2.length < 12 := by
        have : (str "attachment; ").length = 12 := by decide
        omega
      have hk : str "filename" ++ [B 0x3D]
          <+: List.drop pre2.length (str "attachment; filename=audit.csv") := by
        rw [h, List.append_assoc, List.drop_left]
        exact ⟨c2 :: post2, by simp⟩
      have hall : ∀ k : Fin 12, ¬ (str "filename" ++ [B 0x3D]
          <+: List.drop k.val (str "attachment; filename=audit.csv")) := by
        decide
      exact hall ⟨pre2.length, hlt2⟩ hk)

/-! ## C24: the parameter check of `initAccessToken` -/

theorem checkParams_ok (txt : Text) (params : List GoString) (w : World)
    (h : ∀ p ∈ params, singleDashParam p = false) :
    checkParams txt params w = (Outcome.ret (), w) := by
  induction params with
  | nil => rfl
  | cons p rest ih =>
    have hp := h p (List.mem_cons_self _ _)
    simp only [checkParams, hp, Bool.false_eq_true, if_false]
    exact ih fun q hq => h q (List.mem_cons_of_mem _ hq)

theorem checkParams_bad (txt : Text) (params : List GoString)
    (h : ∃ p ∈ params, singleDashParam p = true) :
    ∃ p ∈ params, singleDashParam p = true ∧ ∀ w : World,
      checkParams txt params w
        = (Outcome.exit 1,
            { w with stdout := w.stdout ++ (str "\nInvalid parameter " ++ txt.quote p
                ++ str ". Parameter names must be prefixed with --\nE.g. -" ++ p
                ++ str "\n\n") }) := by
  induction params with
  | nil =>
    obtain ⟨p, hp, _⟩ := h
    cases hp
  | cons q rest ih =>
    by_cases hq : singleDashParam q = true
    · refine ⟨q, List.mem_cons_self _ _, hq, fun w => ?_⟩
      simp only [checkParams, hq, if_true]
      rfl
    · have hrest : ∃ p ∈ rest, singleDashParam p = true := by
        obtain ⟨p, hp, hb⟩ := h
        rcases List.mem_cons.mp hp with e | e
        · rw [e] at hb
          exact absurd hb hq
        · exact ⟨p, e, hb⟩
      obtain ⟨p, hp, hb, hrun⟩ := ih hrest
      refine ⟨p, List.mem_cons_of_mem _ hp, hb, fun w => ?_⟩
      simp only [checkParams, hq, if_false]
      exact hrun w

/-- C24: `initAccessToken` with at least a command name.  For the four
excluded commands it returns at once: no argument is checked and no token file
is loaded.  For any other command, when some argument from position 2 on starts
with `-`, is longer than two bytes and has a second byte other than `-`, the
process prints that argument and exits with code 1 with nothing else changed,
whatever the operating system and the token file are, so before the token file
is loaded; when no argument is of that kind, the function goes on to
`LoadAccessToken`, and only its failure ends the process.  Arguments of at most
two bytes, arguments that start with `--` and arguments that do not start with
`-` are never of that kind. -/
theorem initAccessToken_spec (txt : Text) (args : List GoString) (w : World)
    (hlen : 2 ≤ args.length) :
    (excludedCommands.contains (args.getD 1 []) = true →
      ∀ (os : OS) (tokenFile : GoString),
        initAccessToken os txt args tokenFile w = (Outcome.ret (), w))
    ∧ (excludedCommands.contains (args.getD 1 []) = false →
      ((∃ p ∈ args.drop 2, singleDashParam p = true) →
        ∃ p ∈ args.drop 2, singleDashParam p = true ∧ ∀ (os : OS) (tokenFile : GoString),
          initAccessToken os txt args tokenFile w
            = (Outcome.exit 1,
                { w with stdout := w.stdout ++ (str "\nInvalid parameter " ++ txt.quote p
                    ++ str ". Parameter names must be prefixed with --\nE.g. -" ++ p
                    ++ str "\n\n") }))
      ∧ ((¬ ∃ p ∈ args.drop 2, singleDashParam p = true) →
        ∀ (os : OS) (tokenFile : GoString),
          initAccessToken os txt args tokenFile w
            = (LoadAccessToken os tokenFile >>= fun r =>
                match r.2 with
                | some err =>
                  print (str "\nError getting Server information from " ++ r.1 ++ str ". "
                    ++ err.Error
                    ++ str ".\nIf you are not logged in yet, log into Vault by running login command.\n\n")
                    >>= fun _ => osExit 1
                | none => Proc.pure ()) w))
    ∧ (∀ p : GoString, (p.length ≤ 2 ∨ HasPrefix p (str "--") = true
        ∨ HasPrefix p (str "-") = false) → singleDashParam p = false) := by
  have hnot : ¬ args.length < 2 := by omega
  refine ⟨fun hex os tokenFile => ?_, fun hex => ⟨fun hbad => ?_, fun hgood os tokenFile => ?_⟩,
    fun p hp => ?_⟩
  · unfold initAccessToken
    rw [if_neg hnot, if_pos hex]
    rfl
  · obtain ⟨p, hp, hb, hrun⟩ := checkParams_bad txt (args.drop 2) hbad
    refine ⟨p, hp, hb, fun os tokenFile => ?_⟩
    unfold initAccessToken
    rw [if_neg hnot, if_neg (by rw [hex]; decide), bind_eq]
    unfold Proc.bind
    rw [hrun w]
  · unfold initAccessToken
    rw [if_neg hnot, if_neg (by rw [hex]; decide), bind_eq]
    unfold Proc.bind
    rw [checkParams_ok txt (args.drop 2) w fun q hq => by
      by_contra hne
      exact hgood ⟨q, hq, by simpa using hne⟩]
  · unfold singleDashParam
    rcases hp with h | h | h
    · have : ¬ p.length > 2 := by omega
      simp [this]
    · rcases p with _ | ⟨a, _ | ⟨b, rest⟩⟩
      · simp at h ⊢
      · simp
      · have hb : b = B 0x2D := by
          have := List.isPrefixOf_iff_prefix.mp h
          obtain ⟨r, hr⟩ := this
          have h2 : str "--" = [B 0x2D, B 0x2D] := by decide
          rw [h2] at hr
          simp only [List.cons_append, List.nil_append, List.cons.injEq] at hr
          exact hr.2.1.symm
        simp [hb]
    · simp [h]

set_option maxRecDepth 100000 in
/-- C24, at the arguments `pasmcli create-box -name x`: the process exits with
code 1 and names `-name`. -/
theorem initAccessToken_spec_witness :
    initAccessToken exampleOS exampleText
        [str "pasmcli", str "create-box", str "-name", str "x"] [] (World.fresh emptyFS)
      = (Outcome.exit 1,
          { World.fresh emptyFS with
            stdout := str "\nInvalid parameter -name. Parameter names must be prefixed with --\nE.g. --name\n\n" }) := by
  obtain ⟨p, hp, hb, hrun⟩ := ((initAccessToken_spec exampleText
    [str "pasmcli", str "create-box", str "-name", str "x"] (World.fresh emptyFS)
    (by decide)).2.1 (by decide)).1 ⟨str "-name", by decide, by decide⟩
  rw [hrun exampleOS []]
  have hp2 : p = str "-name" := by
    have hx : singleDashParam (str "x") = false := by decide
    simp only [List.drop, List.mem_cons, List.mem_singleton, List.not_mem_nil, or_false] at hp
    rcases hp with e | e
    · exact e
    · rw [e, hx] at hb
      cases hb
  rw [hp2]
  rfl

/-! ## C25: tag keys and values -/

theorem tagLoop_ok (pairs : List (GoString × GoString)) (acc : TagMap) (w : World)
    (h : ∀ kv ∈ pairs, otherJSON kv.2 = false) :
    tagLoop pairs acc w
      = (Outcome.ret (acc ++ pairs.map fun kv => (kv.1, tagValueOf kv.2)), w) := by
  induction pairs generalizing acc with
  | nil => simp [tagLoop, Proc.pure]
  | cons kv rest ih =>
    obtain ⟨key, value⟩ := kv
    have hv := h (key, value) (List.mem_cons_self _ _)
    have hrest : ∀ kv ∈ rest, otherJSON kv.2 = false :=
      fun kv hkv => h kv (List.mem_cons_of_mem _ hkv)
    simp only [otherJSON] at hv
    simp only [tagLoop, IsJSON, List.map_cons]
    rcases hp : parseDocument value with _ | j
    · simp only [Option.isSome_none, Bool.false_eq_true, if_false]
      rw [ih _ hrest]
      simp [tagValueOf, hp]
    · rw [hp] at hv
      simp only [Option.isSome_some, if_true, bind_eq]
      unfold Proc.bind
      cases j with
      | object members =>
        simp only [JsonStrToMap, unmarshalMap, hp, Proc.pure]
        rw [ih _ hrest]
        simp [tagValueOf, hp]
      | null =>
        simp only [JsonStrToMap, unmarshalMap, hp, Proc.pure]
        rw [ih _ hrest]
        simp [tagValueOf, hp]
      | bool b => simp at hv
      | number raw => simp at hv
      | string raw => simp at hv
      | array items => simp at hv

theorem tagLoop_bad (pairs : List (GoString × GoString)) (acc : TagMap) (w : World)
    (h : ∃ kv ∈ pairs, otherJSON kv.2 = true) :
    ∃ msg, tagLoop pairs acc w = (Outcome.exit 1, { w with stdout := w.stdout ++ msg }) := by
  induction pairs generalizing acc with
  | nil =>
    obtain ⟨kv, hkv, _⟩ := h
    cases hkv
  | cons kv rest ih =>
    obtain ⟨key, value⟩ := kv
    by_cases hv : otherJSON value = true
    · simp only [otherJSON] at hv
      simp only [tagLoop, IsJSON]
      rcases hp : parseDocument value with _ | j
      · rw [hp] at hv
        simp at hv
      · rw [hp] at hv
        simp only [Option.isSome_some, if_true, bind_eq]
        unfold Proc.bind
        cases j with
        | object members => simp at hv
        | null => simp at hv
        | bool b => exact ⟨_, by simp only [JsonStrToMap, unmarshalMap, hp]; rfl⟩
        | number raw => exact ⟨_, by simp only [JsonStrToMap, unmarshalMap, hp]; rfl⟩
        | string raw => exact ⟨_, by simp only [JsonStrToMap, unmarshalMap, hp]; rfl⟩
        | array items => exact ⟨_, by simp only [JsonStrToMap, unmarshalMap, hp]; rfl⟩
    · have hrest : ∃ kv ∈ rest, otherJSON kv.2 = true := by
        obtain ⟨kv, hkv, hb⟩ := h
        rcases List.mem_cons.mp hkv with e | e
        · rw [e] at hb
          exact absurd hb hv
        · exact ⟨kv, e, hb⟩
      have hv2 : otherJSON value = false := by simpa using hv
      simp only [tagLoop, IsJSON]
      rcases hp : parseDocument value with _ | j
      · simp only [Option.isSome_none, Bool.false_eq_true, if_false]
        exact ih _ hrest
      · simp only [otherJSON, hp] at hv2
        simp only [Option.isSome_some, if_true, bind_eq]
        unfold Proc.bind
        cases j with
        | object members =>
          simp only [JsonStrToMap, unmarshalMap, hp, Proc.pure]
          exact ih _ hrest
        | null =>
          simp only [JsonStrToMap, unmarshalMap, hp, Proc.pure]
          exact ih _ hrest
        | bool b => simp at hv2
        | number raw => simp at hv2
        | string raw => simp at hv2
        | array items => simp at hv2

/-- C25: the tag loop of `create-box`, for given `--tagkey` and `--tagvalue`
flags.  With different numbers of keys and values the process exits with code
1.  With equal numbers, when no value is JSON other than an object or `null`,
the map built assigns to the `i`-th key, in order, the `i`-th value as a string
when it is not valid JSON and the map it decodes to when it is a JSON object
(the nil map for `null`), and nothing is printed; when some value is valid JSON
that is neither an object nor `null`, such as `123`, `true`, `"x"` or `[1]`, the
process prints an error and exits with code 1.  On both exits what follows in
the command (`send`: the request is built and sent there) is not run. -/
theorem createBoxTags_spec (keys values : List GoString) (w : World) :
    (keys.length ≠ values.length →
      ∀ send : Option TagMap → Proc Unit,
        (createBoxTags (some keys) (some values) >>= send) w
          = (Outcome.exit 1,
              { w with stdout := w.stdout
                  ++ (str "Please provide equal number of tag keys & values" ++ str "\n") }))
    ∧ (keys.length = values.length →
      ((∀ v ∈ values, otherJSON v = false) →
        createBoxTags (some keys) (some values) w
            = (Outcome.ret (some ((keys.zip values).map fun kv => (kv.1, tagValueOf kv.2))), w)
          ∧ ∀ (i : Nat) (k v : GoString), keys[i]? = some k → values[i]? = some v →
              ((keys.zip values).map fun kv => (kv.1, tagValueOf kv.2))[i]?
                  = some (k, tagValueOf v)
              ∧ (parseDocument v = none → tagValueOf v = TagValue.text v)
              ∧ (∀ members, parseDocument v = some (Json.object members) →
                  tagValueOf v = TagValue.object
                    (some (members.map fun kv => ((unquote kv.1).getD [], kv.2)))))
      ∧ ((∃ v ∈ values, otherJSON v = true) →
        ∃ msg, ∀ send : Option TagMap → Proc Unit,
          (createBoxTags (some keys) (some values) >>= send) w
            = (Outcome.exit 1, { w with stdout := w.stdout ++ msg })))
    ∧ otherJSON (str "123") = true ∧ otherJSON (str "true") = true
    ∧ otherJSON (str "\"x\"") = true ∧ otherJSON (str "[1]") = true
    ∧ otherJSON (str "\x7b\"a\":1\x7d") = false ∧ otherJSON (str "null") = false
    ∧ otherJSON (str "x y") = false := by
  refine ⟨fun hne => ?_, fun heq => ⟨fun hok => ⟨?_, fun i k v hk hv => ⟨?_, ?_, ?_⟩⟩,
    fun hbad => ?_⟩, by decide, by decide, by decide, by decide, by decide, by decide, by decide⟩
  · intro send
    rw [bind_eq]
    unfold Proc.bind
    simp only [createBoxTags, hne, ne_eq, not_false_eq_true, if_true]
    rfl
  · simp only [createBoxTags, heq, ne_eq, not_true_eq_false, if_false, bind_eq]
    unfold Proc.bind
    rw [tagLoop_ok _ [] w fun kv hkv => hok kv.2 (List.of_mem_zip hkv).2]
    rfl
  · have hz : (keys.zip values)[i]? = some (k, v) :=
      List.getElem?_zip_eq_some.mpr ⟨hk, hv⟩
    rw [List.getElem?_map, hz]
    rfl
  · intro hp
    simp [tagValueOf, hp]
  · intro members hp
    simp [tagValueOf, hp]
  · have hb : ∃ kv ∈ keys.zip values, otherJSON kv.2 = true := by
      obtain ⟨v, hv, hb⟩ := hbad
      obtain ⟨i, hi⟩ := List.mem_iff_getElem?.mp hv
      have hlt : i < values.length := by
        rcases Nat.lt_or_ge i values.length with h | h
        · exact h
        · rw [List.getElem?_eq_none h] at hi
          cases hi
      have hk : keys[i]? = some (keys.get ⟨i, by omega⟩) := List.getElem?_eq_getElem _
      exact ⟨(keys.get ⟨i, by omega⟩, v),
        List.mem_iff_getElem?.mpr ⟨i, (List.getElem?_zip_eq_some
          (z := (keys.get ⟨i, by omega⟩, v))).mpr ⟨hk, hi⟩⟩, hb⟩
    obtain ⟨msg, hmsg⟩ := tagLoop_bad _ [] w hb
    refine ⟨msg, fun send => ?_⟩
    rw [bind_eq]
    unfold Proc.bind
    simp only [createBoxTags, heq, ne_eq, not_true_eq_false, if_false, bind_eq]
    unfold Proc.bind
    rw [hmsg]

set_option maxRecDepth 1000000 in
/-- C25, at two tags of which the second has the value `123`: the process
exits with code 1. -/
theorem createBoxTags_spec_witness :
    ∃ msg, ∀ send : Option TagMap → Proc Unit,
      (createBoxTags (some [str "a", str "b"]) (some [str "x y", str "123"]) >>= send)
          (World.fresh emptyFS)
        = (Outcome.exit 1,
            { World.fresh emptyFS with stdout := (World.fresh emptyFS).stdout ++ msg }) :=
  ((createBoxTags_spec [str "a", str "b"] [str "x y", str "123"] (World.fresh emptyFS)).2.1
    rfl).2 ⟨str "123", by decide, by decide⟩

/-! ## C27: lease file paths of different secrets -/

theorem append_sep_inj (sep : Byte) (a b x y : GoString) (ha : sep ∉ a) (hb : sep ∉ b)
    (h : a ++ sep :: x = b ++ sep :: y) : a = b ∧ x = y := by
  induction a generalizing b with
  | nil =>
    cases b with
    | nil => exact ⟨rfl, (List.cons.inj h).2⟩
    | cons c b =>
      have hc := (List.cons.inj h).1
      exact absurd (hc ▸ List.mem_cons_self _ _) hb
  | cons c a ih =>
    cases b with
    | nil =>
      have hc := (List.cons.inj h).1
      exact absurd (hc ▸ List.mem_cons_self _ _) ha
    | cons d b =>
      have h1 := List.cons.inj h
      obtain ⟨e1, e2⟩ := ih b (fun hm => ha (List.mem_cons_of_mem _ hm))
        (fun hm => hb (List.mem_cons_of_mem _ hm)) h1.2
      exact ⟨by rw [h1.1, e1], e2⟩

/-- C27 (as stated) fails: a `|` in an id moves the boundary between the parts
of the identifier.  Box `a|b` with secret `c` and box `a` with secret `b|c` get
the same lease file, and so do secret `b|5` without a version and secret `b` in
version 5 of the same box. -/
theorem GetLeaseFilePath_injective_counterexample :
    ((str "a|b", str "c", (-1 : Int)) ≠ (str "a", str "b|c", (-1 : Int))
      ∧ (GetLeaseFilePath exampleOS (str "a|b") (str "c") (-1) (World.fresh emptyFS)).1
        = (GetLeaseFilePath exampleOS (str "a") (str "b|c") (-1) (World.fresh emptyFS)).1
      ∧ (GetLeaseFilePath exampleOS (str "a") (str "b|c") (-1) (World.fresh emptyFS)).1
        = Outcome.ret (str "/home/u/pasmcli.data/vault_lease_YXxifGM=.txt", none))
    ∧ ((str "a", str "b|5", (-1 : Int)) ≠ (str "a", str "b", (5 : Int))
      ∧ (GetLeaseFilePath exampleOS (str "a") (str "b|5") (-1) (World.fresh emptyFS)).1
        = (GetLeaseFilePath exampleOS (str "a") (str "b") 5 (World.fresh emptyFS)).1
      ∧ (GetLeaseFilePath exampleOS (str "a") (str "b") 5 (World.fresh emptyFS)).1
        = Outcome.ret (str "/home/u/pasmcli.data/vault_lease_YXxifDU=.txt", none)) := by
  decide

/-- C27 (amended): with the data directory fixed, `GetLeaseFilePath` is
injective on the inputs whose box id and secret id contain no `|`: two such
inputs (box id, secret id, version) that differ, `-1` standing for an omitted
version, get different lease file paths. -/
theorem GetLeaseFilePath_injective (os : OS) (dir b1 s1 b2 s2 : GoString) (v1 v2 : Int)
    (w1 w2 : World)
    (hdir1 : (GetDataDir os w1).1 = Outcome.ret (dir, none))
    (hdir2 : (GetDataDir os w2).1 = Outcome.ret (dir, none))
    (hb1 : B 0x7C ∉ b1) (hs1 : B 0x7C ∉ s1) (hb2 : B 0x7C ∉ b2) (hs2 : B 0x7C ∉ s2)
    (hne : (b1, s1, v1) ≠ (b2, s2, v2)) :
    (GetLeaseFilePath os b1 s1 v1 w1).1 ≠ (GetLeaseFilePath os b2 s2 v2 w2).1 := by
  intro h
  rw [GetLeaseFilePath_eq os b1 s1 dir v1 w1 hdir1,
    GetLeaseFilePath_eq os b2 s2 dir v2 w2 hdir2] at h
  simp only [Outcome.ret.injEq, Prod.mk.injEq, and_true] at h
  have hid := leasePath_injective _ _ _ h
  have hbar : str "|" = [B 0x7C] := rfl
  rw [hbar] at hid
  by_cases n1 : v1 ≠ -1 <;> by_cases n2 : v2 ≠ -1
  · rw [if_pos n1, if_pos n2] at hid
    simp only [List.append_assoc, List.singleton_append] at hid
    obtain ⟨e1, e2⟩ := append_sep_inj _ _ _ _ _ hb1 hb2 hid
    obtain ⟨e3, e4⟩ := append_sep_inj _ _ _ _ _ hs1 hs2 e2
    exact hne (by rw [e1, e3, formatInt_injective _ _ e4])
  · rw [if_pos n1, if_neg n2] at hid
    simp only [List.append_assoc, List.singleton_append] at hid
    obtain ⟨e1, e2⟩ := append_sep_inj _ _ _ _ _ hb1 hb2 hid
    exact hs2 (by rw [← e2]; simp)
  · rw [if_neg n1, if_pos n2] at hid
    simp only [List.append_assoc, List.singleton_append] at hid
    obtain ⟨e1, e2⟩ := append_sep_inj _ _ _ _ _ hb1 hb2 hid
    exact hs1 (by rw [e2]; simp)
  · rw [if_neg n1, if_neg n2] at hid
    simp only [List.append_assoc, List.singleton_append] at hid
    obtain ⟨e1, e2⟩ := append_sep_inj _ _ _ _ _ hb1 hb2 hid
    have e3 : v1 = v2 := by
      have a1 : v1 = -1 := by simpa using n1
      have a2 : v2 = -1 := by simpa using n2
      rw [a1, a2]
    exact hne (by rw [e1, e2, e3])

/-- C27 (amended), at concrete inputs: secret `sec` in version 1 and secret
`sec2` without a version, both of box `box`, get different lease files. -/
theorem GetLeaseFilePath_injective_witness :
    (GetLeaseFilePath exampleOS (str "box") (str "sec") 1 (World.fresh emptyFS)).1
      ≠ (GetLeaseFilePath exampleOS (str "box") (str "sec2") (-1) (World.fresh emptyFS)).1 :=
  GetLeaseFilePath_injective exampleOS (str "/home/u/pasmcli.data") (str "box") (str "sec")
    (str "box") (str "sec2") 1 (-1) (World.fresh emptyFS) (World.fresh emptyFS)
    (by decide) (by decide) (by decide) (by decide) (by decide) (by decide) (by decide)

/-! ## C28: the provisioning loop -/

theorem setupServers_partition_aux (st : Setup) (infos : List SshServerInfo) (acc : SetupResult)
    (w : World) :
    ∃ res w1 flags, setupServers st infos acc w = (Outcome.ret res, w1)
      ∧ flags.length = infos.length
      ∧ res.successfulServers
          = acc.successfulServers ++ ((infos.zip flags).filter (fun p => p.2)).map Prod.fst
      ∧ res.unsuccessfulServers
          = acc.unsuccessfulServers ++ ((infos.zip flags).filter (fun p => !p.2)).map Prod.fst
      ∧ (∀ ok : SshServerInfo → Bool,
          (∀ log s, (setupKeybasedSshAccess st log s).1.isNone = ok s) →
            flags = infos.map ok) := by
  induction infos generalizing acc w with
  | nil => exact ⟨acc, w, [], rfl, rfl, by simp, by simp, fun _ _ => rfl⟩
  | cons s rest ih =>
    unfold setupServers
    rcases hr : setupKeybasedSshAccess st acc.log s with ⟨e, log1⟩
    rcases e with _ | err
    · simp only
      obtain ⟨res, w1, flags, h1, h2, h3, h4, h5⟩ := ih
        { acc with log := log1, successfulServers := acc.successfulServers ++ [s] } w
      refine ⟨res, w1, true :: flags, h1, by simp [h2], ?_, ?_, fun ok hok => ?_⟩
      · rw [h3]
        simp
      · rw [h4]
        simp
      · have := hok acc.log s
        rw [hr] at this
        rw [h5 ok hok, List.map_cons, ← this]
        rfl
    · simp only [bind_eq]
      unfold Proc.bind
      simp only [print]
      obtain ⟨res, w1, flags, h1, h2, h3, h4, h5⟩ := ih
        { acc with log := log1, unsuccessfulServers := acc.unsuccessfulServers ++ [s] }
        { w with stdout := w.stdout ++ (str "Error occurred while setting up key based access for server "
            ++ s.Server ++ str ". " ++ err.Error
            ++ str ". This server will not be onboarded in PASM vault.\n") }
      refine ⟨res, w1, false :: flags, h1, by simp [h2], ?_, ?_, fun ok hok => ?_⟩
      · rw [h3]
        simp
      · rw [h4]
        simp
      · have := hok acc.log s
        rw [hr] at this
        rw [h5 ok hok, List.map_cons, ← this]
        rfl

theorem zip_filter_sublist (infos : List SshServerInfo) (flags : List Bool)
    (p : SshServerInfo × Bool → Bool) :
    (((infos.zip flags).filter p).map Prod.fst).Sublist infos := by
  induction infos generalizing flags with
  | nil => simp
  | cons s rest ih =>
    cases flags with
    | nil => simp
    | cons f flags =>
      simp only [List.zip_cons_cons, List.filter_cons]
      split
      · simp only [List.map_cons]
        exact (ih flags).cons₂ s
      · exact (ih flags).cons s

theorem zip_filter_length (infos : List SshServerInfo) (flags : List Bool)
    (h : flags.length = infos.length) :
    (((infos.zip flags).filter (fun p => p.2)).map Prod.fst).length
      + (((infos.zip flags).filter (fun p => !p.2)).map Prod.fst).length = infos.length := by
  induction infos generalizing flags with
  | nil => simp
  | cons s rest ih =>
    cases flags with
    | nil => simp at h
    | cons f flags =>
      have := ih flags (by simpa using h)
      cases f <;> simp [List.filter_cons] at this ⊢ <;> omega

theorem zip_map_filter (infos : List SshServerInfo) (ok : SshServerInfo → Bool) :
    (((infos.zip (infos.map ok)).filter (fun p => p.2)).map Prod.fst) = infos.filter ok
      ∧ (((infos.zip (infos.map ok)).filter (fun p => !p.2)).map Prod.fst)
          = infos.filter (fun s => !ok s) := by
  induction infos with
  | nil => simp
  | cons s rest ih =>
    simp only [List.map_cons, List.zip_cons_cons, List.filter_cons]
    cases ok s <;> simp [ih.1, ih.2]

/-- C28: the second loop of `setupSSHProxy`, for every list of parsed servers
and every behaviour of the SSH servers.  The loop returns; the servers dialled
with a password are the parsed servers, each once and in order; there is one
flag per parsed server such that the successful list holds the servers whose
flag is set and the unsuccessful list the others, both in the input order, so
both are sublists of the input and their lengths sum to the number of parsed
servers; and when the result of the setup of a server does not depend on what
happened before (it is `ok s` whatever the history), the successful list is the
input filtered by `ok` and the unsuccessful list is the rest: what is recorded
for a host is the result of its own setup, whichever other hosts failed. -/
theorem setupServers_partition (st : Setup) (infos : List SshServerInfo) (w : World) :
    ∃ res w1, setupServers st infos
        { log := [], successfulServers := [], unsuccessfulServers := [] } w
        = (Outcome.ret res, w1)
      ∧ passwordDials res.log = infos.map (fun s => (sshAddr s, s.User, s.Password))
      ∧ (∃ flags : List Bool, flags.length = infos.length
          ∧ res.successfulServers
              = ((infos.zip flags).filter (fun p => p.2)).map Prod.fst
          ∧ res.unsuccessfulServers
              = ((infos.zip flags).filter (fun p => !p.2)).map Prod.fst)
      ∧ res.successfulServers.Sublist infos ∧ res.unsuccessfulServers.Sublist infos
      ∧ res.successfulServers.length + res.unsuccessfulServers.length = infos.length
      ∧ (∀ ok : SshServerInfo → Bool,
          (∀ log s, (setupKeybasedSshAccess st log s).1.isNone = ok s) →
            res.successfulServers = infos.filter ok
              ∧ res.unsuccessfulServers = infos.filter (fun s => !ok s)) := by
  obtain ⟨res, w1, flags, h1, h2, h3, h4, h5⟩ := setupServers_partition_aux st infos
    { log := [], successfulServers := [], unsuccessfulServers := [] } w
  obtain ⟨res2, w2, g1, _, _, g4, _⟩ := setupServers_attempts st infos
    { log := [], successfulServers := [], unsuccessfulServers := [] } w
  rw [h1] at g1
  simp only [Prod.mk.injEq, Outcome.ret.injEq] at g1
  obtain ⟨rfl, rfl⟩ := g1
  simp only [List.nil_append] at h3 h4
  refine ⟨res, w1, h1, by simpa [passwordDials] using g4, ⟨flags, h2, h3, h4⟩, ?_, ?_, ?_,
    fun ok hok => ?_⟩
  · rw [h3]
    exact zip_filter_sublist _ _ _
  · rw [h4]
    exact zip_filter_sublist _ _ _
  · rw [h3, h4]
    exact zip_filter_length _ _ h2
  · rw [h3, h4, h5 ok hok]
    exact zip_map_filter infos ok

theorem setupKeybasedSshAccess_pickySetup (log : List SshEvent) (s : SshServerInfo) :
    (setupKeybasedSshAccess pickySetup log s).1.isNone = decide (sshAddr s ≠ str "h2:22") := by
  simp only [setupKeybasedSshAccess, sshDo, runCommandOnSshServer, verifyKeybasedSshAccess,
    pickySetup, List.getLast?_concat]
  by_cases h : sshAddr s = str "h2:22"
  · simp [h]
  · simp [h]

set_option maxRecDepth 1000000 in
/-- C28, at three servers of which the second refuses the password: the first
and the third are recorded as successful, the second as unsuccessful. -/
theorem setupServers_partition_witness :
    ∃ res w1, setupServers pickySetup [hostServer (str "h1"), hostServer (str "h2"),
          hostServer (str "h3")]
        { log := [], successfulServers := [], unsuccessfulServers := [] } (World.fresh emptyFS)
        = (Outcome.ret res, w1)
      ∧ res.successfulServers = [hostServer (str "h1"), hostServer (str "h3")]
      ∧ res.unsuccessfulServers = [hostServer (str "h2")] := by
  obtain ⟨res, w1, h1, _, _, _, _, _, h7⟩ := setupServers_partition pickySetup
    [hostServer (str "h1"), hostServer (str "h2"), hostServer (str "h3")] (World.fresh emptyFS)
  obtain ⟨a, b⟩ := h7 (fun s => decide (sshAddr s ≠ str "h2:22"))
    setupKeybasedSshAccess_pickySetup
  exact ⟨res, w1, h1, a.trans (by decide), b.trans (by decide)⟩

/-! ## C29: the lease file of checkout and check-in -/

theorem GetLeaseFilePath_run (os : OS) (boxId secretId dir : GoString) (version : Int)
    (w : World) (hdir : (GetDataDir os w).1 = Outcome.ret (dir, none)) :
    GetLeaseFilePath os boxId secretId version w =
      (Outcome.ret (dir ++ str "/vault_lease_"
        ++ b64Encode (if version ≠ -1 then
            boxId ++ str "|" ++ secretId ++ str "|" ++ formatInt version
          else boxId ++ str "|" ++ secretId) ++ str ".txt", none), (GetDataDir os w).2) := by
  unfold GetLeaseFilePath
  rw [bind_eq]
  unfold Proc.bind
  rcases hg : GetDataDir os w with ⟨o, w1⟩
  rw [hg] at hdir
  simp only at hdir
  subst hdir
  rfl

theorem SaveLeaseInfo_run (os : OS) (f b s l e r : GoString) (v : Int) (w : World) :
    ∃ err, SaveLeaseInfo os f b s l e r v w
        = (Outcome.ret (f, err), { w with fs := (SaveLeaseInfo os f b s l e r v w).2.fs })
      ∧ FS.le w.fs (SaveLeaseInfo os f b s l e r v w).2.fs := by
  unfold SaveLeaseInfo osCreate
  rcases os.createErr f with _ | err
  · simp only
    unfold osWrite
    rcases os.writeErr f with _ | err
    · exact ⟨_, rfl, FS.le_trans (FS.le_writeFile _ _ _) (FS.le_writeFile _ _ _)⟩
    · exact ⟨_, rfl, FS.le_writeFile _ _ _⟩
  · exact ⟨_, rfl, FS.le_refl _⟩

theorem checkoutSaveLease_run (os : OS) (b s dir : GoString) (version : Option Int)
    (jsonOutput : Bool) (lInfo : lease_Info) (w : World)
    (hdir : (GetDataDir os w).1 = Outcome.ret (dir, none))
    (hne : lInfo.leaseId ≠ [])
    (hsave : (checkoutSaveLease os
      { dontSaveLease := false, leaseFile := [], boxid := b, secretid := s, version := version,
        jsonOutput := jsonOutput } lInfo w).1 = Outcome.ret ()) :
    ∃ p, (GetLeaseFilePath os b s (version.getD (-1)) w).1 = Outcome.ret (p, none)
      ∧ (checkoutSaveLease os
          { dontSaveLease := false, leaseFile := [], boxid := b, secretid := s,
            version := version, jsonOutput := jsonOutput } lInfo w).2
        = { w with
            fs := (SaveLeaseInfo os p b s lInfo.leaseId lInfo.expiresAt lInfo.renewable
              (version.getD 0) (GetDataDir os w).2).2.fs,
            stdout := w.stdout ++ (str "\nLease id saved in " ++ p
              ++ str ". Pass this file if checking in the secret with --lease-file option.\n") }
      ∧ (SaveLeaseInfo os p b s lInfo.leaseId lInfo.expiresAt lInfo.renewable
          (version.getD 0) (GetDataDir os w).2).1 = Outcome.ret (p, none) := by
  have hp := GetLeaseFilePath_run os b s dir (version.getD (-1)) w hdir
  refine ⟨_, congrArg Prod.fst hp, ?_⟩
  obtain ⟨err, hS, -⟩ := SaveLeaseInfo_run os (dir ++ str "/vault_lease_"
        ++ b64Encode (if version.getD (-1) ≠ -1 then
            b ++ str "|" ++ s ++ str "|" ++ formatInt (version.getD (-1))
          else b ++ str "|" ++ s) ++ str ".txt") b s lInfo.leaseId lInfo.expiresAt
        lInfo.renewable (version.getD 0) (GetDataDir os w).2
  have hw := GetDataDir_world os w
  unfold checkoutSaveLease at hsave ⊢
  simp only [Bool.false_eq_true, not_false_eq_true, ne_eq, hne, and_self, if_true, bind_eq]
    at hsave ⊢
  unfold Proc.bind at hsave ⊢
  rw [hp] at hsave ⊢
  simp only [Proc.pure] at hsave ⊢
  rw [hS] at hsave ⊢
  rcases err with _ | e
  · simp only [print] at hsave ⊢
    rw [hw]
    exact ⟨rfl, trivial⟩
  · simp [print, Proc.bind, osExit] at hsave

theorem checkinValidate_ids (os : OS) (b s dir : GoString) (version : Option Int) (w : World)
    (hdir : GetDataDir os w = (Outcome.ret (dir, none), w)) :
    checkinValidate os
        { leaseid := none, leaseFile := none, boxid := some b, secretid := some s,
          version := version } w
      = (Outcome.ret (Sum.inr (dir ++ str "/vault_lease_"
          ++ b64Encode (if version.getD (-1) ≠ -1 then
              b ++ str "|" ++ s ++ str "|" ++ formatInt (version.getD (-1))
            else b ++ str "|" ++ s) ++ str ".txt")), w) := by
  have hp := GetLeaseFilePath_run os b s dir (version.getD (-1)) w (congrArg Prod.fst hdir)
  rw [hdir] at hp
  unfold checkinValidate
  simp only [Option.isSome_some, and_self, not_true_eq_false, if_false, Option.getD_some, bind_eq]
  unfold Proc.bind
  rw [hp]
  rfl

theorem GetLeaseId_of_encode (os : OS) (f b s l e r : GoString) (v : Int) (w : World)
    (hl : ValidString l = true) (h1 : -2 ^ 63 ≤ v) (h2 : v < 2 ^ 63) (hne : l ≠ [])
    (hfile : w.fs.files f = some (leaseInfo.encode
      { BoxId := b, SecretId := s, LeaseId := l, ExpiresAt := e, Renewable := r, Version := v }))
    (hopen : os.openErr f = none) :
    GetLeaseId os f w = (Outcome.ret (l, none), w) := by
  obtain ⟨d1, d2⟩ := leaseInfo_decode_encode b s l e r v
    { BoxId := [], SecretId := [], LeaseId := [], ExpiresAt := [], Renewable := [], Version := 0 }
    hl h1 h2
  unfold GetLeaseId
  simp only [osOpen, hfile, hopen, readValue_leaseInfo, d1, d2]
  rw [if_neg hne]

/-- C29: `checkout-secret` without `--lease-file` and `checkin-secret` with the
same `--boxid`, `--secretid` and `--version` (given with the same value, or
omitted in both), in the same data directory `dir`.  Checkout writes nothing
when the lease id is empty.  When the lease id is not empty and checkout gets
through the saving of the lease without exiting, there is one path `p`: it is
the lease file path `GetLeaseFilePath` gives checkout, checkout reports it and
leaves a file there, and on the disk checkout leaves check-in finds the same
path `p` as the lease file to read, for every version and every box and secret
id; when that file can be opened, check-in reads from it the lease id that was
checked out (a lease id being valid UTF-8, as every string decoded from the
JSON answer is, and the version in the range of a Go `int`). -/
theorem checkout_checkin_lease_file (os : OS) (b s dir : GoString) (version : Option Int)
    (jsonOutput : Bool) (lInfo : lease_Info) (w w2 : World)
    (hdir : (GetDataDir os w).1 = Outcome.ret (dir, none))
    (hver : ∀ v, version = some v → -2 ^ 63 ≤ v ∧ v < 2 ^ 63)
    (hl : ValidString lInfo.leaseId = true)
    (hsave : (checkoutSaveLease os
      { dontSaveLease := false, leaseFile := [], boxid := b, secretid := s, version := version,
        jsonOutput := jsonOutput } lInfo w).1 = Outcome.ret ())
    (hfs : w2.fs = (checkoutSaveLease os
      { dontSaveLease := false, leaseFile := [], boxid := b, secretid := s, version := version,
        jsonOutput := jsonOutput } lInfo w).2.fs) :
    (lInfo.leaseId = [] →
      checkoutSaveLease os
        { dontSaveLease := false, leaseFile := [], boxid := b, secretid := s,
          version := version, jsonOutput := jsonOutput } lInfo w = (Outcome.ret (), w))
    ∧ (lInfo.leaseId ≠ [] →
      ∃ p, (GetLeaseFilePath os b s (version.getD (-1)) w).1 = Outcome.ret (p, none)
        ∧ (checkoutSaveLease os
            { dontSaveLease := false, leaseFile := [], boxid := b, secretid := s,
              version := version, jsonOutput := jsonOutput } lInfo w).2.stdout
          = w.stdout ++ (str "\nLease id saved in " ++ p
              ++ str ". Pass this file if checking in the secret with --lease-file option.\n")
        ∧ (w2.fs.files p).isSome = true
        ∧ checkinValidate os
            { leaseid := none, leaseFile := none, boxid := some b, secretid := some s,
              version := version } w2 = (Outcome.ret (Sum.inr p), w2)
        ∧ (os.openErr p = none →
          checkinLeaseId os
            { leaseid := none, leaseFile := none, boxid := some b, secretid := some s,
              version := version } w2 = (Outcome.ret lInfo.leaseId, w2))) := by
  constructor
  · intro he
    unfold checkoutSaveLease
    rw [if_neg (by simp [he])]
    rfl
  · intro hne
    obtain ⟨p, hp, hworld, hS⟩ := checkoutSaveLease_run os b s dir version jsonOutput lInfo w
      hdir hne hsave
    have hp2 := GetLeaseFilePath_eq os b s dir (version.getD (-1)) w hdir
    rw [hp] at hp2
    simp only [Outcome.ret.injEq, Prod.mk.injEq, and_true] at hp2
    have hfile := SaveLeaseInfo_ok os p b s lInfo.leaseId lInfo.expiresAt lInfo.renewable
      (version.getD 0) (GetDataDir os w).2 hS
    obtain ⟨_, _, hle⟩ := SaveLeaseInfo_run os p b s lInfo.leaseId lInfo.expiresAt
      lInfo.renewable (version.getD 0) (GetDataDir os w).2
    rw [hworld] at hfs
    simp only at hfs
    rw [← hfs] at hfile hle
    have hdir2 := GetDataDir_stable os w w2 dir hdir hle
    have hval := checkinValidate_ids os b s dir version w2 hdir2
    rw [← hp2] at hval
    have hrange : -2 ^ 63 ≤ version.getD 0 ∧ version.getD 0 < 2 ^ 63 := by
      cases version with
      | none => exact ⟨by decide, by decide⟩
      | some v => exact hver v rfl
    refine ⟨p, hp, ?_, by rw [hfile]; rfl, hval, fun hopen => ?_⟩
    · rw [hworld]
    · exact checkinLeaseId_of_file os _ w2 w2 w2 p lInfo.leaseId hval
        (GetLeaseId_of_encode os p b s lInfo.leaseId lInfo.expiresAt lInfo.renewable
          (version.getD 0) w2 hl hrange.1 hrange.2 hne hfile hopen)

set_option maxRecDepth 1000000 in
/-- C29, at a concrete checkout: the lease `lease-42` of version 3 of secret
`sec` in box `box`, saved on an empty disk, is the lease id check-in reads. -/
theorem checkout_checkin_lease_file_witness :
    ∃ w2 : World,
      w2.fs = (checkoutSaveLease exampleOS
        { dontSaveLease := false, leaseFile := [], boxid := str "box", secretid := str "sec",
          version := some 3, jsonOutput := false }
        { leaseId := str "lease-42", expiresAt := str "never", renewable := str "true" }
        (World.fresh emptyFS)).2.fs
      ∧ checkinLeaseId exampleOS
          { leaseid := none, leaseFile := none, boxid := some (str "box"),
            secretid := some (str "sec"), version := some 3 } w2
        = (Outcome.ret (str "lease-42"), w2) := by
  refine ⟨{ World.fresh emptyFS with fs := (checkoutSaveLease exampleOS
        { dontSaveLease := false, leaseFile := [], boxid := str "box", secretid := str "sec",
          version := some 3, jsonOutput := false }
        { leaseId := str "lease-42", expiresAt := str "never", renewable := str "true" }
        (World.fresh emptyFS)).2.fs }, rfl, ?_⟩
  obtain ⟨p, _, _, _, _, h⟩ := (checkout_checkin_lease_file exampleOS (str "box") (str "sec")
    (str "/home/u/pasmcli.data") (some 3) false
    { leaseId := str "lease-42", expiresAt := str "never", renewable := str "true" }
    (World.fresh emptyFS)
    { World.fresh emptyFS with fs := (checkoutSaveLease exampleOS
        { dontSaveLease := false, leaseFile := [], boxid := str "box", secretid := str "sec",
          version := some 3, jsonOutput := false }
        { leaseId := str "lease-42", expiresAt := str "never", renewable := str "true" }
        (World.fresh emptyFS)).2.fs }
    (by decide)
    (by intro v hv; cases hv; exact ⟨by decide, by decide⟩) (by decide) (by decide) rfl).2
    (by decide)
  exact h rfl

/-! ## C30: the sample CSV -/

theorem Atoi_port (txt : Text) :
    Atoi txt (str "port")
      = .error (GoError.library (str "strconv.Atoi: parsing " ++ txt.quote (str "port")
          ++ str ": " ++ str "invalid syntax")) := by
  have h1 : parseInt64 (str "port") = none := by decide
  have h2 : atoiSyntax (str "port") = false := by decide
  simp only [Atoi, h1, h2, Bool.false_eq_true, if_false]

theorem Atoi_22 (txt : Text) : Atoi txt (str "22") = .ok 22 := by
  have h1 : parseInt64 (str "22") = some 22 := by decide
  simp only [Atoi, h1]

set_option maxRecDepth 1000000 in
/-- C30: the text `download-sample-setup-ssh-csv` produces, read by the row
parser of `setup-ssh-proxy`.  The command prints the header line
`host,port,user,password` and the row `10.1.2.3,22,test_user,P4$$w0rd` (or
writes them to the file of `--output-file`); the CSV reader finds two records
of four fields in that text; `populateServerInfoFromCsvRecord` rejects the
header record with the error of `strconv.Atoi` on `port` and leaves the server
info as it was; and the first loop of `setupSSHProxy` on the two records skips
the header with a message and returns exactly one server, with host
`10.1.2.3`, port 22, user `test_user`, password `P4$$w0rd` and the first keys
generated. -/
theorem sample_csv_one_server (os : OS) (st : Setup) (txt : Text) (w : World)
    (keys : GoString × GoString × GoString) (hk : st.generateKeys 0 = .ok keys) :
    downloadSampleSetupSshCsv os none w
        = (Outcome.ret (),
            { w with stdout := w.stdout
                ++ str "host,port,user,password\n10.1.2.3,22,test_user,P4$$w0rd\n" })
    ∧ (∀ f, os.createErr f = none → os.writeErr f = none →
        ∃ w1, downloadSampleSetupSshCsv os (some f) w = (Outcome.ret (), w1)
          ∧ w1.fs.files f
              = some (str "host,port,user,password\n10.1.2.3,22,test_user,P4$$w0rd\n"))
    ∧ serverCsvRead (str "host,port,user,password\n10.1.2.3,22,test_user,P4$$w0rd\n")
        = some [.ok [str "host", str "port", str "user", str "password"],
                .ok [str "10.1.2.3", str "22", str "test_user", str "P4$$w0rd"]]
    ∧ (∀ serverInfo : SshServerInfo,
        populateServerInfoFromCsvRecord txt
            [str "host", str "port", str "user", str "password"] serverInfo w
          = (Outcome.ret (serverInfo,
              some (GoError.library (str "strconv.Atoi: parsing " ++ txt.quote (str "port")
                ++ str ": " ++ str "invalid syntax"))), w))
    ∧ readServerInfos st txt
          [.ok [str "host", str "port", str "user", str "password"],
           .ok [str "10.1.2.3", str "22", str "test_user", str "P4$$w0rd"]] 0 [] w
        = (Outcome.ret
            [{ Server := str "10.1.2.3", Port := 22, User := str "test_user",
               Password := str "P4$$w0rd", Private_key := keys.1, Public_key := keys.2.1,
               Passphrase := keys.2.2 }],
            { w with stdout := w.stdout ++ (str "Error parsing record. "
                ++ (str "strconv.Atoi: parsing " ++ txt.quote (str "port")
                  ++ str ": " ++ str "invalid syntax")
                ++ str ". This row will be skipped from processing.\n") }) := by
  refine ⟨?_, fun f hc hw => ?_, ?_, fun serverInfo => ?_, ?_⟩
  · simp only [downloadSampleSetupSshCsv, bind_eq, Proc.bind, print, List.append_assoc]
    rfl
  · simp only [downloadSampleSetupSshCsv, writeCsvToFile, osCreate, hc, bind_eq, Proc.bind,
      writeLineToFile, osWrite, hw]
    refine ⟨_, rfl, ?_⟩
    simp only [FS.writeFile, if_true, Option.getD_some, List.nil_append]
    rfl
  · unfold serverCsvRead
    rw [if_neg (by decide)]
    simp only [csvRecords]
    rfl
  · simp only [populateServerInfoFromCsvRecord, List.getElem?_cons_succ,
      List.getElem?_cons_zero, Atoi_port]
    rfl
  · simp only [readServerInfos, populateServerInfoFromCsvRecord, List.getElem?_cons_succ,
      List.getElem?_cons_zero, Atoi_port, Atoi_22, bind_eq, Proc.bind, Proc.pure, print, hk]
    rfl

set_option maxRecDepth 1000000 in
/-- C30, in the example setting: the sample file yields the one server
`10.1.2.3` with the keys generated first. -/
theorem sample_csv_one_server_witness :
    exampleSetup.generateKeys 0 = .ok (str "priv0", str "pub0", str "pass0")
    ∧ (readServerInfos exampleSetup exampleText
          [.ok [str "host", str "port", str "user", str "password"],
           .ok [str "10.1.2.3", str "22", str "test_user", str "P4$$w0rd"]] 0 []
          (World.fresh emptyFS)).1
        = Outcome.ret
            [{ Server := str "10.1.2.3", Port := 22, User := str "test_user",
               Password := str "P4$$w0rd", Private_key := str "priv0", Public_key := str "pub0",
               Passphrase := str "pass0" }] :=
  ⟨rfl, congrArg Prod.fst (sample_csv_one_server exampleOS exampleSetup exampleText
    (World.fresh emptyFS) (str "priv0", str "pub0", str "pass0") rfl).2.2.2.2⟩

end Pasmcli
